import Mathlib

/-!
# lkmd, x86 architecture support (`src/x86/lkmda_support.c`)

A shallow embedding of the architecture-dependent core of the debugger: the
privileged write gate, the trap-vector editor, the inline hook, the hardware
breakpoint manager, the register-access facade, the single-step control and
the multi-processor halt coordinator, followed by theorems that settle the
specification's claims against it.

Conventions.  Machine integers are natural numbers; a reduction modulo a power
of two is written wherever the C code truncates or wraps.  The two word widths
of the source (`CONFIG_X86_32`, `CONFIG_X86_64`) are the two values of `Width`;
functions the source defines twice live in the namespaces `X86_32`, `X86_64`.
-/

namespace Lkmd

/-- Word width the file is compiled for: `CONFIG_X86_32` or `CONFIG_X86_64`. -/
inductive Width where
  | w32
  | w64
  deriving DecidableEq, Repr

/-! ## Privileged write gate (source lines 85-150) -/

/-- Observable steps of the write gate, recorded in program order. -/
inductive GateEvent where
  | set_cr0_rw
  | store (addr val : Nat)
  | set_cr0_ro
  deriving DecidableEq, Repr

/-- The part of the processor and of memory that the gate and the trap-vector
editor touch: control register CR0, the accumulator (`eax`, `rax`), the
interrupt-enable flag, byte-addressed memory, the base address the `sidt`
instruction reports, and the recorded steps. -/
structure Machine where
  cr0 : Nat
  ax : Nat
  intr : Bool
  mem : Nat → Nat
  idt_base : Nat
  trace : List GateEvent

/-- Source `set_cr0_rw`: `cli`, then CR0 is loaded into the accumulator, and-ed
there with `0xfffeffff` and written back from it.  The operation is carried out
on `eax`; in the 64-bit build its result is zero-extended into `rax`, so the
upper half of CR0 is written as zero, which the conjunction with a 32-bit
constant expresses for both builds.  The `asm` statement names no output and no
clobber: the accumulator is left holding the new CR0 value. -/
def set_cr0_rw (m : Machine) : Machine :=
  { m with intr := false, ax := m.cr0 &&& 0xfffeffff, cr0 := m.cr0 &&& 0xfffeffff,
           trace := m.trace ++ [GateEvent.set_cr0_rw] }

/-- Source `set_cr0_ro`: CR0 is loaded into the accumulator, or-ed there with
`0x10000` on `eax` (the 64-bit build zero-extends the result into `rax`) and
written back from it, then `sti`.  The accumulator is left holding the new CR0
value. -/
def set_cr0_ro (m : Machine) : Machine :=
  { m with ax := (m.cr0 % 2 ^ 32) ||| 0x10000, cr0 := (m.cr0 % 2 ^ 32) ||| 0x10000,
           intr := true, trace := m.trace ++ [GateEvent.set_cr0_ro] }

/-- Where the compiled code holds the destination pointer of a write function
while `set_cr0_rw` runs.  The `asm` statements overwrite the accumulator without
declaring it, so a compiler that expands them in line takes the accumulator for
unchanged: a pointer it holds there (`accumulator disp`, the store being
addressed as `disp(%eax)`) is the new CR0 value by the time of the store; a
pointer held anywhere else (`kept`) survives. -/
inductive AddrHome where
  | kept
  | accumulator (disp : Nat)
  deriving DecidableEq, Repr

/-- Where the compiled code holds the value of a write function while
`set_cr0_rw` runs: anywhere but the accumulator (`kept`), or in the accumulator,
the store taking byte `byte` of it (`%al` for byte 0, `%ah` for byte 1, a shift
for the others). -/
inductive ByteHome where
  | kept
  | accumulator (byte : Nat)
  deriving DecidableEq, Repr

/-- The homes of the two operands of one byte store. -/
structure Homes where
  addr : AddrHome
  byte : ByteHome
  deriving DecidableEq, Repr

/-- The homes of the operands of each byte store of a write function, the stores
counted from 0 in program order.  The source leaves this to the compiler; the
write functions below take it as a parameter. -/
def Placement : Type := Nat → Homes

/-- Both operands of a store survive the `asm` statements. -/
def kept_homes : Homes := { addr := AddrHome.kept, byte := ByteHome.kept }

/-- Every operand of every store survives: the placement of a build that
reloads the arguments from the stack after each statement (`gcc -O0`). -/
def operands_kept : Placement := fun _ => kept_homes

/-- The destination pointer is held in the accumulator throughout and the value
elsewhere: the placement of the 32-bit build with the kernel's calling
convention (`-mregparm=3`: first argument in `eax`, second in `edx`) once
`set_cr0_rw` is expanded in line (`gcc -O2` emits `movb %dl, (%eax)`,
`movb %dh, 1(%eax)`, ...). -/
def pointer_in_accumulator : Placement :=
  fun i => { addr := AddrHome.accumulator i, byte := ByteHome.kept }

/-- The second byte of each 16-bit write is taken from `%ah`, everything else
survives: the placement of the 64-bit `kernel_writew` as `gcc -O2` compiles it
(`movl %esi, %eax` before the first `asm`, `movb %ah, 1(%rdi)` after the
third), and of a `kernel_writel` carried out as two calls of it. -/
def second_byte_from_ah : Placement :=
  fun i => if i % 2 = 1 then { addr := AddrHome.kept, byte := ByteHome.accumulator 1 }
    else kept_homes

/-- The address the store uses, given the home of the pointer. -/
def store_addr (h : AddrHome) (m : Machine) (dst : Nat) : Nat :=
  match h with
  | AddrHome.kept => dst
  | AddrHome.accumulator disp => m.ax + disp

/-- The value the store uses, given the home of the value; the store keeps its
low byte. -/
def store_byte (h : ByteHome) (m : Machine) (src : Nat) : Nat :=
  match h with
  | ByteHome.kept => src
  | ByteHome.accumulator byte => m.ax / 256 ^ byte

/-- The plain store `*dst = src` of one byte. -/
def store8 (m : Machine) (dst src : Nat) : Machine :=
  { m with mem := fun a => if a = dst then src % 256 else m.mem a,
           trace := m.trace ++ [GateEvent.store dst (src % 256)] }

/-- Source `kernel_writeb`: `set_cr0_rw`, the store, `set_cr0_ro`.  The store
finds its operands where the build holds them, after `set_cr0_rw` has run. -/
def kernel_writeb (h : Homes) (m : Machine) (dst src : Nat) : Machine :=
  let m1 := set_cr0_rw m
  set_cr0_ro (store8 m1 (store_addr h.addr m1 dst) (store_byte h.byte m1 src))

/-- Source `kernel_writew`: the two bytes of `src`, low byte first. -/
def kernel_writew (p : Placement) (m : Machine) (dst src : Nat) : Machine :=
  kernel_writeb (p 1) (kernel_writeb (p 0) m dst (src % 256)) (dst + 1) (src / 256 % 256)

/-- Source `kernel_writel`: the two 16-bit halves of `src`, low half first. -/
def kernel_writel (p : Placement) (m : Machine) (dst src : Nat) : Machine :=
  kernel_writew (fun i => p (i + 2)) (kernel_writew p m dst (src % 65536)) (dst + 2)
    (src / 65536 % 65536)

/-- Source `kernel_writeq`: the two 32-bit halves of `src`, low half first. -/
def kernel_writeq (p : Placement) (m : Machine) (dst src : Nat) : Machine :=
  kernel_writel (fun i => p (i + 4)) (kernel_writel p m dst (src % 4294967296)) (dst + 4)
    (src / 4294967296 % 4294967296)

/-- Source `kernel_write_ul`: dispatch on `sizeof(unsigned long)`. -/
def kernel_write_ul (w : Width) (p : Placement) (m : Machine) (dst src : Nat) : Machine :=
  match w with
  | Width.w32 => kernel_writel p m dst src
  | Width.w64 => kernel_writeq p m dst src

/-- A machine with CR0 = `0x80050033` (paging, write protection and protected
mode on), interrupts enabled, memory all zero and no step recorded yet. -/
def gate_sample : Machine :=
  { cr0 := 0x80050033
    ax := 0
    intr := true
    mem := fun _ => 0
    idt_base := 0
    trace := [] }

/-- A byte read from memory. -/
def read8 (m : Machine) (a : Nat) : Nat := m.mem a % 256

/-- A little-endian `u16` read from memory. -/
def read16 (m : Machine) (a : Nat) : Nat := read8 m a + 256 * read8 m (a + 1)

/-- A little-endian `u32` read from memory. -/
def read32 (m : Machine) (a : Nat) : Nat := read16 m a + 65536 * read16 m (a + 2)

/-! ## Trap vector table editor (source lines 172-236) -/

/-- The size of `struct lkmd_gate_desc` (packed): four `u16` in the 32-bit
build, four `u16` and two `u32` in the 64-bit build. -/
def sizeof_gate_desc : Width → Nat
  | Width.w32 => 8
  | Width.w64 => 16

/-- Source `idt_gate_desc`: the address of entry `n` of the table located by
`sidt`. -/
def idt_gate_desc (w : Width) (m : Machine) (n : Nat) : Nat :=
  m.idt_base + n * sizeof_gate_desc w

/-- The fields of `struct lkmd_gate_desc` as read from memory at `desc`.  The
fields `offset3` and `zero2` exist in the 64-bit layout only and read as `0` in
the 32-bit layout. -/
structure GateDesc where
  offset1 : Nat
  segment : Nat
  zero1 : Nat
  offset2 : Nat
  offset3 : Nat
  zero2 : Nat
  deriving DecidableEq, Repr

/-- Reading every field of the descriptor at address `desc`. -/
def read_gate_desc (w : Width) (m : Machine) (desc : Nat) : GateDesc :=
  { offset1 := read16 m desc
    segment := read16 m (desc + 2)
    zero1 := read16 m (desc + 4)
    offset2 := read16 m (desc + 6)
    offset3 := match w with
      | Width.w32 => 0
      | Width.w64 => read32 m (desc + 8)
    zero2 := match w with
      | Width.w32 => 0
      | Width.w64 => read32 m (desc + 12) }

/-- The conversion C applies to `desc->offset1 | (desc->offset2 << 16)` when it
is assigned to `unsigned long old_addr`.  Both operands are `u16`, so they are
promoted to `int` and the expression has type `int`; `bits` is its 32-bit
pattern.  A 32-bit `unsigned long` receives the pattern itself; a 64-bit
`unsigned long` receives the sign extension of the `int`. -/
def int_to_ulong (w : Width) (bits : Nat) : Nat :=
  match w with
  | Width.w32 => bits % 2 ^ 32
  | Width.w64 =>
    if bits % 2 ^ 32 < 2 ^ 31 then bits % 2 ^ 32
    else bits % 2 ^ 32 + (2 ^ 64 - 2 ^ 32)

/-- Source `lkmd_int_hook`: returns the reassembled previous handler address
and the machine after the new address `addr` has been written into the split
fields.  `pw` and `pl` are the placements of the compiled `kernel_writew` and
`kernel_writel`. -/
def lkmd_int_hook (w : Width) (pw pl : Placement) (m : Machine) (n addr : Nat) :
    Nat × Machine :=
  let desc := idt_gate_desc w m n
  let low := int_to_ulong w (read16 m desc ||| (read16 m (desc + 6) <<< 16))
  let old_addr := match w with
    | Width.w32 => low
    | Width.w64 => low ||| (read32 m (desc + 8) <<< 32)
  let m1 := kernel_writew pw m desc (addr % 65536)
  let m2 := kernel_writew pw m1 (desc + 6) (addr / 65536 % 65536)
  let m3 := match w with
    | Width.w32 => m2
    | Width.w64 => kernel_writel pl m2 (desc + 8) (addr / 4294967296 % 4294967296)
  (old_addr, m3)

/-- Source `lkmd_int_unhook`: writes `old_addr` back into the split fields. -/
def lkmd_int_unhook (w : Width) (pw pl : Placement) (m : Machine) (n old_addr : Nat) :
    Machine :=
  let desc := idt_gate_desc w m n
  let m1 := kernel_writew pw m desc (old_addr % 65536)
  let m2 := kernel_writew pw m1 (desc + 6) (old_addr / 65536 % 65536)
  match w with
  | Width.w32 => m2
  | Width.w64 => kernel_writel pl m2 (desc + 8) (old_addr / 4294967296 % 4294967296)

/-- Hook immediately followed by unhook with the address the hook returned. -/
def hook_then_unhook (w : Width) (pw pl : Placement) (m : Machine) (n addr : Nat) : Machine :=
  lkmd_int_unhook w pw pl (lkmd_int_hook w pw pl m n addr).2 n
    (lkmd_int_hook w pw pl m n addr).1

/-- A machine whose table starts at address `0x1000` and whose entry 1 (64-bit
layout, at `0x1010`) holds the handler address `0xffffc900_8000_1234`, an
address in the `vmalloc` range: `offset1 = 0x1234`, selector `0x10`, attribute
word `0x8e00`, `offset2 = 0x8000`, `offset3 = 0xffffc900`. -/
def idt_sample : Machine :=
  { cr0 := 0x80050033
    ax := 0
    intr := true
    mem := fun a =>
      if a = 0x1010 then 0x34 else if a = 0x1011 then 0x12
      else if a = 0x1012 then 0x10 else if a = 0x1015 then 0x8e
      else if a = 0x1017 then 0x80 else if a = 0x1019 then 0xc9
      else if a = 0x101a then 0xff else if a = 0x101b then 0xff else 0
    idt_base := 0x1000
    trace := [] }

/-- The page size of the x86 kernel (`PAGE_SIZE`); `PAGE_MASK` is its
complement mask, so `addr & PAGE_MASK` is `addr / PAGE_SIZE * PAGE_SIZE` and
`addr & ~PAGE_MASK` is `addr % PAGE_SIZE`. -/
def PAGE_SIZE : Nat := 4096

/-- The kernel address space as the inline hook sees it: physical memory, byte
addressed, and the page table that sends a virtual page number to the page
frame backing it (`none`: not mapped). -/
structure AddrSpace where
  phys : Nat → Nat
  pt : Nat → Option Nat

/-- Translation of a virtual address; `none` is a page fault. -/
def translate (s : AddrSpace) (va : Nat) : Option Nat :=
  match s.pt (va / PAGE_SIZE) with
  | none => none
  | some pfn => some (pfn * PAGE_SIZE + va % PAGE_SIZE)

/-- A byte load through the page table. -/
def load8 (s : AddrSpace) (va : Nat) : Option Nat :=
  match translate s va with
  | none => none
  | some pa => some (s.phys pa % 256)

/-- Loading `k` consecutive bytes starting at `va`, as `memcpy` reads them. -/
def load_bytes (s : AddrSpace) (va : Nat) : Nat → Option (List Nat)
  | 0 => some []
  | k + 1 =>
    match load8 s va, load_bytes s (va + 1) k with
    | some b, some bs => some (b :: bs)
    | _, _ => none

/-- Writing one byte of physical memory. -/
def store_phys (s : AddrSpace) (pa v : Nat) : AddrSpace :=
  { s with phys := fun a => if a = pa then v % 256 else s.phys a }

/-- The store `*(u8 *)va = v`; `none` is a page fault. -/
def vstore8 (s : AddrSpace) (va v : Nat) : Option AddrSpace :=
  match translate s va with
  | none => none
  | some pa => some (store_phys s pa v)

/-- The store `*(u32 *)va = v`, little-endian.  The four bytes are translated
one by one, so a store that crosses a page boundary lands in whatever frames
the two virtual pages are mapped to, and faults without writing when one of
them is not mapped. -/
def vstore32 (s : AddrSpace) (va v : Nat) : Option AddrSpace :=
  match translate s va, translate s (va + 1), translate s (va + 2), translate s (va + 3) with
  | some p0, some p1, some p2, some p3 =>
    some (store_phys (store_phys (store_phys (store_phys s p0 v) p1 (v / 256))
      p2 (v / 65536)) p3 (v / 16777216))
  | _, _, _, _ => none

/-- Source `lkmd_virt_to_page`: the page frame backing a kernel virtual
address, `none` standing for the null `struct page *`. -/
def lkmd_virt_to_page (s : AddrSpace) (addr : Nat) : Option Nat :=
  s.pt (addr / PAGE_SIZE)

/-- Host kernel `vmap(&p, 1, VM_MAP, PAGE_KERNEL)`: maps exactly ONE page, the
frame `p`, at a virtual page of the allocator's choosing and returns its
address.  The choice is the argument `alias_page`; `none`, page 0 and a page
that is already in use stand for a failed allocation, which returns the null
pointer `0` and maps nothing. -/
def vmap (s : AddrSpace) (p : Nat) (alias_page : Option Nat) : AddrSpace × Nat :=
  match alias_page with
  | none => (s, 0)
  | some v =>
    if v = 0 then (s, 0)
    else match s.pt v with
      | some _ => (s, 0)
      | none => ({ s with pt := fun q => if q = v then some p else s.pt q }, v * PAGE_SIZE)

/-- Host kernel `vunmap`: removes the mapping of the page at `pgaddr`. -/
def vunmap (s : AddrSpace) (pgaddr : Nat) : AddrSpace :=
  { s with pt := fun q => if q = pgaddr / PAGE_SIZE then none else s.pt q }

/-- Source `lkmd_vmap`: a writable alias of the single page that holds `addr`;
returns the address inside the alias that corresponds to `addr`, or the null
pointer `0`. -/
def lkmd_vmap (alias_page : Option Nat) (s : AddrSpace) (addr : Nat) : AddrSpace × Nat :=
  let pgaddr := addr / PAGE_SIZE * PAGE_SIZE
  let offset := addr % PAGE_SIZE
  match lkmd_virt_to_page s pgaddr with
  | none => (s, 0)
  | some p =>
    let r := vmap s p alias_page
    if r.2 = 0 then (r.1, 0) else (r.1, r.2 + offset)

/-- Source `lkmd_vumap`. -/
def lkmd_vumap (s : AddrSpace) (addr : Nat) : AddrSpace :=
  let pgaddr := addr / PAGE_SIZE * PAGE_SIZE
  if pgaddr ≠ 0 then vunmap s pgaddr else s

/-- Modelled from the spec: the hook record `struct lkmd_hook_sym`, declared in
the absent header `lkmd_private.h`.  The source reads and writes its members
`orig_addr` and `buf` only; `buf` is the fixed buffer of 5 bytes, which
`memcpy(sym->buf, orig_fn, 5)` fills completely. -/
structure lkmd_hook_sym where
  orig_addr : Nat
  buf : List Nat
  deriving DecidableEq, Repr

/-- The value `(u32)(new_fn - (orig_fn + 5))`: the pointer difference reduced
modulo `2 ^ 32`. -/
def disp32 (new_fn orig_fn : Nat) : Nat :=
  (((new_fn : Int) - ((orig_fn : Int) + 5)) % 4294967296).toNat

/-- The signed reading of a 32-bit displacement, as the processor applies it
to the address of the next instruction. -/
def signext32 (d : Nat) : Int :=
  if d < 2147483648 then (d : Int) else (d : Int) - 4294967296

/-- Source `lkmda_inline_hook`.  The result is the record as the function
leaves it, and the address space after the call, `none` when one of its memory
accesses faults (the record is then as it stood at the fault). -/
def lkmda_inline_hook (alias_page : Option Nat) (s : AddrSpace) (sym : lkmd_hook_sym)
    (orig_fn new_fn : Nat) : lkmd_hook_sym × Option AddrSpace :=
  let r := lkmd_vmap alias_page s orig_fn
  let addr := r.2
  let sym1 : lkmd_hook_sym := { sym with orig_addr := orig_fn }
  match load_bytes r.1 orig_fn 5 with
  | none => (sym1, none)
  | some bs =>
    let sym2 : lkmd_hook_sym := { sym1 with buf := bs }
    match vstore8 r.1 addr 0xe9 with
    | none => (sym2, none)
    | some s2 =>
      match vstore32 s2 (addr + 1) (disp32 new_fn orig_fn) with
      | none => (sym2, none)
      | some s3 => (sym2, some (lkmd_vumap s3 addr))

/-- Source `lkmda_inline_unhook`: its body is a comment, so it changes
nothing. -/
def lkmda_inline_unhook (s : AddrSpace) (_sym : lkmd_hook_sym) : AddrSpace := s

/-- The bytes at `va` in the address space a call left behind. -/
def bytes_after (r : Option AddrSpace) (va k : Nat) : Option (List Nat) :=
  match r with
  | none => none
  | some s => load_bytes s va k

/-- An address space with virtual pages 1, 2 and 3 mapped to the frames 1, 2
and 3 and nothing else mapped; the bytes from `0x1ffe` on are
`55 48 89 e5 90 c3`, every other byte is `0xcc`. -/
def code_sample : AddrSpace :=
  { phys := fun a =>
      if a = 0x1ffe then 0x55 else if a = 0x1fff then 0x48 else if a = 0x2000 then 0x89
      else if a = 0x2001 then 0xe5 else if a = 0x2002 then 0x90 else if a = 0x2003 then 0xc3
      else 0xcc
    pt := fun q => if q = 1 then some 1 else if q = 2 then some 2 else if q = 3 then some 3
      else none }

/-- The address space `code_sample` with one more virtual page, page 8, mapped
to frame 8. -/
def code_sample_adjacent : AddrSpace :=
  { code_sample with pt := fun q => if q = 8 then some 8 else code_sample.pt q }

/-- A hook record that has not been used yet. -/
def empty_sym : lkmd_hook_sym := { orig_addr := 0, buf := [0, 0, 0, 0, 0] }

/-! ## Hardware breakpoint manager (source lines 370-534) -/

/-- The debug registers of one processor that the source can name: the four
address registers, the status register DR6 and the control register DR7.
DR4 and DR5 are reserved and neither read nor written. -/
structure DebugRegs where
  dr0 : Nat
  dr1 : Nat
  dr2 : Nat
  dr3 : Nat
  dr6 : Nat
  dr7 : Nat
  deriving DecidableEq, Repr

/-- Source `kdba_putdr`: registers 0-3, 6 and 7 are written, every other
number is ignored. -/
def kdba_putdr (d : DebugRegs) (regnum : Int) (contents : Nat) : DebugRegs :=
  if regnum = 0 then { d with dr0 := contents }
  else if regnum = 1 then { d with dr1 := contents }
  else if regnum = 2 then { d with dr2 := contents }
  else if regnum = 3 then { d with dr3 := contents }
  else if regnum = 6 then { d with dr6 := contents }
  else if regnum = 7 then { d with dr7 := contents }
  else d

/-- Source `kdba_getdr`: registers 0-3, 6 and 7 are read, every other number
yields `0`. -/
def kdba_getdr (d : DebugRegs) (regnum : Int) : Nat :=
  if regnum = 0 then d.dr0
  else if regnum = 1 then d.dr1
  else if regnum = 2 then d.dr2
  else if regnum = 3 then d.dr3
  else if regnum = 6 then d.dr6
  else if regnum = 7 then d.dr7
  else 0

/-- Source `kdba_getdr6`. -/
def kdba_getdr6 (d : DebugRegs) : Nat := kdba_getdr d 6

/-- Source `kdba_getdr7`. -/
def kdba_getdr7 (d : DebugRegs) : Nat := kdba_getdr d 7

/-- Source `kdba_putdr6`. -/
def kdba_putdr6 (d : DebugRegs) (contents : Nat) : DebugRegs := kdba_putdr d 6 contents

/-- Source `kdba_putdr7`. -/
def kdba_putdr7 (d : DebugRegs) (contents : Nat) : DebugRegs := kdba_putdr d 7 contents

/-- The C operation `x &= ~mask`. -/
def clear_bits (x mask : Nat) : Nat := x ^^^ (x &&& mask)

/-- Modelled from the spec: the constant `DR7_GE` of the absent header
`lkmd.h`, the global-exact enable bit of the control register (bit 9). -/
def DR7_GE : Nat := 0x200

/-- Modelled from the spec: the macros `DR7_RW0SET` .. `DR7_RW3SET` of the
absent header, written `DR7_RWSET n`: they store the two low bits of `rw` in
the read/write-mode field of slot `n`, bits `16 + 4n` and `17 + 4n`. -/
def DR7_RWSET (n dr rw : Nat) : Nat :=
  clear_bits dr (3 <<< (16 + 4 * n)) ||| ((rw &&& 3) <<< (16 + 4 * n))

/-- Modelled from the spec: the macros `DR7_LEN0SET` .. `DR7_LEN3SET` of the
absent header, written `DR7_LENSET n`: they store the two low bits of `len` in
the operand-length field of slot `n`, bits `18 + 4n` and `19 + 4n`. -/
def DR7_LENSET (n dr len : Nat) : Nat :=
  clear_bits dr (3 <<< (18 + 4 * n)) ||| ((len &&& 3) <<< (18 + 4 * n))

/-- Modelled from the spec: the macros `DR7_G0SET` .. `DR7_G3SET` of the absent
header: they set the global-enable bit of slot `n`, bit `2n + 1`. -/
def DR7_GSET (n dr : Nat) : Nat := dr ||| 2 ^ (2 * n + 1)

/-- Modelled from the spec: the macros `DR7_G0CLR` .. `DR7_G3CLR` of the absent
header: they clear the global-enable bit of slot `n`, bit `2n + 1`. -/
def DR7_GCLR (n dr : Nat) : Nat := clear_bits dr (2 ^ (2 * n + 1))

/-- Modelled from the spec: the macros `DR7_L0CLR` .. `DR7_L3CLR` of the absent
header: they clear the local-enable bit of slot `n`, bit `2n`. -/
def DR7_LCLR (n dr : Nat) : Nat := clear_bits dr (2 ^ (2 * n))

/-- The read/write-mode field of slot `n` of a control-register value. -/
def DR7_RW (n dr : Nat) : Nat := (dr >>> (16 + 4 * n)) &&& 3

/-- The operand-length field of slot `n` of a control-register value. -/
def DR7_LEN (n dr : Nat) : Nat := (dr >>> (18 + 4 * n)) &&& 3

/-- Modelled from the spec: the per-processor hardware part of a breakpoint,
`kdb_bph_t` of the absent header `lkmd.h`, with the members the source uses:
the slot it claims, the comparison mode and the operand length. -/
structure kdb_bph_t where
  bph_reg : Int
  bph_mode : Nat
  bph_length : Nat
  deriving DecidableEq, Repr

/-- Modelled from the spec: a breakpoint descriptor, `kdb_bp_t` of the absent
header `lkmd.h`, with the members the source uses: the address and, per
processor, the pointer to the hardware part, `none` being the null pointer. -/
structure kdb_bp_t where
  bp_addr : Nat
  bp_hard : Nat → Option kdb_bph_t

/-- Lines the source prints with `lkmd_printf`. -/
inductive ConsoleLine where
  | bad_debug_register (regnum : Int)
  | pt_regs_not_available
  deriving DecidableEq, Repr

/-- One processor as the breakpoint manager sees it: its debug registers and
the console output so far. -/
structure Cpu where
  dr : DebugRegs
  console : List ConsoleLine
  deriving DecidableEq, Repr

/-- Source `kdba_installdbreg`, run on processor `cpu`.  The hardware part is
dereferenced without a null check, so `none` (a fault) results when the
breakpoint has none on this processor. -/
def kdba_installdbreg (c : Cpu) (cpu : Nat) (bp : kdb_bp_t) : Option Cpu :=
  match bp.bp_hard cpu with
  | none => none
  | some h =>
    let dr7 := kdba_getdr7 c.dr
    let d1 := kdba_putdr c.dr h.bph_reg bp.bp_addr
    let dr7 := dr7 ||| DR7_GE
    if h.bph_reg = 0 then
      let v := DR7_GSET 0 (DR7_LENSET 0 (DR7_RWSET 0 dr7 h.bph_mode) h.bph_length)
      some { c with dr := kdba_putdr7 d1 v }
    else if h.bph_reg = 1 then
      let v := DR7_GSET 1 (DR7_LENSET 1 (DR7_RWSET 1 dr7 h.bph_mode) h.bph_length)
      some { c with dr := kdba_putdr7 d1 v }
    else if h.bph_reg = 2 then
      let v := DR7_GSET 2 (DR7_LENSET 2 (DR7_RWSET 2 dr7 h.bph_mode) h.bph_length)
      some { c with dr := kdba_putdr7 d1 v }
    else if h.bph_reg = 3 then
      let v := DR7_GSET 3 (DR7_LENSET 3 (DR7_RWSET 3 dr7 h.bph_mode) h.bph_length)
      some { c with dr := kdba_putdr7 d1 v }
    else
      some { dr := kdba_putdr7 d1 dr7
             console := c.console ++ [ConsoleLine.bad_debug_register h.bph_reg] }

/-- Source `kdba_removedbreg`, run on processor `cpu`. -/
def kdba_removedbreg (c : Cpu) (cpu : Nat) (bp : kdb_bp_t) : Cpu :=
  match bp.bp_hard cpu with
  | none => c
  | some h =>
    let regnum := h.bph_reg
    let dr7 := kdba_getdr7 c.dr
    let d1 := kdba_putdr c.dr regnum 0
    if regnum = 0 then { c with dr := kdba_putdr7 d1 (DR7_LCLR 0 (DR7_GCLR 0 dr7)) }
    else if regnum = 1 then { c with dr := kdba_putdr7 d1 (DR7_LCLR 1 (DR7_GCLR 1 dr7)) }
    else if regnum = 2 then { c with dr := kdba_putdr7 d1 (DR7_LCLR 2 (DR7_GCLR 2 dr7)) }
    else if regnum = 3 then { c with dr := kdba_putdr7 d1 (DR7_LCLR 3 (DR7_GCLR 3 dr7)) }
    else
      { dr := kdba_putdr7 d1 dr7
        console := c.console ++ [ConsoleLine.bad_debug_register regnum] }

/-- A breakpoint that claims slot `reg` on every processor. -/
def hw_breakpoint (addr : Nat) (reg : Int) (mode len : Nat) : kdb_bp_t :=
  { bp_addr := addr
    bp_hard := fun _ => some { bph_reg := reg, bph_mode := mode, bph_length := len } }

/-- A breakpoint that claims no hardware slot on any processor. -/
def soft_breakpoint (addr : Nat) : kdb_bp_t :=
  { bp_addr := addr, bp_hard := fun _ => none }

/-- A processor whose debug registers are all zero. -/
def cpu_reset : Cpu :=
  { dr := { dr0 := 0, dr1 := 0, dr2 := 0, dr3 := 0, dr6 := 0, dr7 := 0 }, console := [] }

/-! ## Register access facade (source lines 536-1036) -/

/-- Modelled from the spec: the `int` result of the register functions, which
is `0` for success or the BadRegister code `KDB_BADREG`, a nonzero constant of
the absent header `lkmd.h`. -/
inductive kdb_diag where
  | ok
  | KDB_BADREG
  deriving DecidableEq, Repr

/-- Source `struct kdbregs`: a register name and where the register is found.
For the debug-register table `reg_offset` is the register number; for a
general-register table it is `offsetof(struct pt_regs, member)`, represented by
the member itself. -/
structure kdbregs (F : Type) where
  reg_name : List Char
  reg_offset : F

/-- Source `dbreglist`. -/
def dbreglist : List (kdbregs Int) :=
  [ ⟨"dr0".toList, 0⟩, ⟨"dr1".toList, 1⟩, ⟨"dr2".toList, 2⟩,
    ⟨"dr3".toList, 3⟩, ⟨"dr6".toList, 6⟩, ⟨"dr7".toList, 7⟩ ]

/-- Modelled from the spec: the helper `lkmd_strnicmp`, defined outside
`src/`: it compares at most `len` characters of two strings without regard to
letter case and returns `0` exactly when they agree (a string that ends early
agrees only with one that ends at the same place). -/
def lkmd_strnicmp : List Char → List Char → Nat → Int
  | _, _, 0 => 0
  | [], [], _ + 1 => 0
  | [], c2 :: _, _ + 1 => - ((c2.toNat : Int) + 1)
  | c1 :: _, [], _ + 1 => (c1.toNat : Int) + 1
  | c1 :: s1, c2 :: s2, n + 1 =>
    if c1.toLower = c2.toLower then lkmd_strnicmp s1 s2 n
    else if c1.toLower.toNat < c2.toLower.toNat then -1 else 1

/-- The search loop the source writes out before every table access: the first
entry of which `regname` is a case-insensitive beginning is selected, and it
counts as found only when its name has the length of `regname`. -/
def kdbregs_search {F : Type} (list : List (kdbregs F)) (regname : List Char) :
    Option (kdbregs F) :=
  match list.find? (fun r => decide (lkmd_strnicmp r.reg_name regname regname.length = 0)) with
  | none => none
  | some r => if r.reg_name.length = regname.length then some r else none

/-- Equality of two names without regard to letter case. -/
def same_name (a b : List Char) : Prop := a.map Char.toLower = b.map Char.toLower

instance same_name_decidable (a b : List Char) : Decidable (same_name a b) := by
  unfold same_name
  infer_instance

/-- What the register functions work on: the debug registers, the memory that
holds trap frames (frame address, then member), the `thread.sp0` of the current
task, the live stack pointer, flags and stack segment of the processor inside
the debugger, and the two kernel constants `sizeof(struct pt_regs)` and
`__KERNEL_CS`, whose declarations are not part of the source file. -/
structure RegCtx (F : Type) where
  dr : DebugRegs
  frames : Nat → F → Nat
  sp0 : Nat
  cur_sp : Nat
  cur_flags : Nat
  cur_ss : Nat
  sizeof_pt_regs : Nat
  KERNEL_CS : Nat

/-- Storing one word into a member of the frame at address `regs`. -/
def RegCtx.write {F : Type} [DecidableEq F] (e : RegCtx F) (regs : Nat) (f : F) (v : Nat) :
    RegCtx F :=
  { e with frames := fun a g => if a = regs ∧ g = f then v else e.frames a g }

/-- The frame address `thread.sp0 - sizeof(struct pt_regs)` in `bits`-wide
unsigned arithmetic. -/
def user_regs {F : Type} (bits : Nat) (e : RegCtx F) : Nat :=
  (e.sp0 + 2 ^ bits - e.sizeof_pt_regs % 2 ^ bits) % 2 ^ bits

namespace X86_32

/-- The members of the 32-bit `struct pt_regs`. -/
inductive pt_regs where
  | bx | cx | dx | si | di | bp | ax | ds | es | fs | gs | orig_ax | ip | cs | flags | sp | ss
  deriving DecidableEq, Repr

/-- Source `kdbreglist`, 32-bit build. -/
def kdbreglist : List (kdbregs pt_regs) :=
  [ ⟨"ax".toList, pt_regs.ax⟩, ⟨"bx".toList, pt_regs.bx⟩, ⟨"cx".toList, pt_regs.cx⟩,
    ⟨"dx".toList, pt_regs.dx⟩, ⟨"si".toList, pt_regs.si⟩, ⟨"di".toList, pt_regs.di⟩,
    ⟨"sp".toList, pt_regs.sp⟩, ⟨"ip".toList, pt_regs.ip⟩, ⟨"bp".toList, pt_regs.bp⟩,
    ⟨"ss".toList, pt_regs.ss⟩, ⟨"cs".toList, pt_regs.cs⟩, ⟨"flags".toList, pt_regs.flags⟩,
    ⟨"ds".toList, pt_regs.ds⟩, ⟨"es".toList, pt_regs.es⟩, ⟨"origax".toList, pt_regs.orig_ax⟩ ]

/-- Source `kdba_getregcontents`, 32-bit build.  `regs = 0` is the null
pointer; `contents` is the word the result pointer refers to before the call,
and the second component of the result is that word after the call. -/
def kdba_getregcontents (e : RegCtx pt_regs) (regname : List Char) (regs contents : Nat) :
    kdb_diag × Nat :=
  if regname = "cesp".toList then (kdb_diag.ok, e.cur_sp)
  else if regname = "ceflags".toList then (kdb_diag.ok, e.cur_flags)
  else
    let user := decide (regname.head? = some '%')
    let regname := if user then regname.tail else regname
    let regs := if user then user_regs 32 e else regs
    match kdbregs_search dbreglist regname with
    | some r => (kdb_diag.ok, kdba_getdr e.dr r.reg_offset)
    | none =>
      if regs = 0 then (kdb_diag.KDB_BADREG, contents)
      else if regname = "&regs".toList then (kdb_diag.ok, regs)
      else if regname = "kesp".toList then
        if e.frames regs pt_regs.cs &&& 0xffff = e.KERNEL_CS
        then (kdb_diag.ok, ((regs + e.sizeof_pt_regs) % 2 ^ 32 + 2 ^ 32 - 2 * 4) % 2 ^ 32)
        else (kdb_diag.ok, (regs + e.sizeof_pt_regs) % 2 ^ 32)
      else
        match kdbregs_search kdbreglist regname with
        | none => (kdb_diag.KDB_BADREG, contents)
        | some r =>
          if e.frames regs pt_regs.cs &&& 0xffff = e.KERNEL_CS then
            if r.reg_name = "sp".toList
            then (kdb_diag.ok, (regs + e.sizeof_pt_regs + 2 ^ 32 - 2 * 4) % 2 ^ 32)
            else if r.reg_name = "xss".toList then (kdb_diag.ok, e.cur_ss)
            else (kdb_diag.ok, e.frames regs r.reg_offset)
          else (kdb_diag.ok, e.frames regs r.reg_offset)

/-- Source `kdba_setregcontents`, 32-bit build. -/
def kdba_setregcontents (e : RegCtx pt_regs) (regname : List Char) (regs contents : Nat) :
    kdb_diag × RegCtx pt_regs :=
  let user := decide (regname.head? = some '%')
  let regname := if user then regname.tail else regname
  let regs := if user then user_regs 32 e else regs
  match kdbregs_search dbreglist regname with
  | some r => (kdb_diag.ok, { e with dr := kdba_putdr e.dr r.reg_offset contents })
  | none =>
    if regs = 0 then (kdb_diag.KDB_BADREG, e)
    else
      match kdbregs_search kdbreglist regname with
      | some r => (kdb_diag.ok, e.write regs r.reg_offset contents)
      | none => (kdb_diag.KDB_BADREG, e)

/-- The names the 32-bit `kdba_getregcontents` treats as pseudo-registers: the
four fixed names, and every name that starts with the marker `%`. -/
def pseudo_name (regname : List Char) : Prop :=
  regname = "cesp".toList ∨ regname = "ceflags".toList ∨ regname = "&regs".toList
    ∨ regname = "kesp".toList ∨ regname.head? = some '%'

instance pseudo_name_decidable (regname : List Char) : Decidable (pseudo_name regname) := by
  unfold pseudo_name
  infer_instance

end X86_32

namespace X86_64

/-- The members of the 64-bit `struct pt_regs`. -/
inductive pt_regs where
  | r15 | r14 | r13 | r12 | bp | bx | r11 | r10 | r9 | r8 | ax | cx | dx | si | di
  | orig_ax | ip | cs | flags | sp | ss
  deriving DecidableEq, Repr

/-- Source `kdbreglist`, 64-bit build. -/
def kdbreglist : List (kdbregs pt_regs) :=
  [ ⟨"r15".toList, pt_regs.r15⟩, ⟨"r14".toList, pt_regs.r14⟩, ⟨"r13".toList, pt_regs.r13⟩,
    ⟨"r12".toList, pt_regs.r12⟩, ⟨"bp".toList, pt_regs.bp⟩, ⟨"bx".toList, pt_regs.bx⟩,
    ⟨"r11".toList, pt_regs.r11⟩, ⟨"r10".toList, pt_regs.r10⟩, ⟨"r9".toList, pt_regs.r9⟩,
    ⟨"r8".toList, pt_regs.r8⟩, ⟨"ax".toList, pt_regs.ax⟩, ⟨"cx".toList, pt_regs.cx⟩,
    ⟨"dx".toList, pt_regs.dx⟩, ⟨"si".toList, pt_regs.si⟩, ⟨"di".toList, pt_regs.di⟩,
    ⟨"orig_ax".toList, pt_regs.orig_ax⟩, ⟨"ip".toList, pt_regs.ip⟩,
    ⟨"cs".toList, pt_regs.cs⟩, ⟨"flags".toList, pt_regs.flags⟩, ⟨"sp".toList, pt_regs.sp⟩,
    ⟨"ss".toList, pt_regs.ss⟩ ]

/-- Source `kdba_getregcontents`, 64-bit build.  There is no null check in this
build: `none` is the fault of reading `regs->cs` or a member through the null
pointer `regs = 0`. -/
def kdba_getregcontents (e : RegCtx pt_regs) (regname : List Char) (regs contents : Nat) :
    Option (kdb_diag × Nat) :=
  if regname = "&regs".toList then some (kdb_diag.ok, regs)
  else if regname = "krsp".toList then
    if regs = 0 then none
    else if e.frames regs pt_regs.cs &&& 0xffff = e.KERNEL_CS
    then some (kdb_diag.ok, ((regs + e.sizeof_pt_regs) % 2 ^ 64 + 2 ^ 64 - 2 * 4) % 2 ^ 64)
    else some (kdb_diag.ok, (regs + e.sizeof_pt_regs) % 2 ^ 64)
  else if regname = "crsp".toList then some (kdb_diag.ok, e.cur_sp)
  else if regname = "ceflags".toList then some (kdb_diag.ok, e.cur_flags)
  else
    let user := decide (regname.head? = some '%')
    let regname := if user then regname.tail else regname
    let regs := if user then user_regs 64 e else regs
    match kdbregs_search kdbreglist regname with
    | some r =>
      if regs = 0 then none
      else if e.frames regs pt_regs.cs &&& 0xffff = e.KERNEL_CS then
        if r.reg_name = "sp".toList
        then some (kdb_diag.ok, (regs + e.sizeof_pt_regs + 2 ^ 64 - 2 * 8) % 2 ^ 64)
        else some (kdb_diag.ok, e.frames regs r.reg_offset)
      else some (kdb_diag.ok, e.frames regs r.reg_offset)
    | none =>
      match kdbregs_search dbreglist regname with
      | some r => some (kdb_diag.ok, kdba_getdr e.dr r.reg_offset)
      | none => some (kdb_diag.KDB_BADREG, contents)

/-- Source `kdba_setregcontents`, 64-bit build; `none` is the fault of storing
through the null pointer `regs = 0`. -/
def kdba_setregcontents (e : RegCtx pt_regs) (regname : List Char) (regs contents : Nat) :
    Option (kdb_diag × RegCtx pt_regs) :=
  let user := decide (regname.head? = some '%')
  let regname := if user then regname.tail else regname
  let regs := if user then user_regs 64 e else regs
  match kdbregs_search kdbreglist regname with
  | some r =>
    if regs = 0 then none else some (kdb_diag.ok, e.write regs r.reg_offset contents)
  | none =>
    match kdbregs_search dbreglist regname with
    | some r => some (kdb_diag.ok, { e with dr := kdba_putdr e.dr r.reg_offset contents })
    | none => some (kdb_diag.KDB_BADREG, e)

/-- The names the 64-bit `kdba_getregcontents` treats as pseudo-registers: the
four fixed names, and every name that starts with the marker `%`. -/
def pseudo_name (regname : List Char) : Prop :=
  regname = "&regs".toList ∨ regname = "krsp".toList ∨ regname = "crsp".toList
    ∨ regname = "ceflags".toList ∨ regname.head? = some '%'

instance pseudo_name_decidable (regname : List Char) : Decidable (pseudo_name regname) := by
  unfold pseudo_name
  infer_instance

end X86_64

/-- A context with all debug registers zero in which the word of every frame
member is `address + 1`, with the constants of a 2.6 kernel for 32 bits. -/
def ctx32_sample : RegCtx X86_32.pt_regs :=
  { dr := { dr0 := 0, dr1 := 0, dr2 := 0, dr3 := 0, dr6 := 0, dr7 := 0x400 }
    frames := fun a _ => a + 1
    sp0 := 0xc1000000
    cur_sp := 0xc0fff000
    cur_flags := 0x46
    cur_ss := 0x68
    sizeof_pt_regs := 68
    KERNEL_CS := 0x60 }

/-- The 64-bit counterpart of `ctx32_sample`. -/
def ctx64_sample : RegCtx X86_64.pt_regs :=
  { dr := { dr0 := 0, dr1 := 0, dr2 := 0, dr3 := 0, dr6 := 0, dr7 := 0x400 }
    frames := fun a _ => a + 1
    sp0 := 0xffff880000100000
    cur_sp := 0xffff8800000ff000
    cur_flags := 0x46
    cur_ss := 0x18
    sizeof_pt_regs := 168
    KERNEL_CS := 0x10 }


deriving instance DecidableEq for kdbregs

/-- Names of the register tables of a build, debug registers first. -/
def table_names {F : Type} (general : List (kdbregs F)) : List (List Char) :=
  dbreglist.map (fun r => r.reg_name) ++ general.map (fun r => r.reg_name)

/-- The supplied name is a non-empty strict beginning of the entry name,
letter case ignored. -/
def strict_beginning (regname entry : List Char) : Prop :=
  0 < regname.length ∧ regname.length < entry.length
    ∧ regname.map Char.toLower = (entry.map Char.toLower).take regname.length

instance strict_beginning_decidable (regname entry : List Char) :
    Decidable (strict_beginning regname entry) := by
  unfold strict_beginning
  infer_instance

/-- A 32-bit context whose frames were all taken without a privilege change:
the `cs` word is `__KERNEL_CS`, the words at the `sp` and `ss` offsets are the
stale values `0x11111111` and `0x2222`, and every other member holds
`0xc0de0000`. -/
def ctx32_kernel : RegCtx X86_32.pt_regs :=
  { ctx32_sample with
    frames := fun _ f =>
      if f = X86_32.pt_regs.cs then 0x60
      else if f = X86_32.pt_regs.sp then 0x11111111
      else if f = X86_32.pt_regs.ss then 0x2222
      else 0xc0de0000 }

/-- The 64-bit counterpart of `ctx32_kernel`, with `__KERNEL_CS = 0x10`. -/
def ctx64_kernel : RegCtx X86_64.pt_regs :=
  { ctx64_sample with
    frames := fun _ f =>
      if f = X86_64.pt_regs.cs then 0x10
      else if f = X86_64.pt_regs.sp then 0x11111111
      else if f = X86_64.pt_regs.ss then 0x2222
      else 0xc0de0000 }

/-! ## Single-step and program-counter control (source lines 1220-1314) -/

/-- The interrupt-enable bit of the flags register, `X86_EFLAGS_IF` (bit 9). -/
def X86_EFLAGS_IF : Nat := 0x200

/-- The trap bit of the flags register, `X86_EFLAGS_TF` (bit 8). -/
def X86_EFLAGS_TF : Nat := 0x100

/-- Modelled from the spec: the debugger state flags of the running processor
that the source sets and tests through the macros `KDB_STATE_SET`,
`KDB_STATE_CLEAR` and `KDB_STATE` of the absent header `lkmd.h`: `A_IF`, the
recorded interrupt-enable state, and `IP_ADJUSTED`. -/
structure kdb_state where
  A_IF : Bool
  IP_ADJUSTED : Bool
  deriving DecidableEq, Repr

/-- Modelled from the spec: the macro `KDB_NULL_REGS` of the absent header
`lkmd.h`, the test for an absent (null) trap frame. -/
def KDB_NULL_REGS (regs : Nat) : Bool := decide (regs = 0)

/-- Source `kdba_getpc`; `ip` is the member `regs->ip` of the build. -/
def kdba_getpc {F : Type} (ip : F) (e : RegCtx F) (regs : Nat) : Nat :=
  if regs ≠ 0 then e.frames regs ip else 0

/-- Source `kdba_setpc`; `ip` is the member `regs->ip` of the build. -/
def kdba_setpc {F : Type} [DecidableEq F] (ip : F) (k : kdb_state) (e : RegCtx F)
    (regs newpc : Nat) : kdb_diag × kdb_state × RegCtx F :=
  if KDB_NULL_REGS regs then (kdb_diag.KDB_BADREG, k, e)
  else (kdb_diag.ok, { k with IP_ADJUSTED := true }, e.write regs ip newpc)

/-- Source `kdba_setsinglestep`; `flags` is the member `regs->flags` of the
build. -/
def kdba_setsinglestep {F : Type} [DecidableEq F] (flags : F) (k : kdb_state) (e : RegCtx F)
    (regs : Nat) : kdb_state × RegCtx F :=
  if KDB_NULL_REGS regs then (k, e)
  else
    let k1 : kdb_state :=
      if e.frames regs flags &&& X86_EFLAGS_IF ≠ 0 then { k with A_IF := true }
      else { k with A_IF := false }
    (k1, e.write regs flags (clear_bits (e.frames regs flags ||| X86_EFLAGS_TF) X86_EFLAGS_IF))

/-- Source `kdba_clearsinglestep`; `flags` is the member `regs->flags` of the
build. -/
def kdba_clearsinglestep {F : Type} [DecidableEq F] (flags : F) (k : kdb_state) (e : RegCtx F)
    (regs : Nat) : kdb_state × RegCtx F :=
  if KDB_NULL_REGS regs then (k, e)
  else if k.A_IF then (k, e.write regs flags (e.frames regs flags ||| X86_EFLAGS_IF))
  else (k, e.write regs flags (clear_bits (e.frames regs flags) X86_EFLAGS_IF))

/-- `kdba_setsinglestep` followed by `kdba_clearsinglestep` on the same frame. -/
def step_then_clear {F : Type} [DecidableEq F] (flags : F) (k : kdb_state) (e : RegCtx F)
    (regs : Nat) : kdb_state × RegCtx F :=
  kdba_clearsinglestep flags (kdba_setsinglestep flags k e regs).1
    (kdba_setsinglestep flags k e regs).2 regs

/-- A debugger state with both flags clear. -/
def kdb_state_clear : kdb_state := { A_IF := false, IP_ADJUSTED := false }

/-- A 32-bit context whose frames hold `0x246` in `flags` (interrupts enabled,
trap bit clear) and `0xc0100000` elsewhere. -/
def ctx32_running : RegCtx X86_32.pt_regs :=
  { ctx32_sample with
    frames := fun _ f => if f = X86_32.pt_regs.flags then 0x246 else 0xc0100000 }

/-! ## Multi-processor halt coordinator (source lines 1696-1711) -/

/-- What `kdba_wait_for_cpus` emits, in program order: the opening line, the
number of a processor printed with `" %d"`, a non-maskable interrupt sent to a
processor with `apic->send_IPI_mask(cpumask_of(c), NMI_VECTOR)`, and the closing
line. -/
inductive HaltEvent where
  | opening
  | report (c : Nat)
  | nmi (c : Nat)
  | closing
  deriving DecidableEq, Repr

/-- The body of the loop `for_each_online_cpu(c)` of `kdba_wait_for_cpus`, run
over the online processors in the order the loop visits them. -/
def wait_loop (seqno : Nat → Int) (kdb_seqno : Int) : List Nat → List HaltEvent
  | [] => []
  | c :: rest =>
    (if seqno c < kdb_seqno - 1 then [HaltEvent.report c, HaltEvent.nmi c] else [])
      ++ wait_loop seqno kdb_seqno rest

/-- The processors `for_each_online_cpu` visits: the numbers below `nr_cpus`
whose bit is set in the online mask, in ascending order. -/
def online_cpus (nr_cpus : Nat) (cpu_online : Nat → Bool) : List Nat :=
  (List.range nr_cpus).filter cpu_online

/-- Source `kdba_wait_for_cpus`.  `seqno c` is `kdb_running_process[c].seqno`;
both counters are C integers declared in the absent header and are compared as
integers. -/
def kdba_wait_for_cpus (nr_cpus : Nat) (cpu_online : Nat → Bool) (seqno : Nat → Int)
    (kdb_seqno : Int) : List HaltEvent :=
  [HaltEvent.opening] ++ wait_loop seqno kdb_seqno (online_cpus nr_cpus cpu_online)
    ++ [HaltEvent.closing]

/-- The processors an event list sends a non-maskable interrupt to. -/
def nmi_targets : List HaltEvent → List Nat
  | [] => []
  | HaltEvent.nmi c :: rest => c :: nmi_targets rest
  | _ :: rest => nmi_targets rest

/-- The processors an event list reports on the console. -/
def reported_cpus : List HaltEvent → List Nat
  | [] => []
  | HaltEvent.report c :: rest => c :: reported_cpus rest
  | _ :: rest => reported_cpus rest

/-! ## Write gate: the shape of a trace -/

/-- The three steps of one gated store. -/
def gate_triple (addr val : Nat) : List GateEvent :=
  [GateEvent.set_cr0_rw, GateEvent.store addr val, GateEvent.set_cr0_ro]

/-- The trace of `k` gated single-byte stores of the bytes of `src`, low byte
first, to the addresses `dst`, `dst + 1`, ... in ascending order. -/
def gate_triples (dst src : Nat) : Nat → List GateEvent
  | 0 => []
  | k + 1 => gate_triple dst (src % 256) ++ gate_triples (dst + 1) (src / 256) k

/-- A little-endian `u64` read from memory. -/
def read64 (m : Machine) (a : Nat) : Nat := read32 m a + 4294967296 * read32 m (a + 4)


/-! # Theorems -/

/-! ## Trap vector table editor -/

theorem or_shl (k x y : Nat) (hx : x < 2 ^ k) : x ||| (y <<< k) = x + 2 ^ k * y := by
  rw [Nat.or_comm, Nat.shiftLeft_eq, Nat.mul_comm, ← Nat.mul_add_lt_is_or hx]; ring

theorem read8_lt (m : Machine) (a : Nat) : read8 m a < 256 := by
  unfold read8; omega

theorem read16_lt (m : Machine) (a : Nat) : read16 m a < 65536 := by
  have h1 := read8_lt m a
  have h2 := read8_lt m (a + 1)
  unfold read16; omega

theorem read32_lt (m : Machine) (a : Nat) : read32 m a < 4294967296 := by
  have h1 := read16_lt m a
  have h2 := read16_lt m (a + 2)
  unfold read32; omega

theorem kernel_writel_kept (m : Machine) (dst src : Nat) :
    kernel_writel operands_kept m dst src
      = kernel_writew operands_kept (kernel_writew operands_kept m dst (src % 65536)) (dst + 2)
          (src / 65536 % 65536) := rfl

theorem kernel_writeq_kept (m : Machine) (dst src : Nat) :
    kernel_writeq operands_kept m dst src
      = kernel_writel operands_kept (kernel_writel operands_kept m dst (src % 4294967296))
          (dst + 4) (src / 4294967296 % 4294967296) := rfl

theorem kernel_writeb_mem {i : Nat} (m : Machine) (dst src a : Nat) :
    (kernel_writeb (operands_kept i) m dst src).mem a = if a = dst then src % 256 else m.mem a := rfl

theorem kernel_writeb_idt_base {i : Nat} (m : Machine) (dst src : Nat) :
    (kernel_writeb (operands_kept i) m dst src).idt_base = m.idt_base := rfl

theorem read8_kernel_writeb {i : Nat} (m : Machine) (dst src a : Nat) :
    read8 (kernel_writeb (operands_kept i) m dst src) a = if a = dst then src % 256 else read8 m a := by
  unfold read8
  rw [kernel_writeb_mem]
  split <;> simp

theorem read8_kernel_writew (m : Machine) (dst src a : Nat) :
    read8 (kernel_writew operands_kept m dst src) a =
      if a = dst + 1 then src / 256 % 256 else if a = dst then src % 256 else read8 m a := by
  unfold kernel_writew
  rw [read8_kernel_writeb, read8_kernel_writeb]
  simp

theorem read8_kernel_writel (m : Machine) (dst src a : Nat) :
    read8 (kernel_writel operands_kept m dst src) a =
      if a = dst + 3 then src / 16777216 % 256
      else if a = dst + 2 then src / 65536 % 256
      else if a = dst + 1 then src / 256 % 256
      else if a = dst then src % 256 else read8 m a := by
  rw [kernel_writel_kept]
  rw [read8_kernel_writew, read8_kernel_writew]
  have e1 : src / 65536 % 65536 / 256 % 256 = src / 16777216 % 256 := by omega
  have e2 : src / 65536 % 65536 % 256 = src / 65536 % 256 := by omega
  have e3 : src % 65536 / 256 % 256 = src / 256 % 256 := by omega
  have e4 : src % 65536 % 256 = src % 256 := by omega
  rw [e1, e2, e3, e4]


theorem read16_kernel_writew_same (m : Machine) (dst src : Nat) :
    read16 (kernel_writew operands_kept m dst src) dst = src % 65536 := by
  unfold read16
  rw [read8_kernel_writew, read8_kernel_writew]
  have a1 : ¬ (dst = dst + 1) := by omega
  simp only [a1, if_true, if_false]
  omega

theorem read16_kernel_writew_other (m : Machine) (dst src a : Nat)
    (h : a + 1 < dst ∨ dst + 1 < a) :
    read16 (kernel_writew operands_kept m dst src) a = read16 m a := by
  unfold read16
  rw [read8_kernel_writew, read8_kernel_writew]
  have a1 : ¬ (a = dst + 1) := by omega
  have a2 : ¬ (a = dst) := by omega
  have a3 : ¬ (a + 1 = dst + 1) := by omega
  have a4 : ¬ (a + 1 = dst) := by omega
  simp only [a1, a2, a3, a4, if_false]

theorem read16_kernel_writel_other (m : Machine) (dst src a : Nat)
    (h : a + 1 < dst ∨ dst + 3 < a) :
    read16 (kernel_writel operands_kept m dst src) a = read16 m a := by
  rw [kernel_writel_kept]
  rw [read16_kernel_writew_other _ _ _ _ (by omega),
    read16_kernel_writew_other _ _ _ _ (by omega)]

theorem read32_kernel_writew_other (m : Machine) (dst src a : Nat)
    (h : a + 3 < dst ∨ dst + 1 < a) :
    read32 (kernel_writew operands_kept m dst src) a = read32 m a := by
  unfold read32
  rw [read16_kernel_writew_other _ _ _ _ (by omega),
    read16_kernel_writew_other _ _ _ _ (by omega)]

theorem read32_kernel_writel_other (m : Machine) (dst src a : Nat)
    (h : a + 3 < dst ∨ dst + 3 < a) :
    read32 (kernel_writel operands_kept m dst src) a = read32 m a := by
  rw [kernel_writel_kept]
  rw [read32_kernel_writew_other _ _ _ _ (by omega),
    read32_kernel_writew_other _ _ _ _ (by omega)]

theorem read32_kernel_writel_same (m : Machine) (dst src : Nat) :
    read32 (kernel_writel operands_kept m dst src) dst = src % 4294967296 := by
  rw [kernel_writel_kept]
  unfold read32
  rw [read16_kernel_writew_same, read16_kernel_writew_other _ _ _ _ (by omega),
    read16_kernel_writew_same]
  omega

theorem int_to_ulong_w32 (x y : Nat) (hx : x < 65536) (hy : y < 65536) :
    int_to_ulong Width.w32 (x ||| (y <<< 16)) = x + 65536 * y := by
  have h := or_shl 16 x y (by simpa using hx)
  simp only [int_to_ulong, h]
  omega

/-- In the 32-bit layout, in a build that keeps every operand of the stores out
of the accumulator, hook followed by unhook restores every field of the
descriptor, whatever the descriptor held and whatever handler was installed. -/
theorem lkmd_int_roundtrip_w32 (m : Machine) (n addr : Nat) :
    read_gate_desc Width.w32 (hook_then_unhook Width.w32 operands_kept operands_kept m n addr) (idt_gate_desc Width.w32 m n)
      = read_gate_desc Width.w32 m (idt_gate_desc Width.w32 m n) := by
  have h1 := read16_lt m (idt_gate_desc Width.w32 m n)
  have h2 := read16_lt m (idt_gate_desc Width.w32 m n + 6)
  have e := int_to_ulong_w32 _ _ h1 h2
  simp only [read_gate_desc, hook_then_unhook, lkmd_int_unhook, lkmd_int_hook, e]
  have hb : idt_gate_desc Width.w32 (kernel_writew operands_kept (kernel_writew operands_kept m (idt_gate_desc Width.w32 m n)
        (addr % 65536)) (idt_gate_desc Width.w32 m n + 6) (addr / 65536 % 65536)) n
      = idt_gate_desc Width.w32 m n := rfl
  rw [hb]
  generalize idt_gate_desc Width.w32 m n = d at *
  rw [read16_kernel_writew_same]
  rw [read16_kernel_writew_other _ (d + 6) _ d (by omega), read16_kernel_writew_same]
  rw [read16_kernel_writew_other _ (d + 6) _ (d + 2) (by omega),
    read16_kernel_writew_other _ d _ (d + 2) (by omega),
    read16_kernel_writew_other _ (d + 6) _ (d + 2) (by omega),
    read16_kernel_writew_other _ d _ (d + 2) (by omega)]
  rw [read16_kernel_writew_other _ (d + 6) _ (d + 4) (by omega),
    read16_kernel_writew_other _ d _ (d + 4) (by omega),
    read16_kernel_writew_other _ (d + 6) _ (d + 4) (by omega),
    read16_kernel_writew_other _ d _ (d + 4) (by omega)]
  congr 1 <;> omega


theorem shl_or (a b k : Nat) : a <<< k ||| b <<< k = (a ||| b) <<< k := by
  apply Nat.eq_of_testBit_eq
  intro i
  simp only [Nat.testBit_or, Nat.testBit_shiftLeft, Bool.and_or_distrib_left]

theorem or_ones32 (x : Nat) (hx : x < 4294967296) : 4294967295 ||| x = 4294967295 := by
  apply Nat.eq_of_testBit_eq
  intro i
  rw [Nat.testBit_or]
  by_cases hi : i < 32
  · have : (4294967295 : Nat).testBit i = true := by
      have := Nat.testBit_two_pow_sub_one 32 i
      simpa [hi] using this
    simp [this]
  · have h0 : x.testBit i = false := by
      apply Nat.testBit_lt_two_pow
      calc x < 2 ^ 32 := by simpa using hx
        _ ≤ 2 ^ i := Nat.pow_le_pow_right (by decide) (by omega)
    simp [h0]

/-- The address `lkmd_int_hook` returns in the 64-bit build: the `int` built
from `offset1` and `offset2` is sign-extended, so a set bit 15 of `offset2`
fills the upper half with ones before `offset3` is or-ed in. -/
theorem old_addr_w64 (x y z : Nat) (hx : x < 65536) (hy : y < 65536) (hz : z < 4294967296) :
    int_to_ulong Width.w64 (x ||| (y <<< 16)) ||| (z <<< 32)
      = x + 65536 * y + 4294967296 * (if y < 32768 then z else 4294967295) := by
  have h := or_shl 16 x y (by simpa using hx)
  have hp : x + 2 ^ 16 * y < 2 ^ 32 := by norm_num; omega
  simp only [int_to_ulong, h]
  rw [Nat.mod_eq_of_lt hp]
  by_cases hlt : y < 32768
  · have h1 : x + 2 ^ 16 * y < 2 ^ 31 := by norm_num; omega
    rw [if_pos h1, if_pos hlt, or_shl 32 _ _ hp]
    norm_num
  · have h1 : ¬ (x + 2 ^ 16 * y < 2 ^ 31) := by norm_num; omega
    rw [if_neg h1, if_neg hlt]
    have e1 : x + 2 ^ 16 * y + (2 ^ 64 - 2 ^ 32) = (x + 2 ^ 16 * y) ||| (4294967295 <<< 32) := by
      rw [or_shl 32 _ _ hp]; norm_num
    rw [e1, Nat.or_assoc, shl_or, or_ones32 z hz, or_shl 32 _ _ hp]
    norm_num

/-- In the 64-bit layout, in a build that keeps every operand of the stores out
of the accumulator, hook followed by unhook restores `offset1`, `segment`,
`zero1`, `offset2` and `zero2`; `offset3` is restored when bit 15 of `offset2`
is clear and reads `0xffffffff` afterwards when that bit is set. -/
theorem lkmd_int_roundtrip_w64 (m : Machine) (n addr : Nat) :
    read_gate_desc Width.w64 (hook_then_unhook Width.w64 operands_kept operands_kept m n addr) (idt_gate_desc Width.w64 m n)
      = { read_gate_desc Width.w64 m (idt_gate_desc Width.w64 m n) with
          offset3 := if read16 m (idt_gate_desc Width.w64 m n + 6) < 32768
            then read32 m (idt_gate_desc Width.w64 m n + 8) else 4294967295 } := by
  have h1 := read16_lt m (idt_gate_desc Width.w64 m n)
  have h2 := read16_lt m (idt_gate_desc Width.w64 m n + 6)
  have h3 := read32_lt m (idt_gate_desc Width.w64 m n + 8)
  have e := old_addr_w64 _ _ _ h1 h2 h3
  simp only [read_gate_desc, hook_then_unhook, lkmd_int_unhook, lkmd_int_hook, e]
  have hb : idt_gate_desc Width.w64 (kernel_writel operands_kept (kernel_writew operands_kept (kernel_writew operands_kept m
        (idt_gate_desc Width.w64 m n) (addr % 65536)) (idt_gate_desc Width.w64 m n + 6)
        (addr / 65536 % 65536)) (idt_gate_desc Width.w64 m n + 8)
        (addr / 4294967296 % 4294967296)) n
      = idt_gate_desc Width.w64 m n := rfl
  rw [hb]
  generalize idt_gate_desc Width.w64 m n = d at *
  have hz : (if read16 m (d + 6) < 32768 then read32 m (d + 8) else 4294967295) < 4294967296 := by
    split <;> omega
  generalize (if read16 m (d + 6) < 32768 then read32 m (d + 8) else 4294967295) = z at *
  rw [read32_kernel_writel_same]
  rw [read16_kernel_writel_other _ (d + 8) _ d (by omega),
    read16_kernel_writew_other _ (d + 6) _ d (by omega), read16_kernel_writew_same]
  rw [read16_kernel_writel_other _ (d + 8) _ (d + 6) (by omega), read16_kernel_writew_same]
  rw [read16_kernel_writel_other _ (d + 8) _ (d + 2) (by omega),
    read16_kernel_writew_other _ (d + 6) _ (d + 2) (by omega),
    read16_kernel_writew_other _ d _ (d + 2) (by omega),
    read16_kernel_writel_other _ (d + 8) _ (d + 2) (by omega),
    read16_kernel_writew_other _ (d + 6) _ (d + 2) (by omega),
    read16_kernel_writew_other _ d _ (d + 2) (by omega)]
  rw [read16_kernel_writel_other _ (d + 8) _ (d + 4) (by omega),
    read16_kernel_writew_other _ (d + 6) _ (d + 4) (by omega),
    read16_kernel_writew_other _ d _ (d + 4) (by omega),
    read16_kernel_writel_other _ (d + 8) _ (d + 4) (by omega),
    read16_kernel_writew_other _ (d + 6) _ (d + 4) (by omega),
    read16_kernel_writew_other _ d _ (d + 4) (by omega)]
  rw [read32_kernel_writel_other _ (d + 8) _ (d + 12) (by omega),
    read32_kernel_writew_other _ (d + 6) _ (d + 12) (by omega),
    read32_kernel_writew_other _ d _ (d + 12) (by omega),
    read32_kernel_writel_other _ (d + 8) _ (d + 12) (by omega),
    read32_kernel_writew_other _ (d + 6) _ (d + 12) (by omega),
    read32_kernel_writew_other _ d _ (d + 12) (by omega)]
  congr 1 <;> omega

/-- With every operand kept, entry 1 of `idt_sample` (64-bit layout), which
holds the address `0xffffc90080001234` with bit 31 set: the hook returns the
sign-extended `0xffffffff80001234`, and the unhook that follows writes
`0xffffffff` into `offset3`, which held `0xffffc900`. -/
theorem lkmd_int_hook_sign_extends :
    read_gate_desc Width.w64 idt_sample (idt_gate_desc Width.w64 idt_sample 1)
      = { offset1 := 0x1234, segment := 0x10, zero1 := 0x8e00, offset2 := 0x8000,
          offset3 := 0xffffc900, zero2 := 0 }
    ∧ (lkmd_int_hook Width.w64 operands_kept operands_kept idt_sample 1
        0xffffffff81234567).1 = 0xffffffff80001234
    ∧ read_gate_desc Width.w64
        (hook_then_unhook Width.w64 operands_kept operands_kept idt_sample 1 0xffffffff81234567)
        (idt_gate_desc Width.w64 idt_sample 1)
      = { offset1 := 0x1234, segment := 0x10, zero1 := 0x8e00, offset2 := 0x8000,
          offset3 := 0xffffffff, zero2 := 0 } := by
  decide

theorem translate_in_page (s : AddrSpace) (q p o : Nat) (hq : s.pt q = some p)
    (ho : o < PAGE_SIZE) : translate s (q * PAGE_SIZE + o) = some (p * PAGE_SIZE + o) := by
  unfold PAGE_SIZE at *
  have e1 : (q * 4096 + o) / 4096 = q := by omega
  have e2 : (q * 4096 + o) % 4096 = o := by omega
  simp only [translate, PAGE_SIZE, e1, e2, hq]

theorem vmap_keeps (s : AddrSpace) (p0 : Nat) (alias_page : Option Nat) :
    (vmap s p0 alias_page).1.phys = s.phys
    ∧ ∀ q p, s.pt q = some p → (vmap s p0 alias_page).1.pt q = some p := by
  unfold vmap
  cases alias_page with
  | none => exact ⟨rfl, fun _ _ h => h⟩
  | some v =>
    show (if v = 0 then (s, 0) else _).1.phys = s.phys
      ∧ ∀ q p, s.pt q = some p → (if v = 0 then (s, 0) else _).1.pt q = some p
    by_cases hv : v = 0
    · rw [if_pos hv]
      exact ⟨rfl, fun _ _ h => h⟩
    · rw [if_neg hv]
      cases hf : s.pt v with
      | some _ => exact ⟨rfl, fun _ _ h => h⟩
      | none =>
        refine ⟨rfl, fun q p h => ?_⟩
        have hne : q ≠ v := by
          intro e
          rw [e, hf] at h
          exact Option.noConfusion h
        simp only [hne, if_false, h]

/-- The alias `lkmd_vmap` creates keeps every mapping that existed and leaves
physical memory alone. -/
theorem lkmd_vmap_keeps (alias_page : Option Nat) (s : AddrSpace) (addr : Nat) :
    (lkmd_vmap alias_page s addr).1.phys = s.phys
    ∧ ∀ q p, s.pt q = some p → (lkmd_vmap alias_page s addr).1.pt q = some p := by
  unfold lkmd_vmap
  simp only []
  split
  · exact ⟨rfl, fun _ _ h => h⟩
  · split <;> exact vmap_keeps _ _ _

theorem load8_keeps (s s1 : AddrSpace) (hphys : s1.phys = s.phys)
    (hpt : ∀ q p, s.pt q = some p → s1.pt q = some p) (va b : Nat)
    (h : load8 s va = some b) : load8 s1 va = some b := by
  unfold load8 translate at *
  cases hq : s.pt (va / PAGE_SIZE) with
  | none => simp [hq] at h
  | some p =>
    rw [hpt _ _ hq, hphys]
    simpa [hq] using h

theorem load_bytes_keeps (s s1 : AddrSpace) (hphys : s1.phys = s.phys)
    (hpt : ∀ q p, s.pt q = some p → s1.pt q = some p) (k : Nat) :
    ∀ (va : Nat) (bs : List Nat), load_bytes s va k = some bs → load_bytes s1 va k = some bs := by
  induction k with
  | zero => intro va bs h; simpa [load_bytes] using h
  | succ k ih =>
    intro va bs h
    unfold load_bytes at h ⊢
    cases h8 : load8 s va with
    | none => simp [h8] at h
    | some b =>
      cases hr : load_bytes s (va + 1) k with
      | none => simp [h8, hr] at h
      | some rest =>
        rw [load8_keeps s s1 hphys hpt va b h8, ih (va + 1) rest hr]
        simpa [h8, hr] using h

/-- Claim C3: whenever the 5 bytes at `orig_fn` can be read before the call,
the record `lkmda_inline_hook` leaves behind holds `orig_fn` as its address and
exactly those 5 bytes as its buffer, whatever the alias is and whether or not
the patch that follows the save succeeds. -/
theorem lkmda_inline_hook_saves_original (alias_page : Option Nat) (s : AddrSpace)
    (sym : lkmd_hook_sym) (orig_fn new_fn : Nat) (bs : List Nat)
    (hread : load_bytes s orig_fn 5 = some bs) :
    (lkmda_inline_hook alias_page s sym orig_fn new_fn).1 = { orig_addr := orig_fn, buf := bs } := by
  have hk := lkmd_vmap_keeps alias_page s orig_fn
  have h1 := load_bytes_keeps s _ hk.1 hk.2 5 orig_fn bs hread
  unfold lkmda_inline_hook
  simp only [h1]
  split
  · rfl
  · split <;> rfl

/-- Witness for C3: the function at `0x2000` of `code_sample`, hooked through
an alias at page 7. -/
theorem lkmda_inline_hook_saves_original_witness :
    load_bytes code_sample 0x2000 5 = some [0x89, 0xe5, 0x90, 0xc3, 0xcc]
    ∧ (lkmda_inline_hook (some 7) code_sample empty_sym 0x2000 0x3000).1
        = { orig_addr := 0x2000, buf := [0x89, 0xe5, 0x90, 0xc3, 0xcc] } :=
  ⟨by decide, lkmda_inline_hook_saves_original (some 7) code_sample empty_sym 0x2000 0x3000 _
    (by decide)⟩

theorem lkmd_vmap_success (s : AddrSpace) (q o v p : Nat) (hq : s.pt q = some p)
    (hv : v ≠ 0) (hfree : s.pt v = none) (ho : o < PAGE_SIZE) :
    lkmd_vmap (some v) s (q * PAGE_SIZE + o)
      = ({ s with pt := fun x => if x = v then some p else s.pt x }, v * PAGE_SIZE + o) := by
  unfold PAGE_SIZE at *
  have e1 : (q * 4096 + o) / 4096 * 4096 / 4096 = q := by omega
  have e2 : (q * 4096 + o) % 4096 = o := by omega
  have e3 : ¬ (v * 4096 = 0) := by omega
  simp only [lkmd_vmap, lkmd_virt_to_page, vmap, PAGE_SIZE, e1, e2, hq, hv, hfree, if_false, e3]

theorem lkmd_vumap_alias (s : AddrSpace) (o v : Nat) (hv : v ≠ 0) (ho : o < PAGE_SIZE) :
    lkmd_vumap s (v * PAGE_SIZE + o)
      = { s with pt := fun x => if x = v then none else s.pt x } := by
  unfold PAGE_SIZE at *
  have e1 : (v * 4096 + o) / 4096 * 4096 / 4096 = v := by omega
  have e3 : (v * 4096 + o) / 4096 * 4096 ≠ 0 := by omega
  simp only [lkmd_vumap, vunmap, PAGE_SIZE, e1, e3, ne_eq, not_false_eq_true, if_true]

/-- Inside one page the patch is what the specification describes: when the
alias is created and the 5 bytes at `orig_fn = q * PAGE_SIZE + o` do not cross
the end of their page, the call completes and the target then reads `0xE9`
followed by the four bytes of `disp32 new_fn orig_fn`, low byte first. -/
theorem lkmda_inline_hook_within_page (s : AddrSpace) (sym : lkmd_hook_sym)
    (q o new_fn v p : Nat) (hq : s.pt q = some p) (hv : v ≠ 0) (hfree : s.pt v = none)
    (ho : o + 5 ≤ PAGE_SIZE) :
    bytes_after (lkmda_inline_hook (some v) s sym (q * PAGE_SIZE + o) new_fn).2
        (q * PAGE_SIZE + o) 5
      = some [0xe9, disp32 new_fn (q * PAGE_SIZE + o) % 256,
          disp32 new_fn (q * PAGE_SIZE + o) / 256 % 256,
          disp32 new_fn (q * PAGE_SIZE + o) / 65536 % 256,
          disp32 new_fn (q * PAGE_SIZE + o) / 16777216 % 256] := by
  have hP : PAGE_SIZE = 4096 := rfl
  have hqv : q ≠ v := by
    intro e
    rw [e, hfree] at hq
    exact Option.noConfusion hq
  have hmap := lkmd_vmap_success s q o v p hq hv hfree (by omega)
  -- the address space with the alias in place
  let s1 : AddrSpace := { s with pt := fun x => if x = v then some p else s.pt x }
  have hs1 : lkmd_vmap (some v) s (q * PAGE_SIZE + o) = (s1, v * PAGE_SIZE + o) := hmap
  have hs1q : s1.pt q = some p := by simp only [s1, hqv, if_false, hq]
  have hs1v : s1.pt v = some p := by simp only [s1, if_true]
  -- reads of the target through the original mapping
  have rd : ∀ (t : AddrSpace), t.pt q = some p → ∀ i, i < 5 →
      load8 t (q * PAGE_SIZE + o + i) = some (t.phys (p * PAGE_SIZE + o + i) % 256) := by
    intro t ht i hi
    unfold load8
    rw [Nat.add_assoc, translate_in_page t q p (o + i) ht (by omega), Nat.add_assoc]
  have rdall : ∀ (t : AddrSpace), t.pt q = some p →
      load_bytes t (q * PAGE_SIZE + o) 5
        = some [t.phys (p * PAGE_SIZE + o) % 256, t.phys (p * PAGE_SIZE + o + 1) % 256,
            t.phys (p * PAGE_SIZE + o + 2) % 256, t.phys (p * PAGE_SIZE + o + 3) % 256,
            t.phys (p * PAGE_SIZE + o + 4) % 256] := by
    intro t ht
    have r0 := rd t ht 0 (by omega)
    have r1 := rd t ht 1 (by omega)
    have r2 := rd t ht 2 (by omega)
    have r3 := rd t ht 3 (by omega)
    have r4 := rd t ht 4 (by omega)
    simp only [Nat.add_zero] at r0
    simp only [load_bytes, Nat.add_assoc, r0] at r1 r2 r3 r4 ⊢
    simp only [r1, r2, r3, r4]
  -- the two stores through the alias
  have w8 : vstore8 s1 (v * PAGE_SIZE + o) 0xe9
      = some (store_phys s1 (p * PAGE_SIZE + o) 0xe9) := by
    unfold vstore8
    rw [translate_in_page s1 v p o hs1v (by omega)]
  have w32 : ∀ d, vstore32 (store_phys s1 (p * PAGE_SIZE + o) 0xe9) (v * PAGE_SIZE + o + 1) d
      = some (store_phys (store_phys (store_phys (store_phys
          (store_phys s1 (p * PAGE_SIZE + o) 0xe9) (p * PAGE_SIZE + (o + 1)) d)
          (p * PAGE_SIZE + (o + 2)) (d / 256)) (p * PAGE_SIZE + (o + 3)) (d / 65536))
          (p * PAGE_SIZE + (o + 4)) (d / 16777216)) := by
    intro d
    have hv2 : (store_phys s1 (p * PAGE_SIZE + o) 0xe9).pt v = some p := hs1v
    unfold vstore32
    simp only [Nat.add_assoc]
    rw [translate_in_page _ v p (o + 1) hv2 (by omega),
      translate_in_page _ v p (o + (1 + 1)) hv2 (by omega),
      translate_in_page _ v p (o + (1 + 2)) hv2 (by omega),
      translate_in_page _ v p (o + (1 + 3)) hv2 (by omega)]
  unfold lkmda_inline_hook
  generalize disp32 new_fn (q * PAGE_SIZE + o) = d
  simp only [hs1, rdall s1 hs1q, w8, w32]
  rw [lkmd_vumap_alias _ o v hv (by omega)]
  unfold bytes_after
  simp only []
  rw [rdall _ (by simp only [hqv, if_false]; exact hs1q)]
  simp only [store_phys, hP]
  have a1 : ¬ (p * 4096 + o = p * 4096 + (o + 4)) := by omega
  have a2 : ¬ (p * 4096 + o = p * 4096 + (o + 3)) := by omega
  have a3 : ¬ (p * 4096 + o = p * 4096 + (o + 2)) := by omega
  have a4 : ¬ (p * 4096 + o = p * 4096 + (o + 1)) := by omega
  have b1 : ¬ (p * 4096 + o + 1 = p * 4096 + (o + 4)) := by omega
  have b2 : ¬ (p * 4096 + o + 1 = p * 4096 + (o + 3)) := by omega
  have b3 : ¬ (p * 4096 + o + 1 = p * 4096 + (o + 2)) := by omega
  have b4 : p * 4096 + o + 1 = p * 4096 + (o + 1) := by omega
  have c1 : ¬ (p * 4096 + o + 2 = p * 4096 + (o + 4)) := by omega
  have c2 : ¬ (p * 4096 + o + 2 = p * 4096 + (o + 3)) := by omega
  have c3 : p * 4096 + o + 2 = p * 4096 + (o + 2) := by omega
  have d1 : ¬ (p * 4096 + o + 3 = p * 4096 + (o + 4)) := by omega
  have d2 : p * 4096 + o + 3 = p * 4096 + (o + 3) := by omega
  have e1 : p * 4096 + o + 4 = p * 4096 + (o + 4) := by omega
  simp only [a1, a2, a3, a4, b1, b2, b3, b4, c1, c2, c3, d1, d2, e1, if_true, if_false]
  simp

/-- The displacement written by the hook leads to the replacement: when
`new_fn - (orig_fn + 5)` fits in a signed 32-bit integer, the address after the
jump instruction plus the sign-extended displacement is `new_fn`. -/
theorem disp32_reaches_target (orig_fn new_fn : Nat)
    (hlo : -(2147483648 : Int) ≤ (new_fn : Int) - ((orig_fn : Int) + 5))
    (hhi : (new_fn : Int) - ((orig_fn : Int) + 5) < 2147483648) :
    (orig_fn : Int) + 5 + signext32 (disp32 new_fn orig_fn) = (new_fn : Int) := by
  unfold signext32 disp32
  split <;> omega

/-- Claim C2, evaluated on the code: the target `0x1ffe` lies two bytes before
the end of its page, the replacement is `0x3000`, so the claimed bytes are
`e9 fd 0f 00 00`.  With the alias at page 7 and nothing mapped behind it, the
4-byte store through the one-page alias faults.  With a foreign page mapped
behind the alias the call completes, but bytes 2..4 of the target are still
the old `89 e5 90`.  With no alias at all (`lkmd_vmap` returns the null
pointer, which is not checked) the first store faults. -/
theorem lkmda_inline_hook_page_end :
    disp32 0x3000 0x1ffe = 0x00000ffd
    ∧ bytes_after (lkmda_inline_hook (some 7) code_sample empty_sym 0x1ffe 0x3000).2 0x1ffe 5
        = none
    ∧ bytes_after (lkmda_inline_hook (some 7) code_sample_adjacent empty_sym 0x1ffe 0x3000).2
        0x1ffe 5 = some [0xe9, 0xfd, 0x89, 0xe5, 0x90]
    ∧ bytes_after (lkmda_inline_hook none code_sample empty_sym 0x2000 0x3000).2 0x2000 5
        = none := by
  decide

/-- Claim C4, evaluated on the code: the function at `0x2000` of `code_sample`
is hooked, which saves `89 e5 90 c3 cc` in the record, and then unhooked; the
target still starts with the jump `e9 fb 0f 00 00`. -/
theorem lkmda_inline_unhook_restores_nothing :
    (lkmda_inline_hook (some 7) code_sample empty_sym 0x2000 0x3000).1.buf
      = [0x89, 0xe5, 0x90, 0xc3, 0xcc]
    ∧ ((lkmda_inline_hook (some 7) code_sample empty_sym 0x2000 0x3000).2.map
        (fun s => load_bytes (lkmda_inline_unhook s
          (lkmda_inline_hook (some 7) code_sample empty_sym 0x2000 0x3000).1) 0x2000 5))
      = some (some [0xe9, 0xfb, 0x0f, 0x00, 0x00]) := by
  decide

/-! ## Hardware breakpoint manager: bit-level lemmas -/

theorem testBit_clear_bits (x mask i : Nat) :
    (clear_bits x mask).testBit i = (x.testBit i && !mask.testBit i) := by
  unfold clear_bits
  rw [Nat.testBit_xor, Nat.testBit_and]
  cases x.testBit i <;> cases mask.testBit i <;> rfl

theorem testBit_three (j : Nat) : (3 : Nat).testBit j = decide (j < 2) := by
  have := Nat.testBit_two_pow_sub_one 2 j
  simpa using this

theorem testBit_field_set (k dr v i : Nat) :
    (clear_bits dr (3 <<< k) ||| ((v &&& 3) <<< k)).testBit i
      = if k ≤ i ∧ i < k + 2 then v.testBit (i - k) else dr.testBit i := by
  rw [Nat.testBit_or, testBit_clear_bits, Nat.testBit_shiftLeft, Nat.testBit_shiftLeft,
    Nat.testBit_and, testBit_three]
  by_cases h1 : k ≤ i
  · by_cases h2 : i < k + 2
    · have h3 : i - k < 2 := by omega
      simp [h1, h2, h3]
    · have h3 : ¬ (i - k < 2) := by omega
      simp [h1, h2, h3]
  · simp [h1]

/-- The control-register value `kdba_installdbreg` computes for slot `n`, bit by
bit. -/
theorem testBit_install_dr7 (n dr7 m l i : Nat) :
    (DR7_GSET n (DR7_LENSET n (DR7_RWSET n (dr7 ||| DR7_GE) m) l)).testBit i
      = if i = 2 * n + 1 then true
        else if 18 + 4 * n ≤ i ∧ i < 18 + 4 * n + 2 then l.testBit (i - (18 + 4 * n))
        else if 16 + 4 * n ≤ i ∧ i < 16 + 4 * n + 2 then m.testBit (i - (16 + 4 * n))
        else if i = 9 then true
        else dr7.testBit i := by
  unfold DR7_GSET DR7_LENSET DR7_RWSET
  rw [Nat.testBit_or, testBit_field_set, testBit_field_set, Nat.testBit_or, Nat.testBit_two_pow]
  have hge : DR7_GE.testBit i = decide (9 = i) := by
    have : DR7_GE = 2 ^ 9 := by decide
    rw [this, Nat.testBit_two_pow]
  rw [hge]
  by_cases h1 : i = 2 * n + 1
  · simp [h1]
  · have h1b : ¬ (2 * n + 1 = i) := fun h => h1 h.symm
    simp only [h1, h1b, if_false, decide_False, Bool.or_false]
    split
    · rfl
    · split
      · rfl
      · by_cases h9 : i = 9
        · simp [h9]
        · have : ¬ (9 = i) := fun h => h9 h.symm
          simp [h9, this]

/-- The control-register value `kdba_removedbreg` computes for slot `n`, bit by
bit. -/
theorem testBit_remove_dr7 (n dr7 i : Nat) :
    (DR7_LCLR n (DR7_GCLR n dr7)).testBit i
      = if i = 2 * n ∨ i = 2 * n + 1 then false else dr7.testBit i := by
  unfold DR7_LCLR DR7_GCLR
  rw [testBit_clear_bits, testBit_clear_bits, Nat.testBit_two_pow, Nat.testBit_two_pow]
  by_cases h1 : i = 2 * n
  · simp [h1]
  · by_cases h2 : i = 2 * n + 1
    · simp [h2]
    · have h1b : ¬ (2 * n = i) := fun h => h1 h.symm
      have h2b : ¬ (2 * n + 1 = i) := fun h => h2 h.symm
      simp [h1, h2, h1b, h2b]

/-- A two-bit field read back equals `v % 4` when its two bits are those of `v`. -/
theorem field_eq_mod (k x v : Nat) (h : ∀ j, j < 2 → x.testBit (k + j) = v.testBit j) :
    (x >>> k) &&& 3 = v % 4 := by
  apply Nat.eq_of_testBit_eq
  intro j
  have e4 : (4 : Nat) = 2 ^ 2 := by decide
  rw [Nat.testBit_and, Nat.testBit_shiftRight, testBit_three, e4, Nat.testBit_mod_two_pow]
  by_cases hj : j < 2
  · simp [hj, h j hj]
  · simp [hj]

/-- Two control-register values that agree on the two bits of a field have the
same field. -/
theorem field_congr (k x y : Nat) (h : ∀ j, j < 2 → x.testBit (k + j) = y.testBit (k + j)) :
    (x >>> k) &&& 3 = (y >>> k) &&& 3 := by
  apply Nat.eq_of_testBit_eq
  intro j
  rw [Nat.testBit_and, Nat.testBit_and, Nat.testBit_shiftRight, Nat.testBit_shiftRight,
    testBit_three]
  by_cases hj : j < 2
  · simp [hj, h j hj]
  · simp [hj]

/-- What `kdba_installdbreg` does for a slot in `0..3`, as an equation. -/
theorem kdba_installdbreg_eq (c : Cpu) (cpu : Nat) (bp : kdb_bp_t) (s m l : Nat)
    (hs : s < 4) (hh : bp.bp_hard cpu = some ⟨(s : Int), m, l⟩) :
    kdba_installdbreg c cpu bp = some { c with dr := (kdba_putdr7
      (kdba_putdr c.dr (s : Int) bp.bp_addr)
      (DR7_GSET s (DR7_LENSET s (DR7_RWSET s (kdba_getdr7 c.dr ||| DR7_GE) m) l))) } := by
  unfold kdba_installdbreg
  rw [hh]
  interval_cases s <;> simp

/-- What `kdba_removedbreg` does for a slot in `0..3`, as an equation. -/
theorem kdba_removedbreg_eq (c : Cpu) (cpu : Nat) (bp : kdb_bp_t) (s m l : Nat)
    (hs : s < 4) (hh : bp.bp_hard cpu = some ⟨(s : Int), m, l⟩) :
    kdba_removedbreg c cpu bp = { c with dr := (kdba_putdr7 (kdba_putdr c.dr (s : Int) 0)
      (DR7_LCLR s (DR7_GCLR s (kdba_getdr7 c.dr)))) } := by
  unfold kdba_removedbreg
  rw [hh]
  interval_cases s <;> simp

theorem kdba_getdr7_putdr7 (d : DebugRegs) (v : Nat) : kdba_getdr7 (kdba_putdr7 d v) = v := rfl

theorem kdba_getdr_putdr7 (d : DebugRegs) (v : Nat) (r : Int) (hr : r ≠ 7) :
    kdba_getdr (kdba_putdr7 d v) r = kdba_getdr d r := by
  unfold kdba_getdr kdba_putdr7 kdba_putdr
  simp [hr]

theorem kdba_getdr_putdr_same (d : DebugRegs) (v s : Nat) (hs : s < 4) :
    kdba_getdr (kdba_putdr d (s : Int) v) (s : Int) = v := by
  interval_cases s <;> simp [kdba_getdr, kdba_putdr]

theorem kdba_getdr_putdr_other (d : DebugRegs) (v s : Nat) (r : Int) (hs : s < 4)
    (hr : r ≠ (s : Int)) : kdba_getdr (kdba_putdr d (s : Int) v) r = kdba_getdr d r := by
  interval_cases s <;> simp at hr <;> simp [kdba_getdr, kdba_putdr, hr]

/-! ## Hardware breakpoint manager: the claims -/

/-- Claim C5: for a slot `s` in `0..3`, `kdba_installdbreg` returns, leaves the
address register of the slot equal to the breakpoint address, and leaves in the
control register the global-exact bit 9 set, the read/write field of the slot
equal to `m % 4`, its length field equal to `l % 4`, its global-enable bit
`2s + 1` set, and every other bit as it was; the other debug registers and the
console are untouched. -/
theorem kdba_installdbreg_programs_slot (c : Cpu) (cpu : Nat) (bp : kdb_bp_t) (s m l : Nat)
    (hs : s < 4) (hh : bp.bp_hard cpu = some ⟨(s : Int), m, l⟩) :
    ∃ c1, kdba_installdbreg c cpu bp = some c1
      ∧ kdba_getdr c1.dr (s : Int) = bp.bp_addr
      ∧ (kdba_getdr7 c1.dr).testBit 9 = true
      ∧ DR7_RW s (kdba_getdr7 c1.dr) = m % 4
      ∧ DR7_LEN s (kdba_getdr7 c1.dr) = l % 4
      ∧ (kdba_getdr7 c1.dr).testBit (2 * s + 1) = true
      ∧ (∀ i, i ≠ 9 → i ≠ 2 * s + 1 → ¬ (16 + 4 * s ≤ i ∧ i < 20 + 4 * s) →
          (kdba_getdr7 c1.dr).testBit i = (kdba_getdr7 c.dr).testBit i)
      ∧ (∀ r : Int, r ≠ (s : Int) → r ≠ 7 → kdba_getdr c1.dr r = kdba_getdr c.dr r)
      ∧ c1.console = c.console := by
  refine ⟨_, kdba_installdbreg_eq c cpu bp s m l hs hh, ?_, ?_, ?_, ?_, ?_, ?_, ?_, rfl⟩
  · rw [kdba_getdr_putdr7 _ _ _ (by omega), kdba_getdr_putdr_same _ _ _ hs]
  · rw [kdba_getdr7_putdr7, testBit_install_dr7]
    have a1 : ¬ (9 = 2 * s + 1) := by omega
    have a2 : ¬ (18 + 4 * s ≤ 9 ∧ 9 < 18 + 4 * s + 2) := by omega
    have a3 : ¬ (16 + 4 * s ≤ 9 ∧ 9 < 16 + 4 * s + 2) := by omega
    simp [a1, a2, a3]
  · rw [kdba_getdr7_putdr7]
    apply field_eq_mod
    intro j hj
    rw [testBit_install_dr7]
    have a1 : ¬ (16 + 4 * s + j = 2 * s + 1) := by omega
    have a2 : ¬ (18 + 4 * s ≤ 16 + 4 * s + j ∧ 16 + 4 * s + j < 18 + 4 * s + 2) := by omega
    have a3 : 16 + 4 * s ≤ 16 + 4 * s + j ∧ 16 + 4 * s + j < 16 + 4 * s + 2 := by omega
    simp only [a1, a2, a3, if_false, and_self, if_true]
    congr 1
    omega
  · rw [kdba_getdr7_putdr7]
    apply field_eq_mod
    intro j hj
    rw [testBit_install_dr7]
    have a1 : ¬ (18 + 4 * s + j = 2 * s + 1) := by omega
    have a2 : 18 + 4 * s ≤ 18 + 4 * s + j ∧ 18 + 4 * s + j < 18 + 4 * s + 2 := by omega
    simp only [a1, a2, if_false, and_self, if_true]
    congr 1
    omega
  · rw [kdba_getdr7_putdr7, testBit_install_dr7]
    simp
  · intro i h9 hg hf
    rw [kdba_getdr7_putdr7, testBit_install_dr7]
    have a2 : ¬ (18 + 4 * s ≤ i ∧ i < 18 + 4 * s + 2) := by omega
    have a3 : ¬ (16 + 4 * s ≤ i ∧ i < 16 + 4 * s + 2) := by omega
    simp only [h9, hg, a2, a3, if_false]
  · intro r hr h7
    show kdba_getdr (kdba_putdr7 _ _) r = _
    rw [kdba_getdr_putdr7 _ _ _ h7, kdba_getdr_putdr_other _ _ _ _ hs hr]

/-- Witness for C5: slot 1, write mode, 4-byte length, address `0xABCD0000`,
on a processor whose control register holds other slots' settings. -/
theorem kdba_installdbreg_programs_slot_witness :
    (1 < 4) ∧ (hw_breakpoint 0xABCD0000 1 1 3).bp_hard 0 = some ⟨((1 : Nat) : Int), 1, 3⟩
    ∧ ∃ c1, kdba_installdbreg { cpu_reset with dr := { cpu_reset.dr with dr7 := 0x30001 } } 0
          (hw_breakpoint 0xABCD0000 1 1 3) = some c1
      ∧ kdba_getdr c1.dr ((1 : Nat) : Int) = (hw_breakpoint 0xABCD0000 1 1 3).bp_addr
      ∧ (kdba_getdr7 c1.dr).testBit 9 = true
      ∧ DR7_RW 1 (kdba_getdr7 c1.dr) = 1 % 4
      ∧ DR7_LEN 1 (kdba_getdr7 c1.dr) = 3 % 4
      ∧ (kdba_getdr7 c1.dr).testBit (2 * 1 + 1) = true
      ∧ (∀ i, i ≠ 9 → i ≠ 2 * 1 + 1 → ¬ (16 + 4 * 1 ≤ i ∧ i < 20 + 4 * 1) →
          (kdba_getdr7 c1.dr).testBit i = (kdba_getdr7
            ({ cpu_reset with dr := { cpu_reset.dr with dr7 := 0x30001 } } : Cpu).dr).testBit i)
      ∧ (∀ r : Int, r ≠ ((1 : Nat) : Int) → r ≠ 7 → kdba_getdr c1.dr r = kdba_getdr
            ({ cpu_reset with dr := { cpu_reset.dr with dr7 := 0x30001 } } : Cpu).dr r)
      ∧ c1.console = ({ cpu_reset with dr := { cpu_reset.dr with dr7 := 0x30001 } } : Cpu).console :=
  ⟨by decide, rfl, kdba_installdbreg_programs_slot _ 0 (hw_breakpoint 0xABCD0000 1 1 3) 1 1 3
    (by decide) rfl⟩

/-- Counterexample to C6 as stated: on a processor whose control register is
zero, installing a breakpoint in slot 0 leaves the local-enable bit 0 clear. -/
theorem kdba_installdbreg_local_enable_clear :
    (kdba_installdbreg cpu_reset 0 (hw_breakpoint 0xABCD0000 0 1 3)).map
        (fun c1 => ((kdba_getdr7 c1.dr).testBit 1, (kdba_getdr7 c1.dr).testBit 0))
      = some (true, false) := by
  decide

/-- Claim C6, amended: for a slot `s` in `0..3`, after `kdba_installdbreg` the
control register read back by `kdba_getdr7` has the global-enable bit `2s + 1`
of the slot set, and the local-enable bit `2s` of the slot has the value it had
before the call. -/
theorem kdba_installdbreg_enable_bits (c : Cpu) (cpu : Nat) (bp : kdb_bp_t) (s m l : Nat)
    (hs : s < 4) (hh : bp.bp_hard cpu = some ⟨(s : Int), m, l⟩) :
    ∃ c1, kdba_installdbreg c cpu bp = some c1
      ∧ (kdba_getdr7 c1.dr).testBit (2 * s + 1) = true
      ∧ (kdba_getdr7 c1.dr).testBit (2 * s) = (kdba_getdr7 c.dr).testBit (2 * s) := by
  refine ⟨_, kdba_installdbreg_eq c cpu bp s m l hs hh, ?_, ?_⟩
  · rw [kdba_getdr7_putdr7, testBit_install_dr7]
    simp
  · rw [kdba_getdr7_putdr7, testBit_install_dr7]
    have a1 : ¬ (2 * s = 2 * s + 1) := by omega
    have a2 : ¬ (18 + 4 * s ≤ 2 * s ∧ 2 * s < 18 + 4 * s + 2) := by omega
    have a3 : ¬ (16 + 4 * s ≤ 2 * s ∧ 2 * s < 16 + 4 * s + 2) := by omega
    have a4 : ¬ (2 * s = 9) := by omega
    simp only [a1, a2, a3, a4, if_false]

/-- Witness for the amended C6: slot 2 on a processor whose control register is
zero. -/
theorem kdba_installdbreg_enable_bits_witness :
    (2 < 4) ∧ (hw_breakpoint 0x1000 2 3 0).bp_hard 0 = some ⟨((2 : Nat) : Int), 3, 0⟩
    ∧ ∃ c1, kdba_installdbreg cpu_reset 0 (hw_breakpoint 0x1000 2 3 0) = some c1
      ∧ (kdba_getdr7 c1.dr).testBit (2 * 2 + 1) = true
      ∧ (kdba_getdr7 c1.dr).testBit (2 * 2) = (kdba_getdr7 cpu_reset.dr).testBit (2 * 2) :=
  ⟨by decide, rfl, kdba_installdbreg_enable_bits cpu_reset 0 (hw_breakpoint 0x1000 2 3 0) 2 3 0
    (by decide) rfl⟩

/-- Claim C7: `kdba_removedbreg` on a breakpoint that holds slot `s` in `0..3`
on this processor zeroes the address register of the slot, clears exactly the
bits `2s` and `2s + 1` of the control register, and leaves every other bit of
it, every other debug register and the console unchanged; on a breakpoint
that holds no hardware slot on this processor it changes nothing. -/
theorem kdba_removedbreg_clears_enable_bits (c : Cpu) (cpu : Nat) (bp : kdb_bp_t) :
    (∀ s m l : Nat, s < 4 → bp.bp_hard cpu = some ⟨(s : Int), m, l⟩ →
      kdba_getdr (kdba_removedbreg c cpu bp).dr (s : Int) = 0
      ∧ (∀ i, (kdba_getdr7 (kdba_removedbreg c cpu bp).dr).testBit i
          = if i = 2 * s ∨ i = 2 * s + 1 then false else (kdba_getdr7 c.dr).testBit i)
      ∧ (∀ r : Int, r ≠ (s : Int) → r ≠ 7 →
          kdba_getdr (kdba_removedbreg c cpu bp).dr r = kdba_getdr c.dr r)
      ∧ (kdba_removedbreg c cpu bp).console = c.console)
    ∧ (bp.bp_hard cpu = none → kdba_removedbreg c cpu bp = c) := by
  constructor
  · intro s m l hs hh
    rw [kdba_removedbreg_eq c cpu bp s m l hs hh]
    refine ⟨?_, ?_, ?_, rfl⟩
    · rw [kdba_getdr_putdr7 _ _ _ (by omega), kdba_getdr_putdr_same _ _ _ hs]
    · intro i
      rw [kdba_getdr7_putdr7, testBit_remove_dr7]
    · intro r hr h7
      show kdba_getdr (kdba_putdr7 _ _) r = _
      rw [kdba_getdr_putdr7 _ _ _ h7, kdba_getdr_putdr_other _ _ _ _ hs hr]
  · intro hn
    unfold kdba_removedbreg
    rw [hn]

/-- Witness for C7: slot 3 held, on a processor with every enable bit set; and
a breakpoint with no hardware part. -/
theorem kdba_removedbreg_clears_enable_bits_witness :
    (3 < 4) ∧ (hw_breakpoint 0x2000 3 1 3).bp_hard 0 = some ⟨((3 : Nat) : Int), 1, 3⟩
    ∧ (soft_breakpoint 0x2000).bp_hard 0 = none
    ∧ kdba_getdr (kdba_removedbreg { cpu_reset with dr := { cpu_reset.dr with dr3 := 0x2000, dr7 := 0xff } }
        0 (hw_breakpoint 0x2000 3 1 3)).dr ((3 : Nat) : Int) = 0
    ∧ kdba_removedbreg cpu_reset 0 (soft_breakpoint 0x2000) = cpu_reset :=
  ⟨by decide, rfl, rfl,
    ((kdba_removedbreg_clears_enable_bits
      { cpu_reset with dr := { cpu_reset.dr with dr3 := 0x2000, dr7 := 0xff } } 0
      (hw_breakpoint 0x2000 3 1 3)).1 3 1 3 (by decide) rfl).1,
    (kdba_removedbreg_clears_enable_bits cpu_reset 0 (soft_breakpoint 0x2000)).2 rfl⟩

/-- Counterexample to C8 as stated: on a processor whose control register is
zero, slot 1 is installed with write mode (1), 4-byte length (3) and address
`0xABCD0000` and then removed; the enable bits of slot 1 are clear, but its
read/write field still reads 1 and its length field still reads 3. -/
theorem kdba_removedbreg_keeps_mode_and_length :
    (kdba_installdbreg cpu_reset 0 (hw_breakpoint 0xABCD0000 1 1 3)).map
        (fun c1 =>
          let dr7 := kdba_getdr7 (kdba_removedbreg c1 0 (hw_breakpoint 0xABCD0000 1 1 3)).dr
          (dr7.testBit 2, dr7.testBit 3, DR7_RW 1 dr7, DR7_LEN 1 dr7))
      = some (false, false, 1, 3) := by
  decide

/-- Claim C8, amended: for a slot `s` in `0..3`, after `kdba_installdbreg`
followed by `kdba_removedbreg` on the same breakpoint, the address register of
the slot is zero and both enable bits of the slot are clear, while its
read/write field and its length field still hold the installed `m % 4` and
`l % 4`; the enable bits and the two fields of every other slot are as they
were before the installation. -/
theorem kdba_install_then_remove (c : Cpu) (cpu : Nat) (bp : kdb_bp_t) (s m l : Nat)
    (hs : s < 4) (hh : bp.bp_hard cpu = some ⟨(s : Int), m, l⟩) :
    ∃ c1, kdba_installdbreg c cpu bp = some c1
      ∧ kdba_getdr (kdba_removedbreg c1 cpu bp).dr (s : Int) = 0
      ∧ (kdba_getdr7 (kdba_removedbreg c1 cpu bp).dr).testBit (2 * s) = false
      ∧ (kdba_getdr7 (kdba_removedbreg c1 cpu bp).dr).testBit (2 * s + 1) = false
      ∧ DR7_RW s (kdba_getdr7 (kdba_removedbreg c1 cpu bp).dr) = m % 4
      ∧ DR7_LEN s (kdba_getdr7 (kdba_removedbreg c1 cpu bp).dr) = l % 4
      ∧ (∀ t, t < 4 → t ≠ s →
          (kdba_getdr7 (kdba_removedbreg c1 cpu bp).dr).testBit (2 * t)
            = (kdba_getdr7 c.dr).testBit (2 * t)
          ∧ (kdba_getdr7 (kdba_removedbreg c1 cpu bp).dr).testBit (2 * t + 1)
            = (kdba_getdr7 c.dr).testBit (2 * t + 1)
          ∧ DR7_RW t (kdba_getdr7 (kdba_removedbreg c1 cpu bp).dr) = DR7_RW t (kdba_getdr7 c.dr)
          ∧ DR7_LEN t (kdba_getdr7 (kdba_removedbreg c1 cpu bp).dr)
            = DR7_LEN t (kdba_getdr7 c.dr)) := by
  refine ⟨_, kdba_installdbreg_eq c cpu bp s m l hs hh, ?_⟩
  rw [kdba_removedbreg_eq _ cpu bp s m l hs hh]
  have bit : ∀ i, (kdba_getdr7 (kdba_putdr7 (kdba_putdr (kdba_putdr7
        (kdba_putdr c.dr (s : Int) bp.bp_addr)
        (DR7_GSET s (DR7_LENSET s (DR7_RWSET s (kdba_getdr7 c.dr ||| DR7_GE) m) l))) (s : Int) 0)
        (DR7_LCLR s (DR7_GCLR s (kdba_getdr7 (kdba_putdr7 (kdba_putdr c.dr (s : Int) bp.bp_addr)
        (DR7_GSET s (DR7_LENSET s (DR7_RWSET s (kdba_getdr7 c.dr ||| DR7_GE) m) l)))))))).testBit i
      = if i = 2 * s ∨ i = 2 * s + 1 then false
        else if 18 + 4 * s ≤ i ∧ i < 18 + 4 * s + 2 then l.testBit (i - (18 + 4 * s))
        else if 16 + 4 * s ≤ i ∧ i < 16 + 4 * s + 2 then m.testBit (i - (16 + 4 * s))
        else if i = 9 then true
        else (kdba_getdr7 c.dr).testBit i := by
    intro i
    rw [kdba_getdr7_putdr7, kdba_getdr7_putdr7, testBit_remove_dr7, testBit_install_dr7]
    by_cases h1 : i = 2 * s ∨ i = 2 * s + 1
    · simp only [h1, if_true]
    · have h2 : ¬ (i = 2 * s + 1) := fun h => h1 (Or.inr h)
      simp only [h1, h2, if_false]
  simp only [] at bit ⊢
  refine ⟨?_, ?_, ?_, ?_, ?_, ?_⟩
  · rw [kdba_getdr_putdr7 _ _ _ (by omega), kdba_getdr_putdr_same _ _ _ hs]
  · rw [bit]; simp
  · rw [bit]; simp
  · apply field_eq_mod
    intro j hj
    rw [bit]
    have a1 : ¬ (16 + 4 * s + j = 2 * s ∨ 16 + 4 * s + j = 2 * s + 1) := by omega
    have a2 : ¬ (18 + 4 * s ≤ 16 + 4 * s + j ∧ 16 + 4 * s + j < 18 + 4 * s + 2) := by omega
    have a3 : 16 + 4 * s ≤ 16 + 4 * s + j ∧ 16 + 4 * s + j < 16 + 4 * s + 2 := by omega
    simp only [a1, a2, a3, if_false, and_self, if_true]
    congr 1
    omega
  · apply field_eq_mod
    intro j hj
    rw [bit]
    have a1 : ¬ (18 + 4 * s + j = 2 * s ∨ 18 + 4 * s + j = 2 * s + 1) := by omega
    have a2 : 18 + 4 * s ≤ 18 + 4 * s + j ∧ 18 + 4 * s + j < 18 + 4 * s + 2 := by omega
    simp only [a1, a2, if_false, and_self, if_true]
    congr 1
    omega
  · intro t ht hts
    refine ⟨?_, ?_, ?_, ?_⟩
    · rw [bit]
      have a1 : ¬ (2 * t = 2 * s ∨ 2 * t = 2 * s + 1) := by omega
      have a2 : ¬ (18 + 4 * s ≤ 2 * t ∧ 2 * t < 18 + 4 * s + 2) := by omega
      have a3 : ¬ (16 + 4 * s ≤ 2 * t ∧ 2 * t < 16 + 4 * s + 2) := by omega
      have a4 : ¬ (2 * t = 9) := by omega
      simp only [a1, a2, a3, a4, if_false]
    · rw [bit]
      have a1 : ¬ (2 * t + 1 = 2 * s ∨ 2 * t + 1 = 2 * s + 1) := by omega
      have a2 : ¬ (18 + 4 * s ≤ 2 * t + 1 ∧ 2 * t + 1 < 18 + 4 * s + 2) := by omega
      have a3 : ¬ (16 + 4 * s ≤ 2 * t + 1 ∧ 2 * t + 1 < 16 + 4 * s + 2) := by omega
      have a4 : ¬ (2 * t + 1 = 9) := by omega
      simp only [a1, a2, a3, a4, if_false]
    · apply field_congr
      intro j hj
      rw [bit]
      have a1 : ¬ (16 + 4 * t + j = 2 * s ∨ 16 + 4 * t + j = 2 * s + 1) := by omega
      have a2 : ¬ (18 + 4 * s ≤ 16 + 4 * t + j ∧ 16 + 4 * t + j < 18 + 4 * s + 2) := by omega
      have a3 : ¬ (16 + 4 * s ≤ 16 + 4 * t + j ∧ 16 + 4 * t + j < 16 + 4 * s + 2) := by omega
      have a4 : ¬ (16 + 4 * t + j = 9) := by omega
      simp only [a1, a2, a3, a4, if_false]
    · apply field_congr
      intro j hj
      rw [bit]
      have a1 : ¬ (18 + 4 * t + j = 2 * s ∨ 18 + 4 * t + j = 2 * s + 1) := by omega
      have a2 : ¬ (18 + 4 * s ≤ 18 + 4 * t + j ∧ 18 + 4 * t + j < 18 + 4 * s + 2) := by omega
      have a3 : ¬ (16 + 4 * s ≤ 18 + 4 * t + j ∧ 18 + 4 * t + j < 16 + 4 * s + 2) := by omega
      have a4 : ¬ (18 + 4 * t + j = 9) := by omega
      simp only [a1, a2, a3, a4, if_false]

/-- Witness for the amended C8: the scenario of the specification, slot 1 with
write mode, 4-byte length and address `0xABCD0000`, next to a slot 0 that is
already armed. -/
theorem kdba_install_then_remove_witness :
    (1 < 4) ∧ (hw_breakpoint 0xABCD0000 1 1 3).bp_hard 0 = some ⟨((1 : Nat) : Int), 1, 3⟩
    ∧ ∃ c1, kdba_installdbreg { cpu_reset with dr := { cpu_reset.dr with dr7 := 0xf0203 } } 0
          (hw_breakpoint 0xABCD0000 1 1 3) = some c1
      ∧ kdba_getdr (kdba_removedbreg c1 0 (hw_breakpoint 0xABCD0000 1 1 3)).dr ((1 : Nat) : Int) = 0
      ∧ DR7_RW 1 (kdba_getdr7 (kdba_removedbreg c1 0 (hw_breakpoint 0xABCD0000 1 1 3)).dr) = 1 % 4
      ∧ DR7_LEN 1 (kdba_getdr7 (kdba_removedbreg c1 0 (hw_breakpoint 0xABCD0000 1 1 3)).dr)
          = 3 % 4 :=
  have h := kdba_install_then_remove
    { cpu_reset with dr := { cpu_reset.dr with dr7 := 0xf0203 } } 0
    (hw_breakpoint 0xABCD0000 1 1 3) 1 1 3 (by decide) rfl
  ⟨by decide, rfl, h.elim (fun c1 hc => ⟨c1, hc.1, hc.2.1, hc.2.2.2.2.1, hc.2.2.2.2.2.1⟩)⟩

/-- Claim C9, evaluated on the code: a breakpoint that names slot 6 is
installed on a processor whose debug registers are zero.  The error line is
printed, yet the status register DR6 now holds the breakpoint address and the
control register has bit 9 set.  Removing such a breakpoint prints the error
line and zeroes DR6. -/
theorem kdba_bad_slot_writes_registers :
    kdba_installdbreg cpu_reset 0 (hw_breakpoint 0xABCD0000 6 1 3)
      = some { dr := { dr0 := 0, dr1 := 0, dr2 := 0, dr3 := 0, dr6 := 0xABCD0000, dr7 := 0x200 }
               console := [ConsoleLine.bad_debug_register 6] }
    ∧ kdba_removedbreg
        { dr := { dr0 := 0, dr1 := 0, dr2 := 0, dr3 := 0, dr6 := 0x4001, dr7 := 0x400 }
          console := [] } 0 (hw_breakpoint 0xABCD0000 6 1 3)
      = { dr := { dr0 := 0, dr1 := 0, dr2 := 0, dr3 := 0, dr6 := 0, dr7 := 0x400 }
          console := [ConsoleLine.bad_debug_register 6] } := by
  decide

/-! ## Register access facade -/

/-- Agreement under `lkmd_strnicmp` over the whole length of the supplied name,
together with equal lengths, is equality without regard to letter case. -/
theorem lkmd_strnicmp_zero (a : List Char) :
    ∀ b : List Char, lkmd_strnicmp a b b.length = 0 → a.length = b.length → same_name a b := by
  induction a with
  | nil =>
    intro b _ hl
    cases b with
    | nil => rfl
    | cons c2 s2 => simp at hl
  | cons c1 s1 ih =>
    intro b h0 hl
    cases b with
    | nil => simp at hl
    | cons c2 s2 =>
      simp only [List.length_cons, lkmd_strnicmp] at h0
      by_cases hc : c1.toLower = c2.toLower
      · rw [if_pos hc] at h0
        have hrec := ih s2 h0 (by simpa using hl)
        unfold same_name at hrec ⊢
        simp [hc, hrec]
      · rw [if_neg hc] at h0
        split at h0 <;> simp at h0

theorem kdbregs_search_some {F : Type} (list : List (kdbregs F)) (regname : List Char)
    (r : kdbregs F) (h : kdbregs_search list regname = some r) :
    r ∈ list ∧ same_name r.reg_name regname := by
  unfold kdbregs_search at h
  split at h
  · simp at h
  · rename_i r0 hfind
    split at h
    · rename_i hlen
      have hr : r0 = r := by simpa using h
      subst hr
      refine ⟨List.mem_of_find?_eq_some hfind, ?_⟩
      have hp := List.find?_some hfind
      exact lkmd_strnicmp_zero _ _ (by simpa using hp) hlen
    · simp at h

theorem kdbregs_search_none {F : Type} (list : List (kdbregs F)) (regname : List Char)
    (h : ∀ r ∈ list, ¬ same_name r.reg_name regname) : kdbregs_search list regname = none := by
  cases hs : kdbregs_search list regname with
  | none => rfl
  | some r =>
    have := kdbregs_search_some list regname r hs
    exact absurd this.2 (h r this.1)

/-- A name found in neither table of the 32-bit build, and not a
pseudo-register name, is answered with `KDB_BADREG` by both functions. -/
theorem not_found_32 (e : RegCtx X86_32.pt_regs) (regname : List Char)
    (regs contents value : Nat) (hp : ¬ X86_32.pseudo_name regname)
    (h1 : kdbregs_search dbreglist regname = none)
    (h2 : kdbregs_search X86_32.kdbreglist regname = none) :
    X86_32.kdba_getregcontents e regname regs contents = (kdb_diag.KDB_BADREG, contents)
    ∧ X86_32.kdba_setregcontents e regname regs value = (kdb_diag.KDB_BADREG, e) := by
  unfold X86_32.pseudo_name at hp
  simp only [not_or] at hp
  obtain ⟨p1, p2, p3, p4, p5⟩ := hp
  have q1 : ¬ regname = ['c', 'e', 's', 'p'] := p1
  have q2 : ¬ regname = ['c', 'e', 'f', 'l', 'a', 'g', 's'] := p2
  have q3 : ¬ regname = ['&', 'r', 'e', 'g', 's'] := p3
  have q4 : ¬ regname = ['k', 'e', 's', 'p'] := p4
  constructor
  · simp [X86_32.kdba_getregcontents, q1, q2, q3, q4, p5, h1, h2]
  · simp [X86_32.kdba_setregcontents, p5, h1, h2]

/-- A name found in neither table of the 64-bit build, and not a
pseudo-register name, is answered with `KDB_BADREG` by both functions. -/
theorem not_found_64 (e : RegCtx X86_64.pt_regs) (regname : List Char)
    (regs contents value : Nat) (hp : ¬ X86_64.pseudo_name regname)
    (h1 : kdbregs_search dbreglist regname = none)
    (h2 : kdbregs_search X86_64.kdbreglist regname = none) :
    X86_64.kdba_getregcontents e regname regs contents = some (kdb_diag.KDB_BADREG, contents)
    ∧ X86_64.kdba_setregcontents e regname regs value = some (kdb_diag.KDB_BADREG, e) := by
  unfold X86_64.pseudo_name at hp
  simp only [not_or] at hp
  obtain ⟨p1, p2, p3, p4, p5⟩ := hp
  have q1 : ¬ regname = ['&', 'r', 'e', 'g', 's'] := p1
  have q2 : ¬ regname = ['k', 'r', 's', 'p'] := p2
  have q3 : ¬ regname = ['c', 'r', 's', 'p'] := p3
  have q4 : ¬ regname = ['c', 'e', 'f', 'l', 'a', 'g', 's'] := p4
  constructor
  · simp [X86_64.kdba_getregcontents, q1, q2, q3, q4, p5, h1, h2]
  · simp [X86_64.kdba_setregcontents, p5, h1, h2]

/-- No name of the 32-bit tables is a strict beginning of another one. -/
theorem no_entry_extends_32 :
    ∀ a ∈ table_names X86_32.kdbreglist, ∀ b ∈ table_names X86_32.kdbreglist,
      ¬ strict_beginning a b := by
  decide

/-- No name of the 64-bit tables is a strict beginning of another one. -/
theorem no_entry_extends_64 :
    ∀ a ∈ table_names X86_64.kdbreglist, ∀ b ∈ table_names X86_64.kdbreglist,
      ¬ strict_beginning a b := by
  decide

/-- A strict beginning of a table name is found by no search of a table whose
names do not extend one another. -/
theorem search_strict_beginning {F : Type} (names : List (List Char))
    (hno : ∀ a ∈ names, ∀ b ∈ names, ¬ strict_beginning a b)
    (list : List (kdbregs F)) (hsub : ∀ r ∈ list, r.reg_name ∈ names)
    (regname b : List Char) (hb : b ∈ names) (hbeg : strict_beginning regname b) :
    kdbregs_search list regname = none := by
  cases hs : kdbregs_search list regname with
  | none => rfl
  | some r =>
    exfalso
    obtain ⟨hmem, hsame⟩ := kdbregs_search_some list regname r hs
    unfold same_name at hsame
    have hlen : r.reg_name.length = regname.length := by
      have := congrArg List.length hsame
      simpa using this
    apply hno r.reg_name (hsub r hmem) b hb
    obtain ⟨h0, h1, h2⟩ := hbeg
    refine ⟨by omega, by omega, ?_⟩
    rw [hsame, hlen]
    exact h2

/-- A name that starts with the marker `%` begins no table name. -/
theorem marker_begins_nothing (regname b : List Char) (hm : regname.head? = some '%')
    (hbeg : strict_beginning regname b) : b.head?.map Char.toLower = some '%' := by
  obtain ⟨_, h1, h2⟩ := hbeg
  cases regname with
  | nil => simp at hm
  | cons c t =>
    have hc : c = '%' := by simpa using hm
    cases b with
    | nil => simp at h1
    | cons d u =>
      simp only [List.map_cons, List.length_cons, List.take_succ_cons, List.cons.injEq] at h2
      rw [hc] at h2
      simp only [List.head?_cons, Option.map_some']
      rw [← h2.1]
      rfl

/-- A strict beginning of a name of the 32-bit tables is not a pseudo-register
name. -/
theorem strict_beginning_not_pseudo_32 (regname b : List Char)
    (hb : b ∈ table_names X86_32.kdbreglist) (hbeg : strict_beginning regname b) :
    ¬ X86_32.pseudo_name regname := by
  have k1 : ∀ b ∈ table_names X86_32.kdbreglist, ¬ strict_beginning "cesp".toList b := by decide
  have k2 : ∀ b ∈ table_names X86_32.kdbreglist, ¬ strict_beginning "ceflags".toList b := by
    decide
  have k3 : ∀ b ∈ table_names X86_32.kdbreglist, ¬ strict_beginning "&regs".toList b := by decide
  have k4 : ∀ b ∈ table_names X86_32.kdbreglist, ¬ strict_beginning "kesp".toList b := by decide
  have k5 : ∀ b ∈ table_names X86_32.kdbreglist, b.head?.map Char.toLower ≠ some '%' := by
    decide
  intro hp
  rcases hp with h | h | h | h | h
  · exact k1 b hb (h ▸ hbeg)
  · exact k2 b hb (h ▸ hbeg)
  · exact k3 b hb (h ▸ hbeg)
  · exact k4 b hb (h ▸ hbeg)
  · exact k5 b hb (marker_begins_nothing regname b h hbeg)

/-- A strict beginning of a name of the 64-bit tables is not a pseudo-register
name. -/
theorem strict_beginning_not_pseudo_64 (regname b : List Char)
    (hb : b ∈ table_names X86_64.kdbreglist) (hbeg : strict_beginning regname b) :
    ¬ X86_64.pseudo_name regname := by
  have k1 : ∀ b ∈ table_names X86_64.kdbreglist, ¬ strict_beginning "&regs".toList b := by decide
  have k2 : ∀ b ∈ table_names X86_64.kdbreglist, ¬ strict_beginning "krsp".toList b := by decide
  have k3 : ∀ b ∈ table_names X86_64.kdbreglist, ¬ strict_beginning "crsp".toList b := by decide
  have k4 : ∀ b ∈ table_names X86_64.kdbreglist, ¬ strict_beginning "ceflags".toList b := by
    decide
  have k5 : ∀ b ∈ table_names X86_64.kdbreglist, b.head?.map Char.toLower ≠ some '%' := by
    decide
  intro hp
  rcases hp with h | h | h | h | h
  · exact k1 b hb (h ▸ hbeg)
  · exact k2 b hb (h ▸ hbeg)
  · exact k3 b hb (h ▸ hbeg)
  · exact k4 b hb (h ▸ hbeg)
  · exact k5 b hb (marker_begins_nothing regname b h hbeg)

theorem dbreglist_names {F : Type} (general : List (kdbregs F)) :
    ∀ r ∈ dbreglist, r.reg_name ∈ table_names general := by
  intro r hr
  unfold table_names
  exact List.mem_append_left _ (List.mem_map_of_mem _ hr)

theorem general_names {F : Type} (general : List (kdbregs F)) :
    ∀ r ∈ general, r.reg_name ∈ table_names general := by
  intro r hr
  unfold table_names
  exact List.mem_append_right _ (List.mem_map_of_mem _ hr)

/-- Counterexample to C11 as stated: `fl` begins exactly one table name of the
32-bit build, `flags`, and `orig` begins exactly one table name of the 64-bit
build, `orig_ax`; with a valid frame both functions answer `KDB_BADREG`, the
result word and the context are left as they were. -/
theorem abbreviated_name_rejected :
    (table_names X86_32.kdbreglist).filter (fun b => decide (strict_beginning "fl".toList b))
      = ["flags".toList]
    ∧ X86_32.kdba_getregcontents ctx32_sample "fl".toList 0x1000 7 = (kdb_diag.KDB_BADREG, 7)
    ∧ (X86_32.kdba_setregcontents ctx32_sample "fl".toList 0x1000 9).1 = kdb_diag.KDB_BADREG
    ∧ (table_names X86_64.kdbreglist).filter (fun b => decide (strict_beginning "orig".toList b))
      = ["orig_ax".toList]
    ∧ X86_64.kdba_getregcontents ctx64_sample "orig".toList 0x1000 7
      = some (kdb_diag.KDB_BADREG, 7)
    ∧ (X86_64.kdba_setregcontents ctx64_sample "orig".toList 0x1000 9).map (fun r => r.1)
      = some kdb_diag.KDB_BADREG := by
  decide

/-- Claim C11, amended: a non-empty name that is a strict beginning, letter
case ignored, of an entry of the register tables of the build (of exactly one
entry in particular) is not resolved to that entry: `kdba_getregcontents`
returns `KDB_BADREG` and leaves the result word alone, `kdba_setregcontents`
returns `KDB_BADREG` and changes neither a frame nor a debug register, because
the lookup accepts an entry only when its name has the length of the supplied
name. -/
theorem strict_beginning_is_badreg (regname : List Char) (regs contents value : Nat) :
    (∀ e : RegCtx X86_32.pt_regs,
      (∃ b ∈ table_names X86_32.kdbreglist, strict_beginning regname b) →
      X86_32.kdba_getregcontents e regname regs contents = (kdb_diag.KDB_BADREG, contents)
      ∧ X86_32.kdba_setregcontents e regname regs value = (kdb_diag.KDB_BADREG, e))
    ∧ (∀ e : RegCtx X86_64.pt_regs,
      (∃ b ∈ table_names X86_64.kdbreglist, strict_beginning regname b) →
      X86_64.kdba_getregcontents e regname regs contents = some (kdb_diag.KDB_BADREG, contents)
      ∧ X86_64.kdba_setregcontents e regname regs value = some (kdb_diag.KDB_BADREG, e)) := by
  constructor
  · rintro e ⟨b, hb, hbeg⟩
    exact not_found_32 e regname regs contents value
      (strict_beginning_not_pseudo_32 regname b hb hbeg)
      (search_strict_beginning _ no_entry_extends_32 dbreglist (dbreglist_names _) regname b hb
        hbeg)
      (search_strict_beginning _ no_entry_extends_32 X86_32.kdbreglist (general_names _) regname
        b hb hbeg)
  · rintro e ⟨b, hb, hbeg⟩
    exact not_found_64 e regname regs contents value
      (strict_beginning_not_pseudo_64 regname b hb hbeg)
      (search_strict_beginning _ no_entry_extends_64 dbreglist (dbreglist_names _) regname b hb
        hbeg)
      (search_strict_beginning _ no_entry_extends_64 X86_64.kdbreglist (general_names _) regname
        b hb hbeg)

/-- Witness for the amended C11: `FL` against `flags` in the 32-bit build and
`orig` against `orig_ax` in the 64-bit build. -/
theorem strict_beginning_is_badreg_witness :
    (∃ b ∈ table_names X86_32.kdbreglist, strict_beginning "FL".toList b)
    ∧ (∃ b ∈ table_names X86_64.kdbreglist, strict_beginning "orig".toList b)
    ∧ X86_32.kdba_getregcontents ctx32_sample "FL".toList 0x1000 7 = (kdb_diag.KDB_BADREG, 7)
    ∧ X86_32.kdba_setregcontents ctx32_sample "FL".toList 0x1000 9
      = (kdb_diag.KDB_BADREG, ctx32_sample)
    ∧ X86_64.kdba_getregcontents ctx64_sample "orig".toList 0x1000 7
      = some (kdb_diag.KDB_BADREG, 7)
    ∧ X86_64.kdba_setregcontents ctx64_sample "orig".toList 0x1000 9
      = some (kdb_diag.KDB_BADREG, ctx64_sample) :=
  have h32 := (strict_beginning_is_badreg "FL".toList 0x1000 7 9).1 ctx32_sample
    ⟨"flags".toList, by decide, by decide⟩
  have h64 := (strict_beginning_is_badreg "orig".toList 0x1000 7 9).2 ctx64_sample
    ⟨"orig_ax".toList, by decide, by decide⟩
  ⟨⟨"flags".toList, by decide, by decide⟩, ⟨"orig_ax".toList, by decide, by decide⟩,
    h32.1, h32.2, h64.1, h64.2⟩

/-! ## Register access facade: stack pointer and stack segment -/

/-- The stack-pointer answers for a frame taken without a privilege change, as
the code computes them: `kesp` and `sp` of the 32-bit build and `sp` of the
64-bit build subtract two machine words from the address behind the frame,
`krsp` of the 64-bit build subtracts `2 * 4`, one machine word. -/
theorem stack_pointer_answers (regs contents : Nat) (hregs : regs ≠ 0) :
    (∀ e : RegCtx X86_32.pt_regs, e.frames regs X86_32.pt_regs.cs &&& 0xffff = e.KERNEL_CS →
      X86_32.kdba_getregcontents e "kesp".toList regs contents
        = (kdb_diag.ok, ((regs + e.sizeof_pt_regs) % 2 ^ 32 + 2 ^ 32 - 8) % 2 ^ 32)
      ∧ X86_32.kdba_getregcontents e "sp".toList regs contents
        = (kdb_diag.ok, (regs + e.sizeof_pt_regs + 2 ^ 32 - 8) % 2 ^ 32))
    ∧ (∀ e : RegCtx X86_64.pt_regs, e.frames regs X86_64.pt_regs.cs &&& 0xffff = e.KERNEL_CS →
      X86_64.kdba_getregcontents e "krsp".toList regs contents
        = some (kdb_diag.ok, ((regs + e.sizeof_pt_regs) % 2 ^ 64 + 2 ^ 64 - 8) % 2 ^ 64)
      ∧ X86_64.kdba_getregcontents e "sp".toList regs contents
        = some (kdb_diag.ok, (regs + e.sizeof_pt_regs + 2 ^ 64 - 16) % 2 ^ 64)) := by
  have d1 : kdbregs_search dbreglist ['k', 'e', 's', 'p'] = none := by decide
  have d2 : kdbregs_search dbreglist ['s', 'p'] = none := by decide
  have g1 : kdbregs_search X86_32.kdbreglist ['s', 'p']
      = some ⟨['s', 'p'], X86_32.pt_regs.sp⟩ := by decide
  have g2 : kdbregs_search X86_64.kdbreglist ['s', 'p']
      = some ⟨['s', 'p'], X86_64.pt_regs.sp⟩ := by decide
  constructor
  · intro e hcs
    constructor
    · simp [X86_32.kdba_getregcontents, d1, hregs, hcs]
    · simp [X86_32.kdba_getregcontents, d2, g1, hregs, hcs]
  · intro e hcs
    constructor
    · simp [X86_64.kdba_getregcontents, hregs, hcs]
    · simp [X86_64.kdba_getregcontents, g2, hregs, hcs]

/-- Claim C12, evaluated on the code: a 64-bit frame at `0xffff8800000fff58`
taken without a privilege change, with `sizeof(struct pt_regs) = 168`, so the
address behind the frame is `0xffff880000100000`.  The table entry `sp` answers
`0xffff8800000ffff0`, 16 below it; the pseudo-register `krsp` answers
`0xffff8800000ffff8`, only 8 below it.  In the 32-bit build `kesp` and `sp`
agree, 8 below the address behind the frame. -/
theorem krsp_subtracts_one_word :
    X86_64.kdba_getregcontents ctx64_kernel "sp".toList 0xffff8800000fff58 0
      = some (kdb_diag.ok, 0xffff880000100000 - 16)
    ∧ X86_64.kdba_getregcontents ctx64_kernel "krsp".toList 0xffff8800000fff58 0
      = some (kdb_diag.ok, 0xffff880000100000 - 8)
    ∧ X86_32.kdba_getregcontents ctx32_kernel "kesp".toList 0xc0ffffbc 0
      = (kdb_diag.ok, 0xc1000000 - 8)
    ∧ X86_32.kdba_getregcontents ctx32_kernel "sp".toList 0xc0ffffbc 0
      = (kdb_diag.ok, 0xc1000000 - 8) := by
  decide

/-- The answer for the table entry `ss` is the word stored at the `ss` member
of the frame, whether or not the frame was taken with a privilege change: the
32-bit build compares the entry name with `xss`, which no entry carries, and
the 64-bit build has its correction compiled out. -/
theorem ss_answers_stored_word (regs contents : Nat) (hregs : regs ≠ 0) :
    (∀ e : RegCtx X86_32.pt_regs, X86_32.kdba_getregcontents e "ss".toList regs contents
        = (kdb_diag.ok, e.frames regs X86_32.pt_regs.ss))
    ∧ (∀ e : RegCtx X86_64.pt_regs, X86_64.kdba_getregcontents e "ss".toList regs contents
        = some (kdb_diag.ok, e.frames regs X86_64.pt_regs.ss)) := by
  have d2 : kdbregs_search dbreglist ['s', 's'] = none := by decide
  have g1 : kdbregs_search X86_32.kdbreglist ['s', 's']
      = some ⟨['s', 's'], X86_32.pt_regs.ss⟩ := by decide
  have g2 : kdbregs_search X86_64.kdbreglist ['s', 's']
      = some ⟨['s', 's'], X86_64.pt_regs.ss⟩ := by decide
  constructor
  · intro e
    simp [X86_32.kdba_getregcontents, d2, g1, hregs]
  · intro e
    simp [X86_64.kdba_getregcontents, g2, hregs]

/-- Claim C13, evaluated on the code: frames taken without a privilege change
(`cs` is `__KERNEL_CS`) whose `ss` member holds the stale word `0x2222` while
the stack segment of the processor is `0x68` (32-bit) and `0x18` (64-bit).
Both builds answer `ss` with the stale word `0x2222`. -/
theorem ss_not_corrected :
    ctx32_kernel.frames 0xc0ffffbc X86_32.pt_regs.cs &&& 0xffff = ctx32_kernel.KERNEL_CS
    ∧ ctx32_kernel.cur_ss = 0x68
    ∧ X86_32.kdba_getregcontents ctx32_kernel "ss".toList 0xc0ffffbc 0 = (kdb_diag.ok, 0x2222)
    ∧ ctx64_kernel.frames 0xffff8800000fff58 X86_64.pt_regs.cs &&& 0xffff
        = ctx64_kernel.KERNEL_CS
    ∧ X86_64.kdba_getregcontents ctx64_kernel "ss".toList 0xffff8800000fff58 0
        = some (kdb_diag.ok, 0x2222) := by
  decide

/-- A name that equals a general-register name, letter case ignored, does not
start with the marker `%`. -/
theorem same_name_no_marker (entry regname : List Char) (hs : same_name entry regname)
    (hm : regname.head? = some '%') : (entry.map Char.toLower).head? = some '%' := by
  unfold same_name at hs
  cases regname with
  | nil => simp at hm
  | cons c t =>
    have hc : c = '%' := by simpa using hm
    rw [hs, hc]
    rfl

/-- Counterexample to C14 as stated: in the 32-bit build the value returned
for the general register `ax` without a frame is the value returned for the
unknown name `zz` with a frame; the same holds for `kdba_setregcontents`. -/
theorem null_frame_same_error_value :
    (X86_32.kdba_getregcontents ctx32_sample "ax".toList 0 7).1
      = (X86_32.kdba_getregcontents ctx32_sample "zz".toList 0x1000 7).1
    ∧ (X86_32.kdba_getregcontents ctx32_sample "ax".toList 0 7).1 = kdb_diag.KDB_BADREG
    ∧ (X86_32.kdba_setregcontents ctx32_sample "ax".toList 0 9).1
      = (X86_32.kdba_setregcontents ctx32_sample "zz".toList 0x1000 9).1 := by
  decide

/-- Claim C14, amended: in the 32-bit build, `kdba_getregcontents` and
`kdba_setregcontents` called without a trap frame (`regs` null) for a name that
needs one (a general-register name in any letter case, `&regs`, `kesp`) return
`KDB_BADREG`, the value also returned for a name found in no table; the result
word, every frame and every debug register are left as they were, so nothing is
read or written through the null pointer. -/
theorem null_frame_is_badreg (e : RegCtx X86_32.pt_regs) (regname : List Char)
    (contents value : Nat)
    (hneeds : regname = "&regs".toList ∨ regname = "kesp".toList
      ∨ ∃ r ∈ X86_32.kdbreglist, same_name r.reg_name regname) :
    X86_32.kdba_getregcontents e regname 0 contents = (kdb_diag.KDB_BADREG, contents)
    ∧ X86_32.kdba_setregcontents e regname 0 value = (kdb_diag.KDB_BADREG, e) := by
  have d1 : kdbregs_search dbreglist ['&', 'r', 'e', 'g', 's'] = none := by decide
  have d2 : kdbregs_search dbreglist ['k', 'e', 's', 'p'] = none := by decide
  rcases hneeds with h | h | ⟨r, hr, hs⟩
  · subst h
    constructor
    · simp [X86_32.kdba_getregcontents, d1]
    · simp [X86_32.kdba_setregcontents, d1]
  · subst h
    constructor
    · simp [X86_32.kdba_getregcontents, d2]
    · simp [X86_32.kdba_setregcontents, d2]
  · have k0 : ∀ d ∈ dbreglist, ∀ r ∈ X86_32.kdbreglist,
        ¬ same_name d.reg_name r.reg_name := by decide
    have k1 : ∀ r ∈ X86_32.kdbreglist, ¬ same_name r.reg_name ['c', 'e', 's', 'p'] := by decide
    have k2 : ∀ r ∈ X86_32.kdbreglist,
        ¬ same_name r.reg_name ['c', 'e', 'f', 'l', 'a', 'g', 's'] := by decide
    have k5 : ∀ r ∈ X86_32.kdbreglist, (r.reg_name.map Char.toLower).head? ≠ some '%' := by
      decide
    have q1 : ¬ regname = ['c', 'e', 's', 'p'] := fun h => k1 r hr (h ▸ hs)
    have q2 : ¬ regname = ['c', 'e', 'f', 'l', 'a', 'g', 's'] := fun h => k2 r hr (h ▸ hs)
    have q5 : ¬ regname.head? = some '%' := fun h => k5 r hr (same_name_no_marker _ _ hs h)
    have hdb : kdbregs_search dbreglist regname = none := by
      apply kdbregs_search_none
      intro d hd hsd
      apply k0 d hd r hr
      unfold same_name at *
      rw [hsd, hs]
    constructor
    · simp [X86_32.kdba_getregcontents, q1, q2, q5, hdb]
    · simp [X86_32.kdba_setregcontents, q5, hdb]

/-- Witness for the amended C14: the name `AX` without a frame. -/
theorem null_frame_is_badreg_witness :
    (∃ r ∈ X86_32.kdbreglist, same_name r.reg_name "AX".toList)
    ∧ X86_32.kdba_getregcontents ctx32_sample "AX".toList 0 7 = (kdb_diag.KDB_BADREG, 7)
    ∧ X86_32.kdba_setregcontents ctx32_sample "AX".toList 0 9
      = (kdb_diag.KDB_BADREG, ctx32_sample) :=
  ⟨⟨⟨"ax".toList, X86_32.pt_regs.ax⟩, by decide, by decide⟩,
    null_frame_is_badreg ctx32_sample "AX".toList 7 9
      (Or.inr (Or.inr ⟨⟨"ax".toList, X86_32.pt_regs.ax⟩, by decide, by decide⟩))⟩

/-- The 64-bit build has no null check: without a frame `&regs` is answered
with success and the value `0`, while `krsp`, a general-register read and a
general-register write go through the null pointer and fault. -/
theorem null_frame_64 :
    X86_64.kdba_getregcontents ctx64_sample "&regs".toList 0 7 = some (kdb_diag.ok, 0)
    ∧ X86_64.kdba_getregcontents ctx64_sample "krsp".toList 0 7 = none
    ∧ X86_64.kdba_getregcontents ctx64_sample "ax".toList 0 7 = none
    ∧ (X86_64.kdba_setregcontents ctx64_sample "ax".toList 0 9).isNone = true := by
  decide

/-- Every general-register name of the 32-bit table is found at its own entry
and in no other table, and is not a pseudo-register name. -/
theorem table_lookup_32 :
    ∀ r ∈ X86_32.kdbreglist, kdbregs_search dbreglist r.reg_name = none
      ∧ kdbregs_search X86_32.kdbreglist r.reg_name = some r
      ∧ ¬ X86_32.pseudo_name r.reg_name := by
  decide

/-- Every general-register name of the 64-bit table is found at its own entry
and is not a pseudo-register name. -/
theorem table_lookup_64 :
    ∀ r ∈ X86_64.kdbreglist, kdbregs_search X86_64.kdbreglist r.reg_name = some r
      ∧ ¬ X86_64.pseudo_name r.reg_name := by
  decide

/-- Storing into one member leaves every other member of every frame alone. -/
theorem write_frames {F : Type} [DecidableEq F] (e : RegCtx F) (regs : Nat) (f : F) (v : Nat)
    (a : Nat) (g : F) (h : a ≠ regs ∨ g ≠ f) : (e.write regs f v).frames a g = e.frames a g := by
  unfold RegCtx.write
  have : ¬ (a = regs ∧ g = f) := by
    intro ⟨h1, h2⟩
    rcases h with h | h
    · exact h h1
    · exact h h2
  simp only [this, if_false]

/-- Claim C15: for every entry of the general-register table of either build
and every valid trap frame, `kdba_getregcontents` succeeds, and
`kdba_setregcontents` with the value read succeeds and stores exactly one word,
at the member of that entry in that frame: every other member of the frame,
every other frame, the debug registers and the rest of the context are
unchanged. -/
theorem get_then_set_one_member (regs contents : Nat) (hregs : regs ≠ 0) :
    (∀ (e : RegCtx X86_32.pt_regs) (r : kdbregs X86_32.pt_regs), r ∈ X86_32.kdbreglist →
      ∃ v, X86_32.kdba_getregcontents e r.reg_name regs contents = (kdb_diag.ok, v)
        ∧ X86_32.kdba_setregcontents e r.reg_name regs v
          = (kdb_diag.ok, e.write regs r.reg_offset v)
        ∧ (e.write regs r.reg_offset v).dr = e.dr
        ∧ ∀ a g, a ≠ regs ∨ g ≠ r.reg_offset →
          (e.write regs r.reg_offset v).frames a g = e.frames a g)
    ∧ (∀ (e : RegCtx X86_64.pt_regs) (r : kdbregs X86_64.pt_regs), r ∈ X86_64.kdbreglist →
      ∃ v, X86_64.kdba_getregcontents e r.reg_name regs contents = some (kdb_diag.ok, v)
        ∧ X86_64.kdba_setregcontents e r.reg_name regs v
          = some (kdb_diag.ok, e.write regs r.reg_offset v)
        ∧ (e.write regs r.reg_offset v).dr = e.dr
        ∧ ∀ a g, a ≠ regs ∨ g ≠ r.reg_offset →
          (e.write regs r.reg_offset v).frames a g = e.frames a g) := by
  constructor
  · intro e r hr
    obtain ⟨h1, h2, hp⟩ := table_lookup_32 r hr
    unfold X86_32.pseudo_name at hp
    simp only [not_or] at hp
    obtain ⟨p1, p2, p3, p4, p5⟩ := hp
    have q1 : ¬ r.reg_name = ['c', 'e', 's', 'p'] := p1
    have q2 : ¬ r.reg_name = ['c', 'e', 'f', 'l', 'a', 'g', 's'] := p2
    have q3 : ¬ r.reg_name = ['&', 'r', 'e', 'g', 's'] := p3
    have q4 : ¬ r.reg_name = ['k', 'e', 's', 'p'] := p4
    have hset : ∀ v, X86_32.kdba_setregcontents e r.reg_name regs v
        = (kdb_diag.ok, e.write regs r.reg_offset v) := by
      intro v
      simp [X86_32.kdba_setregcontents, p5, h1, h2, hregs]
    have hget : ∃ v, X86_32.kdba_getregcontents e r.reg_name regs contents
        = (kdb_diag.ok, v) := by
      simp only [X86_32.kdba_getregcontents, q1, q2, q3, q4, p5, h1, h2, hregs, if_false,
        decide_False, Bool.false_eq_true]
      split_ifs <;> exact ⟨_, rfl⟩
    obtain ⟨v, hv⟩ := hget
    exact ⟨v, hv, hset v, rfl, fun a g h => write_frames e regs r.reg_offset v a g h⟩
  · intro e r hr
    obtain ⟨h2, hp⟩ := table_lookup_64 r hr
    unfold X86_64.pseudo_name at hp
    simp only [not_or] at hp
    obtain ⟨p1, p2, p3, p4, p5⟩ := hp
    have q1 : ¬ r.reg_name = ['&', 'r', 'e', 'g', 's'] := p1
    have q2 : ¬ r.reg_name = ['k', 'r', 's', 'p'] := p2
    have q3 : ¬ r.reg_name = ['c', 'r', 's', 'p'] := p3
    have q4 : ¬ r.reg_name = ['c', 'e', 'f', 'l', 'a', 'g', 's'] := p4
    have hset : ∀ v, X86_64.kdba_setregcontents e r.reg_name regs v
        = some (kdb_diag.ok, e.write regs r.reg_offset v) := by
      intro v
      simp [X86_64.kdba_setregcontents, p5, h2, hregs]
    have hget : ∃ v, X86_64.kdba_getregcontents e r.reg_name regs contents
        = some (kdb_diag.ok, v) := by
      simp only [X86_64.kdba_getregcontents, q1, q2, q3, q4, p5, h2, hregs, if_false,
        decide_False, Bool.false_eq_true]
      split_ifs <;> exact ⟨_, rfl⟩
    obtain ⟨v, hv⟩ := hget
    exact ⟨v, hv, hset v, rfl, fun a g h => write_frames e regs r.reg_offset v a g h⟩

/-- Witness for C15: the entry `ax` of the 32-bit table and the entry `r15` of
the 64-bit table, with a frame at `0x1000`. -/
theorem get_then_set_one_member_witness :
    (0x1000 ≠ 0)
    ∧ (⟨"ax".toList, X86_32.pt_regs.ax⟩ : kdbregs X86_32.pt_regs) ∈ X86_32.kdbreglist
    ∧ (⟨"r15".toList, X86_64.pt_regs.r15⟩ : kdbregs X86_64.pt_regs) ∈ X86_64.kdbreglist
    ∧ (∃ v, X86_32.kdba_getregcontents ctx32_sample "ax".toList 0x1000 7 = (kdb_diag.ok, v)
        ∧ X86_32.kdba_setregcontents ctx32_sample "ax".toList 0x1000 v
          = (kdb_diag.ok, ctx32_sample.write 0x1000 X86_32.pt_regs.ax v)
        ∧ (ctx32_sample.write 0x1000 X86_32.pt_regs.ax v).dr = ctx32_sample.dr
        ∧ ∀ a g, a ≠ 0x1000 ∨ g ≠ X86_32.pt_regs.ax →
          (ctx32_sample.write 0x1000 X86_32.pt_regs.ax v).frames a g = ctx32_sample.frames a g)
    ∧ (∃ v, X86_64.kdba_getregcontents ctx64_sample "r15".toList 0x1000 7
          = some (kdb_diag.ok, v)
        ∧ X86_64.kdba_setregcontents ctx64_sample "r15".toList 0x1000 v
          = some (kdb_diag.ok, ctx64_sample.write 0x1000 X86_64.pt_regs.r15 v)
        ∧ (ctx64_sample.write 0x1000 X86_64.pt_regs.r15 v).dr = ctx64_sample.dr
        ∧ ∀ a g, a ≠ 0x1000 ∨ g ≠ X86_64.pt_regs.r15 →
          (ctx64_sample.write 0x1000 X86_64.pt_regs.r15 v).frames a g
            = ctx64_sample.frames a g) :=
  ⟨by decide, by decide, by decide,
    (get_then_set_one_member 0x1000 7 (by decide)).1 ctx32_sample
      ⟨"ax".toList, X86_32.pt_regs.ax⟩ (by decide),
    (get_then_set_one_member 0x1000 7 (by decide)).2 ctx64_sample
      ⟨"r15".toList, X86_64.pt_regs.r15⟩ (by decide)⟩

/-! ## Single-step and program-counter control -/

/-- The test `flags & X86_EFLAGS_IF` is the test of bit 9. -/
theorem and_IF_ne_zero (f : Nat) : (f &&& X86_EFLAGS_IF ≠ 0) ↔ f.testBit 9 = true := by
  have hIF : X86_EFLAGS_IF = 2 ^ 9 := by decide
  rw [hIF]
  constructor
  · intro h
    by_contra hb
    apply h
    apply Nat.eq_of_testBit_eq
    intro i
    rw [Nat.testBit_and, Nat.testBit_two_pow, Nat.zero_testBit]
    by_cases hi : 9 = i
    · subst hi
      simp [hb]
    · simp [hi]
  · intro hb h
    have h1 : (f &&& 2 ^ 9).testBit 9 = true := by
      rw [Nat.testBit_and, hb, Nat.testBit_two_pow_self]
      rfl
    rw [h, Nat.zero_testBit] at h1
    exact Bool.noConfusion h1

/-- The flags word `kdba_setsinglestep` stores, bit by bit. -/
theorem testBit_step_flags (f i : Nat) :
    (clear_bits (f ||| X86_EFLAGS_TF) X86_EFLAGS_IF).testBit i
      = if i = 8 then true else if i = 9 then false else f.testBit i := by
  have hIF : X86_EFLAGS_IF = 2 ^ 9 := by decide
  have hTF : X86_EFLAGS_TF = 2 ^ 8 := by decide
  rw [testBit_clear_bits, Nat.testBit_or, hIF, hTF, Nat.testBit_two_pow, Nat.testBit_two_pow]
  by_cases h8 : i = 8
  · subst h8; simp
  · by_cases h9 : i = 9
    · subst h9; simp
    · have a8 : ¬ (8 = i) := fun h => h8 h.symm
      have a9 : ¬ (9 = i) := fun h => h9 h.symm
      simp [h8, h9, a8, a9]

/-- What `kdba_setsinglestep` does on a non-null frame, as an equation. -/
theorem kdba_setsinglestep_eq {F : Type} [DecidableEq F] (flags : F) (k : kdb_state)
    (e : RegCtx F) (regs : Nat) (hregs : regs ≠ 0) :
    kdba_setsinglestep flags k e regs
      = ({ k with A_IF := (e.frames regs flags).testBit 9 },
         e.write regs flags (clear_bits (e.frames regs flags ||| X86_EFLAGS_TF) X86_EFLAGS_IF)) := by
  have hnull : KDB_NULL_REGS regs = false := by simp [KDB_NULL_REGS, hregs]
  unfold kdba_setsinglestep
  simp only [hnull, Bool.false_eq_true, if_false]
  by_cases hb : (e.frames regs flags).testBit 9 = true
  · rw [if_pos ((and_IF_ne_zero _).2 hb), hb]
  · have hn : ¬ (e.frames regs flags &&& X86_EFLAGS_IF ≠ 0) := fun h =>
      hb ((and_IF_ne_zero _).1 h)
    rw [if_neg hn]
    simp only [Bool.not_eq_true] at hb
    rw [hb]

/-- The word a store leaves in the member it writes. -/
theorem write_same {F : Type} [DecidableEq F] (e : RegCtx F) (regs : Nat) (f : F) (v : Nat) :
    (e.write regs f v).frames regs f = v := by
  simp [RegCtx.write]

/-- Claim C16: for a non-null trap frame whose flags are `f`,
`kdba_setsinglestep` sets the state flag `A_IF` exactly when the
interrupt-enable bit 9 of `f` is set (and clears it otherwise), and stores
flags that have the trap bit 8 set, bit 9 clear and every other bit as in `f`;
no other member of the frame, no other frame, no debug register and no other
state flag changes. -/
theorem kdba_setsinglestep_effect {F : Type} [DecidableEq F] (flags : F) (k : kdb_state)
    (e : RegCtx F) (regs : Nat) (hregs : regs ≠ 0) :
    (kdba_setsinglestep flags k e regs).1.A_IF = (e.frames regs flags).testBit 9
    ∧ (kdba_setsinglestep flags k e regs).1.IP_ADJUSTED = k.IP_ADJUSTED
    ∧ (∀ i, ((kdba_setsinglestep flags k e regs).2.frames regs flags).testBit i
        = if i = 8 then true else if i = 9 then false else (e.frames regs flags).testBit i)
    ∧ (∀ a g, a ≠ regs ∨ g ≠ flags →
        (kdba_setsinglestep flags k e regs).2.frames a g = e.frames a g)
    ∧ (kdba_setsinglestep flags k e regs).2.dr = e.dr := by
  rw [kdba_setsinglestep_eq flags k e regs hregs]
  refine ⟨rfl, rfl, ?_, ?_, rfl⟩
  · intro i
    simp only []
    rw [write_same, testBit_step_flags]
  · intro a g h
    exact write_frames e regs flags _ a g h

/-- Witness for C16: the frame at `0x1000` of `ctx32_running`, whose flags are
`0x246`. -/
theorem kdba_setsinglestep_effect_witness :
    (0x1000 ≠ 0)
    ∧ (kdba_setsinglestep X86_32.pt_regs.flags kdb_state_clear ctx32_running 0x1000).1.A_IF
      = (ctx32_running.frames 0x1000 X86_32.pt_regs.flags).testBit 9
    ∧ (kdba_setsinglestep X86_32.pt_regs.flags kdb_state_clear ctx32_running 0x1000).1.A_IF
      = true
    ∧ (kdba_setsinglestep X86_32.pt_regs.flags kdb_state_clear ctx32_running 0x1000).2.frames
        0x1000 X86_32.pt_regs.flags = 0x146 :=
  ⟨by decide,
    (kdba_setsinglestep_effect X86_32.pt_regs.flags kdb_state_clear ctx32_running 0x1000
      (by decide)).1,
    by decide, by decide⟩

/-- Counterexample to C17 as stated: a frame with flags `0x246` (interrupts
enabled, trap bit clear); after `kdba_setsinglestep` and `kdba_clearsinglestep`
the flags are `0x346`: bit 9 is back, and the trap bit 8 is still set. -/
theorem kdba_clearsinglestep_keeps_trap_bit :
    (step_then_clear X86_32.pt_regs.flags kdb_state_clear ctx32_running 0x1000).2.frames
        0x1000 X86_32.pt_regs.flags = 0x346
    ∧ ((step_then_clear X86_32.pt_regs.flags kdb_state_clear ctx32_running 0x1000).2.frames
        0x1000 X86_32.pt_regs.flags).testBit 8 = true := by
  decide

/-- Claim C17, amended: for a non-null trap frame whose flags are `f`,
`kdba_clearsinglestep` following `kdba_setsinglestep` restores the
interrupt-enable bit 9 to its value in `f` and touches no other bit: the trap
bit 8 that `kdba_setsinglestep` set is still set, every other bit is as in
`f`, and no other member of the frame changes. -/
theorem step_then_clear_effect {F : Type} [DecidableEq F] (flags : F) (k : kdb_state)
    (e : RegCtx F) (regs : Nat) (hregs : regs ≠ 0) :
    (∀ i, ((step_then_clear flags k e regs).2.frames regs flags).testBit i
        = if i = 8 then true else (e.frames regs flags).testBit i)
    ∧ (∀ a g, a ≠ regs ∨ g ≠ flags →
        (step_then_clear flags k e regs).2.frames a g = e.frames a g) := by
  have hnull : KDB_NULL_REGS regs = false := by simp [KDB_NULL_REGS, hregs]
  have hIF : X86_EFLAGS_IF = 2 ^ 9 := by decide
  unfold step_then_clear kdba_clearsinglestep
  rw [kdba_setsinglestep_eq flags k e regs hregs]
  simp only [hnull, Bool.false_eq_true, if_false]
  constructor
  · intro i
    split
    · rename_i hk
      rw [write_same, write_same, Nat.testBit_or, testBit_step_flags, hIF, Nat.testBit_two_pow]
      by_cases h8 : i = 8
      · subst h8; simp
      · by_cases h9 : i = 9
        · subst h9; simp [hk]
        · have a9 : ¬ (9 = i) := fun h => h9 h.symm
          simp [h8, h9, a9]
    · rename_i hk
      rw [write_same, write_same, testBit_clear_bits, testBit_step_flags, hIF,
        Nat.testBit_two_pow]
      by_cases h8 : i = 8
      · subst h8; simp
      · by_cases h9 : i = 9
        · subst h9
          simp only [Bool.not_eq_true] at hk
          simp [hk]
        · have a9 : ¬ (9 = i) := fun h => h9 h.symm
          simp [h8, h9, a9]
  · intro a g h
    split
    · rw [write_frames _ regs flags _ a g h, write_frames _ regs flags _ a g h]
    · rw [write_frames _ regs flags _ a g h, write_frames _ regs flags _ a g h]

/-- Witness for the amended C17: the frame at `0x1000` of `ctx32_running`. -/
theorem step_then_clear_effect_witness :
    (0x1000 ≠ 0)
    ∧ (∀ i, ((step_then_clear X86_32.pt_regs.flags kdb_state_clear ctx32_running
          0x1000).2.frames 0x1000 X86_32.pt_regs.flags).testBit i
        = if i = 8 then true
          else (ctx32_running.frames 0x1000 X86_32.pt_regs.flags).testBit i) :=
  ⟨by decide,
    (step_then_clear_effect X86_32.pt_regs.flags kdb_state_clear ctx32_running 0x1000
      (by decide)).1⟩

/-- Claim C18: called with a null trap frame, `kdba_setsinglestep` and
`kdba_clearsinglestep` return the debugger state (the flag `A_IF` included) and
the whole context unchanged; `kdba_setpc` returns `KDB_BADREG` and leaves the
state (the flag `IP_ADJUSTED` included) and the context unchanged; and
`kdba_getpc` returns `0`. -/
theorem null_frame_single_step {F : Type} [DecidableEq F] (flags ip : F) (k : kdb_state)
    (e : RegCtx F) (newpc : Nat) :
    kdba_setsinglestep flags k e 0 = (k, e)
    ∧ kdba_clearsinglestep flags k e 0 = (k, e)
    ∧ kdba_setpc ip k e 0 newpc = (kdb_diag.KDB_BADREG, k, e)
    ∧ kdba_getpc ip e 0 = 0 := by
  refine ⟨?_, ?_, ?_, ?_⟩
  · simp [kdba_setsinglestep, KDB_NULL_REGS]
  · simp [kdba_clearsinglestep, KDB_NULL_REGS]
  · simp [kdba_setpc, KDB_NULL_REGS]
  · simp [kdba_getpc]

/-! ## Multi-processor halt coordinator -/

theorem nmi_targets_append (a b : List HaltEvent) :
    nmi_targets (a ++ b) = nmi_targets a ++ nmi_targets b := by
  induction a with
  | nil => rfl
  | cons x rest ih =>
    cases x <;> simp [nmi_targets, ih]

theorem reported_cpus_append (a b : List HaltEvent) :
    reported_cpus (a ++ b) = reported_cpus a ++ reported_cpus b := by
  induction a with
  | nil => rfl
  | cons x rest ih =>
    cases x <;> simp [reported_cpus, ih]

/-- The loop sends to and reports the stale processors of its list, in order. -/
theorem wait_loop_targets (seqno : Nat → Int) (kdb_seqno : Int) (cpus : List Nat) :
    nmi_targets (wait_loop seqno kdb_seqno cpus)
      = cpus.filter (fun c => decide (seqno c < kdb_seqno - 1))
    ∧ reported_cpus (wait_loop seqno kdb_seqno cpus)
      = cpus.filter (fun c => decide (seqno c < kdb_seqno - 1)) := by
  induction cpus with
  | nil => exact ⟨rfl, rfl⟩
  | cons c rest ih =>
    unfold wait_loop
    rw [nmi_targets_append, reported_cpus_append, ih.1, ih.2]
    by_cases h : seqno c < kdb_seqno - 1
    · simp [h, nmi_targets, reported_cpus]
    · simp [h, nmi_targets, reported_cpus]

/-- Claim C19: `kdba_wait_for_cpus` is a total function of the online mask and
the counters; the processors it sends a non-maskable interrupt to, and the
processors it reports, are the online processors `c` with
`kdb_running_process[c].seqno < kdb_seqno - 1` in ascending order, each once,
and no other processor; the output starts with the opening line and ends with
the closing line. -/
theorem kdba_wait_for_cpus_targets (nr_cpus : Nat) (cpu_online : Nat → Bool)
    (seqno : Nat → Int) (kdb_seqno : Int) :
    nmi_targets (kdba_wait_for_cpus nr_cpus cpu_online seqno kdb_seqno)
      = (online_cpus nr_cpus cpu_online).filter (fun c => decide (seqno c < kdb_seqno - 1))
    ∧ reported_cpus (kdba_wait_for_cpus nr_cpus cpu_online seqno kdb_seqno)
      = nmi_targets (kdba_wait_for_cpus nr_cpus cpu_online seqno kdb_seqno)
    ∧ (nmi_targets (kdba_wait_for_cpus nr_cpus cpu_online seqno kdb_seqno)).Nodup
    ∧ (∀ c, c ∈ nmi_targets (kdba_wait_for_cpus nr_cpus cpu_online seqno kdb_seqno)
        ↔ c < nr_cpus ∧ cpu_online c = true ∧ seqno c < kdb_seqno - 1)
    ∧ (kdba_wait_for_cpus nr_cpus cpu_online seqno kdb_seqno).head? = some HaltEvent.opening
    ∧ (kdba_wait_for_cpus nr_cpus cpu_online seqno kdb_seqno).getLast?
        = some HaltEvent.closing := by
  have hl := wait_loop_targets seqno kdb_seqno (online_cpus nr_cpus cpu_online)
  have ht : nmi_targets (kdba_wait_for_cpus nr_cpus cpu_online seqno kdb_seqno)
      = (online_cpus nr_cpus cpu_online).filter (fun c => decide (seqno c < kdb_seqno - 1)) := by
    unfold kdba_wait_for_cpus
    rw [nmi_targets_append, nmi_targets_append, hl.1]
    simp [nmi_targets]
  have hr : reported_cpus (kdba_wait_for_cpus nr_cpus cpu_online seqno kdb_seqno)
      = (online_cpus nr_cpus cpu_online).filter (fun c => decide (seqno c < kdb_seqno - 1)) := by
    unfold kdba_wait_for_cpus
    rw [reported_cpus_append, reported_cpus_append, hl.2]
    simp [reported_cpus]
  refine ⟨ht, by rw [hr, ht], ?_, ?_, ?_, ?_⟩
  · rw [ht]
    unfold online_cpus
    exact ((List.nodup_range nr_cpus).filter _).filter _
  · intro c
    rw [ht]
    unfold online_cpus
    simp only [List.mem_filter, List.mem_range, decide_eq_true_eq]
    tauto
  · simp [kdba_wait_for_cpus]
  · unfold kdba_wait_for_cpus
    exact List.getLast?_concat _

/-- Witness for C19, the scenario of the specification: four processors
online, the debugger on processor 0, `kdb_seqno = 5`; processors 1 and 3 have
advanced their counters and processor 2 is stale, so processor 2 alone is
reported and sent a non-maskable interrupt. -/
theorem kdba_wait_for_cpus_targets_witness :
    nmi_targets (kdba_wait_for_cpus 4 (fun _ => true) (fun c => if c = 2 then 3 else 5) 5) = [2]
    ∧ reported_cpus (kdba_wait_for_cpus 4 (fun _ => true) (fun c => if c = 2 then 3 else 5) 5)
      = [2]
    ∧ kdba_wait_for_cpus 4 (fun _ => true) (fun c => if c = 2 then 3 else 5) 5
      = [HaltEvent.opening, HaltEvent.report 2, HaltEvent.nmi 2, HaltEvent.closing] :=
  have h := kdba_wait_for_cpus_targets 4 (fun _ => true) (fun c => if c = 2 then 3 else 5) 5
  ⟨h.1.trans (by decide), h.2.1.trans (h.1.trans (by decide)), by decide⟩

/-! ## Privileged write gate -/

theorem gate_triples_add (a b : Nat) : ∀ dst src : Nat,
    gate_triples dst src (a + b)
      = gate_triples dst src a ++ gate_triples (dst + a) (src / 256 ^ a) b := by
  induction a with
  | zero => intro dst src; simp [gate_triples]
  | succ a ih =>
    intro dst src
    have e : a + 1 + b = (a + b) + 1 := by omega
    rw [e]
    simp only [gate_triples]
    rw [ih (dst + 1) (src / 256)]
    have e1 : dst + 1 + a = dst + (a + 1) := by omega
    have e2 : src / 256 / 256 ^ a = src / 256 ^ (a + 1) := by
      rw [Nat.div_div_eq_div_mul, pow_succ, Nat.mul_comm]
    rw [e1, e2, List.append_assoc]

theorem gate_triples_mod (k : Nat) : ∀ dst src : Nat,
    gate_triples dst (src % 256 ^ k) k = gate_triples dst src k := by
  induction k with
  | zero => intro dst src; rfl
  | succ k ih =>
    intro dst src
    simp only [gate_triples]
    have e1 : src % 256 ^ (k + 1) % 256 = src % 256 := by
      apply Nat.mod_mod_of_dvd
      exact Dvd.intro_left (256 ^ k) rfl
    have e2 : src % 256 ^ (k + 1) / 256 = src / 256 % 256 ^ k := by
      rw [pow_succ, Nat.mul_comm]
      exact Nat.mod_mul_right_div_self src 256 (256 ^ k)
    rw [e1, e2, ih]

theorem trace_kernel_writeb {i : Nat} (m : Machine) (dst src : Nat) :
    (kernel_writeb (operands_kept i) m dst src).trace = m.trace ++ gate_triples dst src 1 := by
  simp [kernel_writeb, set_cr0_ro, store8, set_cr0_rw, gate_triples, gate_triple, store_addr,
    store_byte, operands_kept, kept_homes]

theorem trace_kernel_writew (m : Machine) (dst src : Nat) :
    (kernel_writew operands_kept m dst src).trace = m.trace ++ gate_triples dst src 2 := by
  unfold kernel_writew
  rw [trace_kernel_writeb, trace_kernel_writeb, gate_triples_add 1 1 dst src]
  have e1 := gate_triples_mod 1 dst src
  have e2 := gate_triples_mod 1 (dst + 1) (src / 256)
  simp only [pow_one] at e1 e2 ⊢
  rw [e1, e2, List.append_assoc]

theorem trace_kernel_writel (m : Machine) (dst src : Nat) :
    (kernel_writel operands_kept m dst src).trace = m.trace ++ gate_triples dst src 4 := by
  rw [kernel_writel_kept]
  rw [trace_kernel_writew, trace_kernel_writew, gate_triples_add 2 2 dst src]
  have e1 := gate_triples_mod 2 dst src
  have e2 := gate_triples_mod 2 (dst + 2) (src / 65536)
  have p : (256 : Nat) ^ 2 = 65536 := by norm_num
  rw [p] at e1 e2 ⊢
  rw [e1, e2, List.append_assoc]

theorem trace_kernel_writeq (m : Machine) (dst src : Nat) :
    (kernel_writeq operands_kept m dst src).trace = m.trace ++ gate_triples dst src 8 := by
  rw [kernel_writeq_kept]
  rw [trace_kernel_writel, trace_kernel_writel, gate_triples_add 4 4 dst src]
  have e1 := gate_triples_mod 4 dst src
  have e2 := gate_triples_mod 4 (dst + 4) (src / 4294967296)
  have p : (256 : Nat) ^ 4 = 4294967296 := by norm_num
  rw [p] at e1 e2 ⊢
  rw [e1, e2, List.append_assoc]

theorem cr0_kernel_writeb (h : Homes) (m : Machine) (dst src : Nat) :
    (kernel_writeb h m dst src).cr0.testBit 16 = true := by
  have e : (kernel_writeb h m dst src).cr0 = ((m.cr0 &&& 0xfffeffff) % 2 ^ 32) ||| 2 ^ 16 := rfl
  rw [e, Nat.testBit_or, Nat.testBit_two_pow_self, Bool.or_true]

theorem read64_kernel_writeq (m : Machine) (dst src : Nat) :
    read64 (kernel_writeq operands_kept m dst src) dst = src % 18446744073709551616 := by
  rw [kernel_writeq_kept]
  unfold read64
  rw [read32_kernel_writel_other _ (dst + 4) _ dst (by omega), read32_kernel_writel_same,
    read32_kernel_writel_same]
  omega

theorem testBit_rw_mask (i : Nat) :
    (0xfffeffff : Nat).testBit i = (decide (i < 32) && !decide (i = 16)) := by
  have e : (0xfffeffff : Nat) = (2 ^ 32 - 1) ^^^ 2 ^ 16 := by decide
  rw [e, Nat.testBit_xor, Nat.testBit_two_pow_sub_one, Nat.testBit_two_pow]
  by_cases h16 : i = 16
  · subst h16; decide
  · have a : ¬ (16 = i) := fun h => h16 h.symm
    simp [h16, a]

/-- In a build that keeps every operand of the stores out of the accumulator,
each of `kernel_writeb`, `kernel_writew`, `kernel_writel` and `kernel_writeq`
appends to the trace exactly the gated triples `set_cr0_rw, store, set_cr0_ro`
of 1, 2, 4 and 8 single-byte stores, which go to `dst`, `dst + 1`, ... in
ascending order with the bytes of the value, low byte first, and memory at
`dst` reads back the value, reduced to the width written.  In every build bit
16 of CR0 is set on return, and `set_cr0_rw` and `set_cr0_ro` change no bit of
the low 32 bits of CR0 other than bit 16, which the first clears and the second
sets. -/
theorem kernel_write_operands_kept (p : Placement) (m : Machine) (dst src : Nat) :
    ((kernel_writeb kept_homes m dst src).trace = m.trace ++ gate_triples dst src 1
      ∧ (kernel_writew operands_kept m dst src).trace = m.trace ++ gate_triples dst src 2
      ∧ (kernel_writel operands_kept m dst src).trace = m.trace ++ gate_triples dst src 4
      ∧ (kernel_writeq operands_kept m dst src).trace = m.trace ++ gate_triples dst src 8)
    ∧ ((kernel_writeb (p 0) m dst src).cr0.testBit 16 = true
      ∧ (kernel_writew p m dst src).cr0.testBit 16 = true
      ∧ (kernel_writel p m dst src).cr0.testBit 16 = true
      ∧ (kernel_writeq p m dst src).cr0.testBit 16 = true)
    ∧ (read8 (kernel_writeb kept_homes m dst src) dst = src % 256
      ∧ read16 (kernel_writew operands_kept m dst src) dst = src % 65536
      ∧ read32 (kernel_writel operands_kept m dst src) dst = src % 4294967296
      ∧ read64 (kernel_writeq operands_kept m dst src) dst = src % 18446744073709551616)
    ∧ ((set_cr0_rw m).cr0.testBit 16 = false ∧ (set_cr0_ro m).cr0.testBit 16 = true
      ∧ ∀ i, i < 32 → i ≠ 16 →
        (set_cr0_rw m).cr0.testBit i = m.cr0.testBit i
        ∧ (set_cr0_ro m).cr0.testBit i = m.cr0.testBit i) := by
  refine ⟨⟨trace_kernel_writeb (i := 0) m dst src, trace_kernel_writew m dst src,
    trace_kernel_writel m dst src, trace_kernel_writeq m dst src⟩,
    ⟨cr0_kernel_writeb _ m dst src, cr0_kernel_writeb _ _ _ _, cr0_kernel_writeb _ _ _ _,
      cr0_kernel_writeb _ _ _ _⟩,
    ⟨?_, read16_kernel_writew_same m dst src, read32_kernel_writel_same m dst src,
      read64_kernel_writeq m dst src⟩, ?_, ?_, ?_⟩
  · have e := read8_kernel_writeb (i := 0) m dst src dst
    simpa using e
  · show (m.cr0 &&& 0xfffeffff).testBit 16 = false
    rw [Nat.testBit_and, testBit_rw_mask]
    simp
  · show ((m.cr0 % 2 ^ 32) ||| 2 ^ 16).testBit 16 = true
    rw [Nat.testBit_or, Nat.testBit_two_pow_self, Bool.or_true]
  · intro i hi h16
    constructor
    · show (m.cr0 &&& 0xfffeffff).testBit i = m.cr0.testBit i
      rw [Nat.testBit_and, testBit_rw_mask]
      simp [hi, h16]
    · show ((m.cr0 % 2 ^ 32) ||| 2 ^ 16).testBit i = m.cr0.testBit i
      have a : ¬ (16 = i) := fun h => h16 h.symm
      rw [Nat.testBit_or, Nat.testBit_mod_two_pow, Nat.testBit_two_pow]
      simp [hi, a]

/-- Claim C20, evaluated on the code, with CR0 = `0x80050033`.  In the 32-bit
build that holds the destination pointer in `eax`, `kernel_writeb` of `0xab` to
`0x2000` stores at `0x80040033`, the value `set_cr0_rw` has left in `eax`, and
memory at `0x2000` is unchanged; `kernel_writew` of `0xbeef` stores at
`0x80040033` and `0x80040034`.  In the 64-bit build that takes the second byte
from `%ah`, `kernel_writew` of `0xbeef` to `0x2000` stores `0x00` at `0x2001`,
and memory at `0x2000` reads back `0x00ef`.  The steps are still gated triples
and bit 16 of CR0 is set on return. -/
theorem kernel_write_uses_overwritten_accumulator :
    gate_sample.cr0 = 0x80050033
    ∧ (set_cr0_rw gate_sample).ax = 0x80040033
    ∧ (kernel_writeb (pointer_in_accumulator 0) gate_sample 0x2000 0xab).trace
      = [GateEvent.set_cr0_rw, GateEvent.store 0x80040033 0xab, GateEvent.set_cr0_ro]
    ∧ read8 (kernel_writeb (pointer_in_accumulator 0) gate_sample 0x2000 0xab) 0x2000 = 0
    ∧ read8 (kernel_writeb (pointer_in_accumulator 0) gate_sample 0x2000 0xab) 0x80040033 = 0xab
    ∧ (kernel_writew pointer_in_accumulator gate_sample 0x2000 0xbeef).trace
      = [GateEvent.set_cr0_rw, GateEvent.store 0x80040033 0xef, GateEvent.set_cr0_ro,
         GateEvent.set_cr0_rw, GateEvent.store 0x80040034 0xbe, GateEvent.set_cr0_ro]
    ∧ read16 (kernel_writew pointer_in_accumulator gate_sample 0x2000 0xbeef) 0x2000 = 0
    ∧ (kernel_writew second_byte_from_ah gate_sample 0x2000 0xbeef).trace
      = [GateEvent.set_cr0_rw, GateEvent.store 0x2000 0xef, GateEvent.set_cr0_ro,
         GateEvent.set_cr0_rw, GateEvent.store 0x2001 0x00, GateEvent.set_cr0_ro]
    ∧ read16 (kernel_writew second_byte_from_ah gate_sample 0x2000 0xbeef) 0x2000 = 0x00ef
    ∧ (kernel_writew second_byte_from_ah gate_sample 0x2000 0xbeef).cr0 = 0x80050033 := by
  decide

/-! ## Register access facade: spelling and write-then-read -/

/-- Whether `lkmd_strnicmp` returns `0` depends on the supplied name only up to
letter case. -/
theorem lkmd_strnicmp_spelling (a : List Char) :
    ∀ (b c : List Char) (k : Nat), same_name b c →
      (lkmd_strnicmp a b k = 0 ↔ lkmd_strnicmp a c k = 0) := by
  induction a with
  | nil =>
    intro b c k h
    unfold same_name at h
    cases k with
    | zero => simp [lkmd_strnicmp]
    | succ k =>
      cases b with
      | nil =>
        cases c with
        | nil => rfl
        | cons y t => simp at h
      | cons x s =>
        cases c with
        | nil => simp at h
        | cons y t =>
          simp only [lkmd_strnicmp]
          constructor <;> intro h0 <;> omega
  | cons a1 as ih =>
    intro b c k h
    cases k with
    | zero => simp [lkmd_strnicmp]
    | succ k =>
      cases b with
      | nil =>
        cases c with
        | nil => rfl
        | cons y t => simp [same_name] at h
      | cons x s =>
        cases c with
        | nil => simp [same_name] at h
        | cons y t =>
          have hx : x.toLower = y.toLower := by
            unfold same_name at h
            simp only [List.map_cons, List.cons.injEq] at h
            exact h.1
          have ht : same_name s t := by
            unfold same_name at h ⊢
            simp only [List.map_cons, List.cons.injEq] at h
            exact h.2
          simp only [lkmd_strnicmp, hx]
          by_cases hc : a1.toLower = y.toLower
          · simp only [hc, if_true]
            exact ih s t k ht
          · simp only [hc, if_false]

/-- The search treats two spellings of a name alike. -/
theorem kdbregs_search_spelling {F : Type} (list : List (kdbregs F)) (b c : List Char)
    (h : same_name b c) : kdbregs_search list c = kdbregs_search list b := by
  have hlen : c.length = b.length := by
    have := congrArg List.length h
    simpa using this.symm
  have hp : (fun r : kdbregs F => decide (lkmd_strnicmp r.reg_name c c.length = 0))
      = (fun r : kdbregs F => decide (lkmd_strnicmp r.reg_name b b.length = 0)) := by
    funext r
    rw [hlen]
    exact decide_eq_decide.2 (lkmd_strnicmp_spelling r.reg_name b c b.length h).symm
  unfold kdbregs_search
  rw [hp, hlen]

/-- Every debug-register name is found at its own entry of `dbreglist`, in no
general-register table, and is not a pseudo-register name of either build. -/
theorem table_lookup_db :
    ∀ d ∈ dbreglist, kdbregs_search dbreglist d.reg_name = some d
      ∧ kdbregs_search X86_64.kdbreglist d.reg_name = none
      ∧ ¬ X86_32.pseudo_name d.reg_name ∧ ¬ X86_64.pseudo_name d.reg_name := by
  decide

/-- A spelling of a name that is no pseudo-register name of the 32-bit build is
none either, provided the name starts with a letter or digit. -/
theorem spelling_not_pseudo_32 (b c : List Char) (h : same_name b c)
    (h1 : ¬ same_name b "cesp".toList) (h2 : ¬ same_name b "ceflags".toList)
    (h3 : ¬ same_name b "&regs".toList) (h4 : ¬ same_name b "kesp".toList)
    (h5 : (b.map Char.toLower).head? ≠ some '%') : ¬ X86_32.pseudo_name c := by
  intro hp
  rcases hp with e | e | e | e | e
  · exact h1 (e ▸ h)
  · exact h2 (e ▸ h)
  · exact h3 (e ▸ h)
  · exact h4 (e ▸ h)
  · exact h5 (same_name_no_marker b c h e)

/-- The 64-bit counterpart of `spelling_not_pseudo_32`. -/
theorem spelling_not_pseudo_64 (b c : List Char) (h : same_name b c)
    (h1 : ¬ same_name b "&regs".toList) (h2 : ¬ same_name b "krsp".toList)
    (h3 : ¬ same_name b "crsp".toList) (h4 : ¬ same_name b "ceflags".toList)
    (h5 : (b.map Char.toLower).head? ≠ some '%') : ¬ X86_64.pseudo_name c := by
  intro hp
  rcases hp with e | e | e | e | e
  · exact h1 (e ▸ h)
  · exact h2 (e ▸ h)
  · exact h3 (e ▸ h)
  · exact h4 (e ▸ h)
  · exact h5 (same_name_no_marker b c h e)

/-- No table name equals a pseudo-register name in any spelling, and none
starts with the marker `%`. -/
theorem table_names_plain :
    (∀ b ∈ table_names X86_32.kdbreglist,
      ¬ same_name b "cesp".toList ∧ ¬ same_name b "ceflags".toList
      ∧ ¬ same_name b "&regs".toList ∧ ¬ same_name b "kesp".toList
      ∧ (b.map Char.toLower).head? ≠ some '%')
    ∧ (∀ b ∈ table_names X86_64.kdbreglist,
      ¬ same_name b "&regs".toList ∧ ¬ same_name b "krsp".toList
      ∧ ¬ same_name b "crsp".toList ∧ ¬ same_name b "ceflags".toList
      ∧ (b.map Char.toLower).head? ≠ some '%') := by
  decide

/-- The 32-bit table has no entry named `xss`, and its `sp` entry refers to
the member `sp`. -/
theorem table_sp_32 :
    ∀ r ∈ X86_32.kdbreglist, r.reg_name ≠ ['x', 's', 's']
      ∧ (r.reg_name = ['s', 'p'] → r.reg_offset = X86_32.pt_regs.sp)
      ∧ (r.reg_offset = X86_32.pt_regs.cs → r.reg_name ≠ ['s', 'p']) := by
  decide

/-- The `sp` entry of the 64-bit table refers to the member `sp`. -/
theorem table_sp_64 :
    ∀ r ∈ X86_64.kdbreglist,
      (r.reg_name = ['s', 'p'] → r.reg_offset = X86_64.pt_regs.sp)
      ∧ (r.reg_offset = X86_64.pt_regs.cs → r.reg_name ≠ ['s', 'p']) := by
  decide

/-- What the 32-bit functions do for a spelling of a general-register name. -/
theorem general_spelling_32 (e : RegCtx X86_32.pt_regs) (r : kdbregs X86_32.pt_regs)
    (regname : List Char) (regs contents value : Nat) (hregs : regs ≠ 0)
    (hr : r ∈ X86_32.kdbreglist) (hs : same_name r.reg_name regname) :
    kdbregs_search X86_32.kdbreglist regname = some r
    ∧ X86_32.kdba_getregcontents e regname regs contents
      = (kdb_diag.ok,
         if e.frames regs X86_32.pt_regs.cs &&& 0xffff = e.KERNEL_CS ∧ r.reg_name = ['s', 'p']
         then (regs + e.sizeof_pt_regs + 2 ^ 32 - 8) % 2 ^ 32
         else e.frames regs r.reg_offset)
    ∧ X86_32.kdba_setregcontents e regname regs value
      = (kdb_diag.ok, e.write regs r.reg_offset value) := by
  obtain ⟨h1, h2, _⟩ := table_lookup_32 r hr
  obtain ⟨k1, k2, k3, k4, k5⟩ := table_names_plain.1 r.reg_name (general_names _ r hr)
  have hp := spelling_not_pseudo_32 r.reg_name regname hs k1 k2 k3 k4 k5
  have hd : kdbregs_search dbreglist regname = none := by
    rw [kdbregs_search_spelling dbreglist r.reg_name regname hs, h1]
  have hg : kdbregs_search X86_32.kdbreglist regname = some r := by
    rw [kdbregs_search_spelling X86_32.kdbreglist r.reg_name regname hs, h2]
  have hx := (table_sp_32 r hr).1
  unfold X86_32.pseudo_name at hp
  simp only [not_or] at hp
  obtain ⟨p1, p2, p3, p4, p5⟩ := hp
  have q1 : ¬ regname = ['c', 'e', 's', 'p'] := p1
  have q2 : ¬ regname = ['c', 'e', 'f', 'l', 'a', 'g', 's'] := p2
  have q3 : ¬ regname = ['&', 'r', 'e', 'g', 's'] := p3
  have q4 : ¬ regname = ['k', 'e', 's', 'p'] := p4
  refine ⟨hg, ?_, ?_⟩
  · by_cases hk : e.frames regs X86_32.pt_regs.cs &&& 0xffff = e.KERNEL_CS
    · by_cases hsp : r.reg_name = ['s', 'p']
      · simp [X86_32.kdba_getregcontents, q1, q2, q3, q4, p5, hd, hg, hregs, hk, hsp]
      · simp [X86_32.kdba_getregcontents, q1, q2, q3, q4, p5, hd, hg, hregs, hk, hsp, hx]
    · simp [X86_32.kdba_getregcontents, q1, q2, q3, q4, p5, hd, hg, hregs, hk]
  · simp [X86_32.kdba_setregcontents, p5, hd, hg, hregs]

/-- What the 64-bit functions do for a spelling of a general-register name. -/
theorem general_spelling_64 (e : RegCtx X86_64.pt_regs) (r : kdbregs X86_64.pt_regs)
    (regname : List Char) (regs contents value : Nat) (hregs : regs ≠ 0)
    (hr : r ∈ X86_64.kdbreglist) (hs : same_name r.reg_name regname) :
    kdbregs_search X86_64.kdbreglist regname = some r
    ∧ X86_64.kdba_getregcontents e regname regs contents
      = some (kdb_diag.ok,
         if e.frames regs X86_64.pt_regs.cs &&& 0xffff = e.KERNEL_CS ∧ r.reg_name = ['s', 'p']
         then (regs + e.sizeof_pt_regs + 2 ^ 64 - 16) % 2 ^ 64
         else e.frames regs r.reg_offset)
    ∧ X86_64.kdba_setregcontents e regname regs value
      = some (kdb_diag.ok, e.write regs r.reg_offset value) := by
  obtain ⟨h2, _⟩ := table_lookup_64 r hr
  obtain ⟨k1, k2, k3, k4, k5⟩ := table_names_plain.2 r.reg_name (general_names _ r hr)
  have hp := spelling_not_pseudo_64 r.reg_name regname hs k1 k2 k3 k4 k5
  have hg : kdbregs_search X86_64.kdbreglist regname = some r := by
    rw [kdbregs_search_spelling X86_64.kdbreglist r.reg_name regname hs, h2]
  unfold X86_64.pseudo_name at hp
  simp only [not_or] at hp
  obtain ⟨p1, p2, p3, p4, p5⟩ := hp
  have q1 : ¬ regname = ['&', 'r', 'e', 'g', 's'] := p1
  have q2 : ¬ regname = ['k', 'r', 's', 'p'] := p2
  have q3 : ¬ regname = ['c', 'r', 's', 'p'] := p3
  have q4 : ¬ regname = ['c', 'e', 'f', 'l', 'a', 'g', 's'] := p4
  refine ⟨hg, ?_, ?_⟩
  · by_cases hk : e.frames regs X86_64.pt_regs.cs &&& 0xffff = e.KERNEL_CS
    · by_cases hsp : r.reg_name = ['s', 'p']
      · simp [X86_64.kdba_getregcontents, q1, q2, q3, q4, p5, hg, hregs, hk, hsp]
      · simp [X86_64.kdba_getregcontents, q1, q2, q3, q4, p5, hg, hregs, hk, hsp]
    · simp [X86_64.kdba_getregcontents, q1, q2, q3, q4, p5, hg, hregs, hk]
  · simp [X86_64.kdba_setregcontents, p5, hg, hregs]

/-- What both builds do for a spelling of a debug-register name. -/
theorem debug_spelling (d : kdbregs Int) (regname : List Char) (regs contents value : Nat)
    (hd : d ∈ dbreglist) (hs : same_name d.reg_name regname) :
    kdbregs_search dbreglist regname = some d
    ∧ (∀ e : RegCtx X86_32.pt_regs,
        X86_32.kdba_getregcontents e regname regs contents
          = (kdb_diag.ok, kdba_getdr e.dr d.reg_offset)
        ∧ X86_32.kdba_setregcontents e regname regs value
          = (kdb_diag.ok, { e with dr := kdba_putdr e.dr d.reg_offset value }))
    ∧ (∀ e : RegCtx X86_64.pt_regs,
        X86_64.kdba_getregcontents e regname regs contents
          = some (kdb_diag.ok, kdba_getdr e.dr d.reg_offset)
        ∧ X86_64.kdba_setregcontents e regname regs value
          = some (kdb_diag.ok, { e with dr := kdba_putdr e.dr d.reg_offset value })) := by
  obtain ⟨h1, h2, _, _⟩ := table_lookup_db d hd
  have hn32 : d.reg_name ∈ table_names X86_32.kdbreglist := dbreglist_names _ d hd
  have hn64 : d.reg_name ∈ table_names X86_64.kdbreglist := dbreglist_names _ d hd
  obtain ⟨a1, a2, a3, a4, a5⟩ := table_names_plain.1 d.reg_name hn32
  obtain ⟨b1, b2, b3, b4, b5⟩ := table_names_plain.2 d.reg_name hn64
  have hp32 := spelling_not_pseudo_32 d.reg_name regname hs a1 a2 a3 a4 a5
  have hp64 := spelling_not_pseudo_64 d.reg_name regname hs b1 b2 b3 b4 b5
  have hdb : kdbregs_search dbreglist regname = some d := by
    rw [kdbregs_search_spelling dbreglist d.reg_name regname hs, h1]
  have hg64 : kdbregs_search X86_64.kdbreglist regname = none := by
    rw [kdbregs_search_spelling X86_64.kdbreglist d.reg_name regname hs, h2]
  refine ⟨hdb, ?_, ?_⟩
  · intro e
    unfold X86_32.pseudo_name at hp32
    simp only [not_or] at hp32
    obtain ⟨p1, p2, p3, p4, p5⟩ := hp32
    have q1 : ¬ regname = ['c', 'e', 's', 'p'] := p1
    have q2 : ¬ regname = ['c', 'e', 'f', 'l', 'a', 'g', 's'] := p2
    constructor
    · simp [X86_32.kdba_getregcontents, q1, q2, p5, hdb]
    · simp [X86_32.kdba_setregcontents, p5, hdb]
  · intro e
    unfold X86_64.pseudo_name at hp64
    simp only [not_or] at hp64
    obtain ⟨p1, p2, p3, p4, p5⟩ := hp64
    have q1 : ¬ regname = ['&', 'r', 'e', 'g', 's'] := p1
    have q2 : ¬ regname = ['k', 'r', 's', 'p'] := p2
    have q3 : ¬ regname = ['c', 'r', 's', 'p'] := p3
    have q4 : ¬ regname = ['c', 'e', 'f', 'l', 'a', 'g', 's'] := p4
    constructor
    · simp [X86_64.kdba_getregcontents, q1, q2, q3, q4, p5, hdb, hg64]
    · simp [X86_64.kdba_setregcontents, p5, hdb, hg64]

/-- Counterexample to C21 as stated: the spelling `SP` resolves to the entry
`sp` and the call returns success, but on a frame taken without a privilege
change the value is the computed address, 8 (32-bit) or 16 (64-bit) below the
end of the frame, and not the word `0x11111111` held at the offset of the
entry. -/
theorem spelling_of_sp_not_read :
    same_name "sp".toList "SP".toList
    ∧ ctx32_kernel.frames 0xc0ffffbc X86_32.pt_regs.sp = 0x11111111
    ∧ X86_32.kdba_getregcontents ctx32_kernel "SP".toList 0xc0ffffbc 0
      = (kdb_diag.ok, 0xc1000000 - 8)
    ∧ ctx64_kernel.frames 0xffff8800000fff58 X86_64.pt_regs.sp = 0x11111111
    ∧ X86_64.kdba_getregcontents ctx64_kernel "SP".toList 0xffff8800000fff58 0
      = some (kdb_diag.ok, 0xffff880000100000 - 16) := by
  decide

/-- Claim C21, amended: for every entry of the general-register table and of
the debug-register table of either build and every spelling of its name that
differs only in letter case, the search stops at that very entry, and with a
valid frame the call returns success: `kdba_setregcontents` stores at the
member of that entry or into its debug register, and `kdba_getregcontents`
reads the member of that entry or its debug register, except that for the
entry `sp` on a frame taken without a privilege change it returns the computed
address below the end of the frame instead of reading the member. -/
theorem spelling_resolves (regname : List Char) (regs contents value : Nat)
    (hregs : regs ≠ 0) :
    (∀ (e : RegCtx X86_32.pt_regs) (r : kdbregs X86_32.pt_regs),
      r ∈ X86_32.kdbreglist → same_name r.reg_name regname →
      kdbregs_search X86_32.kdbreglist regname = some r
      ∧ X86_32.kdba_getregcontents e regname regs contents
        = (kdb_diag.ok,
           if e.frames regs X86_32.pt_regs.cs &&& 0xffff = e.KERNEL_CS ∧ r.reg_name = ['s', 'p']
           then (regs + e.sizeof_pt_regs + 2 ^ 32 - 8) % 2 ^ 32
           else e.frames regs r.reg_offset)
      ∧ X86_32.kdba_setregcontents e regname regs value
        = (kdb_diag.ok, e.write regs r.reg_offset value))
    ∧ (∀ (e : RegCtx X86_64.pt_regs) (r : kdbregs X86_64.pt_regs),
      r ∈ X86_64.kdbreglist → same_name r.reg_name regname →
      kdbregs_search X86_64.kdbreglist regname = some r
      ∧ X86_64.kdba_getregcontents e regname regs contents
        = some (kdb_diag.ok,
           if e.frames regs X86_64.pt_regs.cs &&& 0xffff = e.KERNEL_CS ∧ r.reg_name = ['s', 'p']
           then (regs + e.sizeof_pt_regs + 2 ^ 64 - 16) % 2 ^ 64
           else e.frames regs r.reg_offset)
      ∧ X86_64.kdba_setregcontents e regname regs value
        = some (kdb_diag.ok, e.write regs r.reg_offset value))
    ∧ (∀ d : kdbregs Int, d ∈ dbreglist → same_name d.reg_name regname →
      kdbregs_search dbreglist regname = some d
      ∧ (∀ e : RegCtx X86_32.pt_regs,
          X86_32.kdba_getregcontents e regname regs contents
            = (kdb_diag.ok, kdba_getdr e.dr d.reg_offset)
          ∧ X86_32.kdba_setregcontents e regname regs value
            = (kdb_diag.ok, { e with dr := kdba_putdr e.dr d.reg_offset value }))
      ∧ (∀ e : RegCtx X86_64.pt_regs,
          X86_64.kdba_getregcontents e regname regs contents
            = some (kdb_diag.ok, kdba_getdr e.dr d.reg_offset)
          ∧ X86_64.kdba_setregcontents e regname regs value
            = some (kdb_diag.ok, { e with dr := kdba_putdr e.dr d.reg_offset value }))) :=
  ⟨fun e r hr hs => general_spelling_32 e r regname regs contents value hregs hr hs,
    fun e r hr hs => general_spelling_64 e r regname regs contents value hregs hr hs,
    fun d hd hs => debug_spelling d regname regs contents value hd hs⟩

/-- Witness for the amended C21: the spelling `Flags` in the 32-bit build and
the spelling `DR7` in the 64-bit build, with a frame at `0x1000`. -/
theorem spelling_resolves_witness :
    (0x1000 ≠ 0)
    ∧ (⟨"flags".toList, X86_32.pt_regs.flags⟩ : kdbregs X86_32.pt_regs) ∈ X86_32.kdbreglist
    ∧ same_name "flags".toList "Flags".toList
    ∧ X86_32.kdba_getregcontents ctx32_sample "Flags".toList 0x1000 7 = (kdb_diag.ok, 0x1001)
    ∧ X86_32.kdba_setregcontents ctx32_sample "Flags".toList 0x1000 9
      = (kdb_diag.ok, ctx32_sample.write 0x1000 X86_32.pt_regs.flags 9)
    ∧ (⟨"dr7".toList, 7⟩ : kdbregs Int) ∈ dbreglist
    ∧ same_name "dr7".toList "DR7".toList
    ∧ X86_64.kdba_getregcontents ctx64_sample "DR7".toList 0x1000 7
      = some (kdb_diag.ok, 0x400) :=
  have h := spelling_resolves "Flags".toList 0x1000 7 9 (by decide)
  have h32 := h.1 ctx32_sample ⟨"flags".toList, X86_32.pt_regs.flags⟩ (by decide) (by decide)
  have g := spelling_resolves "DR7".toList 0x1000 7 9 (by decide)
  have g64 := (g.2.2 ⟨"dr7".toList, 7⟩ (by decide) (by decide)).2.2 ctx64_sample
  ⟨by decide, by decide, by decide, h32.2.1.trans (by decide), h32.2.2, by decide, by decide,
    g64.1.trans (by decide)⟩

/-- Claim C22: for every entry of the general-register table of either build,
every value `v` and every valid trap frame, `kdba_setregcontents` succeeds and
stores `v`, and `kdba_getregcontents` of the same name on the resulting frame
succeeds and returns `v`, except for the entry `sp` on a frame taken without a
privilege change, where it returns the computed address below the end of the
frame; the privilege test reads the `cs` member as it is after the store, so
setting `cs` returns `v`. -/
theorem set_then_get (regs contents v : Nat) (hregs : regs ≠ 0) :
    (∀ (e : RegCtx X86_32.pt_regs) (r : kdbregs X86_32.pt_regs), r ∈ X86_32.kdbreglist →
      X86_32.kdba_setregcontents e r.reg_name regs v
        = (kdb_diag.ok, e.write regs r.reg_offset v)
      ∧ X86_32.kdba_getregcontents (e.write regs r.reg_offset v) r.reg_name regs contents
        = (kdb_diag.ok,
           if (e.write regs r.reg_offset v).frames regs X86_32.pt_regs.cs &&& 0xffff
               = e.KERNEL_CS ∧ r.reg_name = ['s', 'p']
           then (regs + e.sizeof_pt_regs + 2 ^ 32 - 8) % 2 ^ 32 else v)
      ∧ (r.reg_name ≠ ['s', 'p'] ∨ e.frames regs X86_32.pt_regs.cs &&& 0xffff ≠ e.KERNEL_CS →
          X86_32.kdba_getregcontents (e.write regs r.reg_offset v) r.reg_name regs contents
            = (kdb_diag.ok, v))
      ∧ (r.reg_name = ['s', 'p'] → e.frames regs X86_32.pt_regs.cs &&& 0xffff = e.KERNEL_CS →
          X86_32.kdba_getregcontents (e.write regs r.reg_offset v) r.reg_name regs contents
            = (kdb_diag.ok, (regs + e.sizeof_pt_regs + 2 ^ 32 - 8) % 2 ^ 32)))
    ∧ (∀ (e : RegCtx X86_64.pt_regs) (r : kdbregs X86_64.pt_regs), r ∈ X86_64.kdbreglist →
      X86_64.kdba_setregcontents e r.reg_name regs v
        = some (kdb_diag.ok, e.write regs r.reg_offset v)
      ∧ X86_64.kdba_getregcontents (e.write regs r.reg_offset v) r.reg_name regs contents
        = some (kdb_diag.ok,
           if (e.write regs r.reg_offset v).frames regs X86_64.pt_regs.cs &&& 0xffff
               = e.KERNEL_CS ∧ r.reg_name = ['s', 'p']
           then (regs + e.sizeof_pt_regs + 2 ^ 64 - 16) % 2 ^ 64 else v)
      ∧ (r.reg_name ≠ ['s', 'p'] ∨ e.frames regs X86_64.pt_regs.cs &&& 0xffff ≠ e.KERNEL_CS →
          X86_64.kdba_getregcontents (e.write regs r.reg_offset v) r.reg_name regs contents
            = some (kdb_diag.ok, v))
      ∧ (r.reg_name = ['s', 'p'] → e.frames regs X86_64.pt_regs.cs &&& 0xffff = e.KERNEL_CS →
          X86_64.kdba_getregcontents (e.write regs r.reg_offset v) r.reg_name regs contents
            = some (kdb_diag.ok, (regs + e.sizeof_pt_regs + 2 ^ 64 - 16) % 2 ^ 64))) := by
  constructor
  · intro e r hr
    have hset := (general_spelling_32 e r r.reg_name regs contents v hregs hr rfl).2.2
    have hget := (general_spelling_32 (e.write regs r.reg_offset v) r r.reg_name regs contents v
      hregs hr rfl).2.1
    rw [write_same] at hget
    have hK : (e.write regs r.reg_offset v).KERNEL_CS = e.KERNEL_CS := rfl
    have hS : (e.write regs r.reg_offset v).sizeof_pt_regs = e.sizeof_pt_regs := rfl
    rw [hK, hS] at hget
    have hcs : r.reg_name = ['s', 'p'] →
        (e.write regs r.reg_offset v).frames regs X86_32.pt_regs.cs
          = e.frames regs X86_32.pt_regs.cs := by
      intro hsp
      apply write_frames
      right
      rw [(table_sp_32 r hr).2.1 hsp]
      decide
    refine ⟨hset, hget, ?_, ?_⟩
    · intro h
      rw [hget]
      by_cases hsp : r.reg_name = ['s', 'p']
      · rcases h with h | h
        · exact absurd hsp h
        · rw [hcs hsp]
          simp [h]
      · simp [hsp]
    · intro hsp hk
      rw [hget, hcs hsp]
      simp [hsp, hk]
  · intro e r hr
    have hset := (general_spelling_64 e r r.reg_name regs contents v hregs hr rfl).2.2
    have hget := (general_spelling_64 (e.write regs r.reg_offset v) r r.reg_name regs contents v
      hregs hr rfl).2.1
    rw [write_same] at hget
    have hK : (e.write regs r.reg_offset v).KERNEL_CS = e.KERNEL_CS := rfl
    have hS : (e.write regs r.reg_offset v).sizeof_pt_regs = e.sizeof_pt_regs := rfl
    rw [hK, hS] at hget
    have hcs : r.reg_name = ['s', 'p'] →
        (e.write regs r.reg_offset v).frames regs X86_64.pt_regs.cs
          = e.frames regs X86_64.pt_regs.cs := by
      intro hsp
      apply write_frames
      right
      rw [(table_sp_64 r hr).1 hsp]
      decide
    refine ⟨hset, hget, ?_, ?_⟩
    · intro h
      rw [hget]
      by_cases hsp : r.reg_name = ['s', 'p']
      · rcases h with h | h
        · exact absurd hsp h
        · rw [hcs hsp]
          simp [h]
      · simp [hsp]
    · intro hsp hk
      rw [hget, hcs hsp]
      simp [hsp, hk]

/-- Witness for C22: `cs` is set to `0x60`, the kernel selector, in the 32-bit
build and reads back `0x60`; `sp` is set to `0x1234` on a 64-bit frame taken
without a privilege change and reads back the computed address. -/
theorem set_then_get_witness :
    (0xc0ffffbc ≠ 0)
    ∧ (⟨"cs".toList, X86_32.pt_regs.cs⟩ : kdbregs X86_32.pt_regs) ∈ X86_32.kdbreglist
    ∧ X86_32.kdba_setregcontents ctx32_sample "cs".toList 0xc0ffffbc 0x60
      = (kdb_diag.ok, ctx32_sample.write 0xc0ffffbc X86_32.pt_regs.cs 0x60)
    ∧ X86_32.kdba_getregcontents (ctx32_sample.write 0xc0ffffbc X86_32.pt_regs.cs 0x60)
        "cs".toList 0xc0ffffbc 0 = (kdb_diag.ok, 0x60)
    ∧ (⟨"sp".toList, X86_64.pt_regs.sp⟩ : kdbregs X86_64.pt_regs) ∈ X86_64.kdbreglist
    ∧ X86_64.kdba_getregcontents (ctx64_kernel.write 0xffff8800000fff58 X86_64.pt_regs.sp 0x1234)
        "sp".toList 0xffff8800000fff58 0 = some (kdb_diag.ok, 0xffff880000100000 - 16) :=
  have h32 := (set_then_get 0xc0ffffbc 0 0x60 (by decide)).1 ctx32_sample
    ⟨"cs".toList, X86_32.pt_regs.cs⟩ (by decide)
  have h64 := (set_then_get 0xffff8800000fff58 0 0x1234 (by decide)).2 ctx64_kernel
    ⟨"sp".toList, X86_64.pt_regs.sp⟩ (by decide)
  ⟨by decide, by decide, h32.1, h32.2.2.1 (Or.inl (by decide)), by decide,
    (h64.2.2.2 rfl (by decide)).trans (by decide)⟩

end Lkmd
